import Mathlib

/-!
# ThingSet JSON codec (`src/thingset_json.c`)

A shallow embedding of the text-mode request handlers of the ThingSet protocol library and
the properties of its specification that concern them.

## Conventions of the embedding

* A C `char` is a `Char`; the terminator is `NUL`.  A `List Char` standing for memory read
  through a `char*` is the bytes from the pointer on; reading past the end of the list reads
  `NUL`, so a C string is its content with the terminator left implicit.
* `ts_config.h`, `thingset.h` and `jsmn.h` are not part of the sources: every macro, table or
  platform width they (or the C library) fix is a field of `Config`.
* A pointer into `data->objects` is an index into the list of objects.  The storage a data
  object points to is kept in the object itself (`data_object_t.data`), so distinct objects
  have distinct storage.
* Handlers return the status together with the response buffer (and, for a write, the
  registry) they leave behind.  A loop is a recursion on the number of iterations it has
  left, which its bound fixes on entry; an early `return` inside a loop is an `Except.error`.
* The write handler dereferences a lookup result unchecked; its result is an `Option` and
  `none` stands for that `NULL` dereference (`write_json_returns` shows it never happens).
* The cursor `pos` and the token offsets are natural numbers: their C types, declared in the
  missing headers, are taken to be wide enough for the lengths that occur.  The capacity
  test `pos >= TS_RESP_BUFFER_LEN - 2` is an integer comparison, which is the C comparison
  for every capacity of at least two bytes.
-/

namespace ThingSet

/-! ## C strings and the C library -/

/-- The terminator of a C string. -/
def NUL : Char := Char.ofNat 0

/-- The content of the C string that starts at the pointer: the bytes before the first
terminator. -/
def cstr (m : List Char) : List Char := m.takeWhile (fun c => c != NUL)

/-- C `strlen`. -/
def strlen (m : List Char) : Nat := (cstr m).length

/-- C `strncmp`: compares at most `n` characters, stopping after a terminator; the result is
zero iff no difference was met. -/
def strncmp (a b : List Char) : Nat → Int
  | 0 => 0
  | n + 1 =>
    let ca := a.headD NUL
    let cb := b.headD NUL
    if ca ≠ cb then (ca.toNat : Int) - (cb.toNat : Int)
    else if ca = NUL then 0
    else strncmp a.tail b.tail n

/-- Overwrites memory `m` from offset `off` on with the bytes `s`.  Memory is not bounded in
the embedding: a write past the end of the list extends it. -/
def poke (m : List Char) (off : Nat) (s : List Char) : List Char :=
  m.take off ++ List.replicate (off - m.length) NUL ++ s ++ m.drop (off + s.length)

/-- C `sprintf(&m[off], ...)` whose formatted output is `s`: writes `s` and a terminator with
no bound.  The returned count `s.length` is added by the callers. -/
def sprintf (m : List Char) (off : Nat) (s : List Char) : List Char :=
  poke m off (s ++ [NUL])

/-- C `snprintf(&m[off], size, ...)` whose formatted output is `s`: writes at most `size - 1`
characters of `s` and a terminator, nothing when `size` is zero.  `size` is the C expression
`TS_RESP_BUFFER_LEN - pos`; a negative difference converts to a `size_t` near `SIZE_MAX`,
which bounds nothing.  The returned count is `s.length` whatever was written. -/
def snprintf (m : List Char) (off : Nat) (size : Int) (s : List Char) : List Char :=
  if size = 0 then m
  else if size < 0 then sprintf m off s
  else poke m off (s.take (size.toNat - 1) ++ [NUL])

/-- The decimal digits of `n`, most significant first, computed with `fuel` steps at most
(one step per digit). -/
def dec_digits : Nat → Nat → List Char
  | 0, _ => []
  | fuel + 1, n =>
    if n < 10 then [Nat.digitChar n]
    else dec_digits fuel (n / 10) ++ [Nat.digitChar (n % 10)]

/-- Output of `printf("%u")` and its wider variants: the decimal digits of `n` (a number has
no more digits than its value plus one). -/
def fmt_u (n : Nat) : List Char := dec_digits (n + 1) n

/-- Output of `printf("%d")`/`"%i"` and its wider variants. -/
def fmt_i (z : Int) : List Char :=
  if z < 0 then '-' :: fmt_u z.natAbs else fmt_u z.natAbs

/-- C `isspace` in the "C" locale. -/
def isspace (c : Char) : Bool :=
  c = ' ' || c = '\t' || c = '\n' || c = Char.ofNat 11 || c = Char.ofNat 12 || c = '\r'

/-- Value of a character as a digit of the `strto*` family (letters count from ten), if any. -/
def digitVal (c : Char) : Option Nat :=
  if '0' ≤ c ∧ c ≤ '9' then some (c.toNat - '0'.toNat)
  else if 'a' ≤ c ∧ c ≤ 'z' then some (c.toNat - 'a'.toNat + 10)
  else if 'A' ≤ c ∧ c ≤ 'Z' then some (c.toNat - 'A'.toNat + 10)
  else none

/-- Accumulates the longest run of digits valid in `base`. -/
def scanDigits (base : Nat) : List Char → Nat → Nat
  | [], acc => acc
  | c :: rest, acc =>
    match digitVal c with
    | some d => if d < base then scanDigits base rest (acc * base + d) else acc
    | none => acc

/-- Whether `c` is a hexadecimal digit. -/
def isxdigit (c : Char) : Bool :=
  match digitVal c with
  | some d => decide (d < 16)
  | none => false

/-- The subject sequence of `strtol(s, NULL, 0)` and its siblings: white space is skipped, a
sign is taken, the base follows the prefix (`0x`/`0X` before a hexadecimal digit: 16, a
leading `0`: 8, else 10) and the longest run of digits is read.  Returns whether a minus sign
was read and the magnitude (zero when there is no digit). -/
def strto_subject (s : List Char) : Bool × Nat :=
  let s := s.dropWhile isspace
  let neg : Bool := decide (s.headD NUL = '-')
  let body := if s.headD NUL = '-' ∨ s.headD NUL = '+' then s.tail else s
  let mag : Nat :=
    if body.headD NUL = '0' then
      if (body.getD 1 NUL = 'x' ∨ body.getD 1 NUL = 'X') ∧ isxdigit (body.getD 2 NUL) = true then
        scanDigits 16 (body.drop 2) 0
      else scanDigits 8 body 0
    else scanDigits 10 body 0
  (neg, mag)

/-- C `strtoul`-like conversion to an unsigned type of `w` bits, base 0: the value and
whether `errno` is set to `ERANGE`.  A magnitude above the maximum gives the maximum and
`ERANGE`; a minus sign negates an in-range magnitude within the unsigned type. -/
def strtou (w : Nat) (s : List Char) : Nat × Bool :=
  let r := strto_subject s
  if r.2 > 2 ^ w - 1 then (2 ^ w - 1, true)
  else if r.1 then ((2 ^ w - r.2) % 2 ^ w, false)
  else (r.2, false)

/-- C `strtol`-like conversion to a signed type of `w` bits, base 0: the value and whether
`errno` is set to `ERANGE`.  Out-of-range values are clamped to the nearest bound. -/
def strtoi (w : Nat) (s : List Char) : Int × Bool :=
  let r := strto_subject s
  if r.1 then
    if r.2 > 2 ^ (w - 1) then (-(2 ^ (w - 1) : Int), true) else (-(r.2 : Int), false)
  else
    if r.2 > 2 ^ (w - 1) - 1 then ((2 ^ (w - 1) : Int) - 1, true) else ((r.2 : Int), false)

/-- Two's-complement reading of a `w`-bit pattern. -/
def toSigned (w : Nat) (bits : Nat) : Int :=
  if bits % 2 ^ w < 2 ^ (w - 1) then (bits % 2 ^ w : Nat) else ((bits % 2 ^ w : Nat) : Int) - 2 ^ w

/-- The `w`-bit pattern of an integer (conversion to a `w`-bit integer type). -/
def toBits (w : Nat) (z : Int) : Nat := (z % 2 ^ w).toNat

/-! ## Data model -/

/-- Modelled from the spec: the token kinds of the tokenizer, declared in the missing
`jsmn.h`; these are the four kinds the source tests for and the spec lists. -/
inductive jsmntype_t
  | JSMN_PRIMITIVE
  | JSMN_OBJECT
  | JSMN_ARRAY
  | JSMN_STRING
  deriving DecidableEq, Repr

/-- Modelled from the spec: a token of the tokenizer (`jsmntok_t` of the missing `jsmn.h`),
its kind and the byte offsets `start` and `end` of its text in the request.  The tokenizer
only emits `start ≤ end`, which the type records (`end` is spelt `end_`). -/
structure jsmntok_t where
  type : jsmntype_t
  start : Nat
  end_ : Nat
  le : start ≤ end_
  deriving DecidableEq

/-- Modelled from the spec: the parser state a handler receives (`ts_parser_t` of the missing
`thingset.h`), with the fields the source uses: request text, token array and the
tokenizer's result (`tok_count`, negative for an error). -/
structure ts_parser_t where
  str : List Char
  tokens : List jsmntok_t
  tok_count : Int

/-- Reading `parser->tokens[i]`.  The array is the list; an index beyond it reads an empty
primitive token. -/
def ts_parser_t.tok (p : ts_parser_t) (i : Nat) : jsmntok_t :=
  p.tokens.getD i ⟨jsmntype_t.JSMN_PRIMITIVE, 0, 0, Nat.le_refl 0⟩

/-- The pointer `parser->str + tokens[i].start`. -/
def ts_parser_t.tok_ptr (p : ts_parser_t) (i : Nat) : List Char :=
  p.str.drop (p.tok i).start

/-- The length `tokens[i].end - tokens[i].start`. -/
def ts_parser_t.tok_len (p : ts_parser_t) (i : Nat) : Nat :=
  (p.tok i).end_ - (p.tok i).start

/-- Modelled from the spec: the protocol status codes (`TS_STATUS_*` macros of the missing
`thingset.h`), the ten the source names; their numeric values are `Config.status_code`. -/
inductive ts_status
  | TS_STATUS_SUCCESS
  | TS_STATUS_UNKNOWN_FUNCTION
  | TS_STATUS_UNKNOWN_DATA_OBJ
  | TS_STATUS_WRONG_FORMAT
  | TS_STATUS_WRONG_TYPE
  | TS_STATUS_DEVICE_BUSY
  | TS_STATUS_UNAUTHORIZED
  | TS_STATUS_REQUEST_TOO_LONG
  | TS_STATUS_RESPONSE_TOO_LONG
  | TS_STATUS_INVALID_VALUE
  deriving DecidableEq, Repr

/-- Modelled from the spec: the type tags of data objects (`TS_T_*` of the missing
`thingset.h`), the nine the source switches on and the spec lists. -/
inductive ts_type
  | TS_T_UINT64
  | TS_T_INT64
  | TS_T_UINT32
  | TS_T_INT32
  | TS_T_UINT16
  | TS_T_INT16
  | TS_T_FLOAT32
  | TS_T_BOOL
  | TS_T_STRING
  deriving DecidableEq, Repr

/-- Modelled from the spec: the storage behind the untyped pointer `data_object_t.data`,
which the missing registry declares.  Integer storage is a bit pattern of its width
(signedness belongs to the pointer it is read through); a float is kept as the text `strtod`
converted it from, floating point being outside the embedding; a string is the memory of its
character array; `func` is the callable of an executable object. -/
inductive ts_cell
  | word16 (bits : Nat)
  | word32 (bits : Nat)
  | word64 (bits : Nat)
  | float32 (text : List Char)
  | boolean (b : Bool)
  | chars (m : List Char)
  | func (k : Nat)
  deriving DecidableEq, Repr

/-- Modelled from the spec: a data object of the registry (`data_object_t` of the missing
`thingset.h`), with the fields the source uses; `data` holds the storage the C field points
to, `detail` is a signed integer (the source casts it to `size_t`). -/
structure data_object_t where
  id : Nat
  access : Nat
  type : ts_type
  detail : Int
  data : ts_cell
  name : List Char
  deriving DecidableEq

/-- Modelled from the spec: the registry (`ts_data_t` of the missing `thingset.h`), its
`objects` in declaration order; `size` is the length of the list. -/
structure ts_data_t where
  objects : List data_object_t
  deriving DecidableEq

/-- Modelled from the spec: the response buffer (`ts_buffer_t` of the missing
`thingset.h`), with the fields the source uses: the memory of `data.str`, the cursor `pos`
and the capacity `size` the caller recorded. -/
structure ts_buffer_t where
  str : List Char
  pos : Nat
  size : Nat
  deriving DecidableEq

/-- What the missing headers and the platform fix, as parameters. -/
structure Config where
  /-- Capacity of the response buffer. -/
  TS_RESP_BUFFER_LEN : Nat
  /-- Whether `TS_VERBOSE_STATUS_MESSAGES` is defined. -/
  TS_VERBOSE_STATUS_MESSAGES : Bool
  /-- Whether `TS_64BIT_TYPES_SUPPORT` is defined. -/
  TS_64BIT_TYPES_SUPPORT : Bool
  /-- Numeric value of each `TS_STATUS_*` macro. -/
  status_code : ts_status → Nat
  /-- Access bit masks. -/
  TS_ACCESS_READ : Nat
  TS_ACCESS_WRITE : Nat
  TS_ACCESS_EXEC : Nat
  /-- The table `ts_categories` of category names. -/
  ts_categories : List (List Char)
  /-- Value of `JSMN_ERROR_NOMEM` (`jsmn.h`), the count of a tokenizer out of tokens. -/
  JSMN_ERROR_NOMEM : Int
  /-- Width of `long` (and `unsigned long`) in bits. -/
  long_bits : Nat
  /-- Width of `long long` (and `unsigned long long`) in bits. -/
  llong_bits : Nat
  /-- Whether `strtod` on the text sets `errno` to `ERANGE`. -/
  strtod_erange : List Char → Bool
  /-- Output of `printf("%.*f", detail, x)` for the float converted from the text. -/
  fmt_f : Int → List Char → List Char

/-- Size of the scratch array `buf` of the write handler. -/
def sizeof_buf : Nat := 21

/-! ### Reading and writing storage through a typed pointer

A read at a width or kind other than the cell's is a type confusion the C program leaves
undefined; the embedding reads a zero value there. -/

/-- Reads `*((uint16_t*)data)`. -/
def ts_cell.load16 : ts_cell → Nat
  | word16 b => b % 2 ^ 16
  | _ => 0

/-- Reads `*((uint32_t*)data)`. -/
def ts_cell.load32 : ts_cell → Nat
  | word32 b => b % 2 ^ 32
  | _ => 0

/-- Reads `*((uint64_t*)data)`. -/
def ts_cell.load64 : ts_cell → Nat
  | word64 b => b % 2 ^ 64
  | _ => 0

/-- Reads `*((float*)data)`. -/
def ts_cell.loadFloat : ts_cell → List Char
  | float32 t => t
  | _ => []

/-- Reads `*((bool*)data)`. -/
def ts_cell.loadBool : ts_cell → Bool
  | boolean b => b
  | _ => false

/-- The memory at `(char*)data`. -/
def ts_cell.loadChars : ts_cell → List Char
  | chars m => m
  | _ => []

/-- Memory `dst` after `strncpy(dst, src, n); dst[n] = '\0';`: the characters of `src` up to
its terminator, at most `n` of them, padded with terminators to `n`, and one more
terminator. -/
def strncpy_term (dst src : List Char) (n : Nat) : List Char :=
  let c := cstr (src.take n)
  poke dst 0 (c ++ List.replicate (n - c.length) NUL ++ [NUL])

/-! ## Registry lookup and status lines -/

/-- The scan of `thingset_data_object_by_name` from index `i` on: the first object whose name
agrees with `str` on `len` characters (`strncmp`) and has length `len` (`strlen`), as the
pointer (index) and the object it points to. -/
def by_name_from (str : List Char) (len : Nat) :
    List data_object_t → Nat → Option (Nat × data_object_t)
  | [], _ => none
  | o :: rest, i =>
    if strncmp o.name str len = 0 ∧ strlen o.name = len then some (i, o)
    else by_name_from str len rest (i + 1)

/-- The function `thingset_data_object_by_name(data, str, len)`; `none` is `NULL`. -/
def thingset_data_object_by_name (data : ts_data_t) (str : List Char) (len : Nat) :
    Option (Nat × data_object_t) :=
  by_name_from str len data.objects 0

/-- The phrase of a status in verbose mode. -/
def status_phrase : ts_status → List Char
  | .TS_STATUS_SUCCESS => "Success.".toList
  | .TS_STATUS_UNKNOWN_FUNCTION => "Unknown function.".toList
  | .TS_STATUS_UNKNOWN_DATA_OBJ => "Data object not found.".toList
  | .TS_STATUS_WRONG_FORMAT => "Wrong format.".toList
  | .TS_STATUS_WRONG_TYPE => "Data type not supported.".toList
  | .TS_STATUS_DEVICE_BUSY => "Device busy.".toList
  | .TS_STATUS_UNAUTHORIZED => "Unauthorized.".toList
  | .TS_STATUS_REQUEST_TOO_LONG => "Request too long.".toList
  | .TS_STATUS_RESPONSE_TOO_LONG => "Response too long.".toList
  | .TS_STATUS_INVALID_VALUE => "Invalid or too large value.".toList

/-- The status line `sprintf` formats for `code`: `:<code> <phrase>` in verbose mode,
`:<code>.` otherwise. -/
def status_line (cfg : Config) (code : ts_status) : List Char :=
  if cfg.TS_VERBOSE_STATUS_MESSAGES then
    ':' :: (fmt_u (cfg.status_code code) ++ ' ' :: status_phrase code)
  else ':' :: (fmt_u (cfg.status_code code) ++ ['.'])

/-- The function `thingset_status_message_json(resp, code)`: the status line is written at the start of
the buffer and the cursor is set to its `strlen`. -/
def thingset_status_message_json (cfg : Config) (resp : ts_buffer_t) (code : ts_status) :
    ts_buffer_t :=
  let m := sprintf resp.str 0 (status_line cfg code)
  { resp with str := m, pos := strlen m }

/-- The statement `buf->pos += snprintf(&buf->data.str[buf->pos], TS_RESP_BUFFER_LEN -
buf->pos, ...)` whose formatted output is `s`. -/
def ts_buffer_t.put_n (cfg : Config) (buf : ts_buffer_t) (s : List Char) : ts_buffer_t :=
  { buf with
    str := snprintf buf.str buf.pos ((cfg.TS_RESP_BUFFER_LEN : Int) - (buf.pos : Int)) s,
    pos := buf.pos + s.length }

/-- The statement `resp->pos += sprintf(&resp->data.str[resp->pos], ...)` whose formatted
output is `s`. -/
def ts_buffer_t.put (buf : ts_buffer_t) (s : List Char) : ts_buffer_t :=
  { buf with str := sprintf buf.str buf.pos s, pos := buf.pos + s.length }

/-- The function `_json_serialize_data_object(buf, data_obj, include_name)`.  The 64-bit cases exist only
under `TS_64BIT_TYPES_SUPPORT`; without them the `switch` appends nothing for these types. -/
def _json_serialize_data_object (cfg : Config) (buf : ts_buffer_t) (data_obj : data_object_t)
    (include_name : Bool) : ts_buffer_t :=
  let buf :=
    if include_name then buf.put_n cfg ('"' :: (cstr data_obj.name ++ ['"', ':'])) else buf
  match data_obj.type with
  | .TS_T_UINT64 =>
    if cfg.TS_64BIT_TYPES_SUPPORT then buf.put_n cfg (fmt_u data_obj.data.load64 ++ [',', ' '])
    else buf
  | .TS_T_INT64 =>
    if cfg.TS_64BIT_TYPES_SUPPORT then
      buf.put_n cfg (fmt_i (toSigned 64 data_obj.data.load64) ++ [',', ' '])
    else buf
  | .TS_T_UINT32 => buf.put_n cfg (fmt_u data_obj.data.load32 ++ [',', ' '])
  | .TS_T_INT32 => buf.put_n cfg (fmt_i (toSigned 32 data_obj.data.load32) ++ [',', ' '])
  | .TS_T_UINT16 => buf.put_n cfg (fmt_u data_obj.data.load16 ++ [',', ' '])
  | .TS_T_INT16 => buf.put_n cfg (fmt_i (toSigned 16 data_obj.data.load16) ++ [',', ' '])
  | .TS_T_FLOAT32 =>
    buf.put_n cfg (cfg.fmt_f data_obj.detail data_obj.data.loadFloat ++ [',', ' '])
  | .TS_T_BOOL =>
    buf.put_n cfg ((if data_obj.data.loadBool = true then "true".toList else "false".toList)
      ++ [',', ' '])
  | .TS_T_STRING => buf.put_n cfg ('"' :: (cstr data_obj.data.loadChars ++ ['"', ',', ' ']))

/-! ## Read handler -/

/-- The `while (tok < parser->tok_count)` loop of `thingset_read_json` with `n` iterations
left (`n = tok_count - tok`).  An early `return` is an `error` carrying the status and the
buffer; `ok` is the buffer at loop exit. -/
def read_loop (cfg : Config) (parser : ts_parser_t) (data : ts_data_t) :
    Nat → Nat → ts_buffer_t → Except (ts_status × ts_buffer_t) ts_buffer_t
  | 0, _, resp => .ok resp
  | n + 1, tok, resp =>
    if (parser.tok tok).type ≠ .JSMN_STRING then
      .error (.TS_STATUS_WRONG_FORMAT,
        thingset_status_message_json cfg resp .TS_STATUS_WRONG_FORMAT)
    else
      match thingset_data_object_by_name data (parser.tok_ptr tok) (parser.tok_len tok) with
      | none =>
        .error (.TS_STATUS_UNKNOWN_DATA_OBJ,
          thingset_status_message_json cfg resp .TS_STATUS_UNKNOWN_DATA_OBJ)
      | some (_, data_obj) =>
        if data_obj.access &&& cfg.TS_ACCESS_READ = 0 then
          .error (.TS_STATUS_UNAUTHORIZED,
            thingset_status_message_json cfg resp .TS_STATUS_UNAUTHORIZED)
        else
          let resp := _json_serialize_data_object cfg resp data_obj false
          if (resp.pos : Int) ≥ (cfg.TS_RESP_BUFFER_LEN : Int) - 2 then
            .error (.TS_STATUS_RESPONSE_TOO_LONG,
              thingset_status_message_json cfg resp .TS_STATUS_RESPONSE_TOO_LONG)
          else read_loop cfg parser data n (tok + 1) resp

/-- The function `thingset_read_json(parser, resp, data)`. -/
def thingset_read_json (cfg : Config) (parser : ts_parser_t) (resp : ts_buffer_t)
    (data : ts_data_t) : ts_status × ts_buffer_t :=
  let resp := thingset_status_message_json cfg resp .TS_STATUS_SUCCESS
  let is_array : Bool := decide ((parser.tok 0).type = .JSMN_ARRAY)
  let resp := if is_array then resp.put [' ', '['] else resp.put [' ']
  let tok : Nat := if is_array then 1 else 0
  match read_loop cfg parser data (parser.tok_count - (tok : Int)).toNat tok resp with
  | .error r => r
  | .ok resp =>
    let resp : ts_buffer_t := { resp with pos := resp.pos - 2 }
    if is_array then (.TS_STATUS_SUCCESS, resp.put [']'])
    else (.TS_STATUS_SUCCESS, { resp with str := poke resp.str resp.pos [NUL] })

/-! ## Write handler -/

/-- Whether the conversion the validation loop runs for a numeric object sets `errno` to
`ERANGE` (`errno` is cleared before; string and bool objects convert nothing). -/
def conv_erange (cfg : Config) (type : ts_type) (buf : List Char) : Bool :=
  match type with
  | .TS_T_FLOAT32 => cfg.strtod_erange (cstr buf)
  | .TS_T_UINT32 => (strtou cfg.long_bits (cstr buf)).2
  | .TS_T_UINT16 => (strtou cfg.long_bits (cstr buf)).2
  | .TS_T_INT32 => (strtoi cfg.long_bits (cstr buf)).2
  | .TS_T_INT16 => (strtoi cfg.long_bits (cstr buf)).2
  | .TS_T_UINT64 => (strtou cfg.llong_bits (cstr buf)).2
  | .TS_T_INT64 => (strtoi cfg.llong_bits (cstr buf)).2
  | _ => false

/-- The validation loop of `thingset_write_json` with `n` pairs left (`tok + 1 < tok_count`
holds `n` more times); the scratch array `buf` is threaded through.  An early `return` is an
`error` carrying the status and the buffer; `ok` is `buf` at loop exit.  Nothing in the loop
stores through a data object.

In `value_len >= (size_t)data_obj->detail` a negative `detail` converts to a `size_t` above
every `value_len < sizeof(buf)`, so the test holds iff `0 ≤ detail ≤ value_len`. -/
def write_validate (cfg : Config) (parser : ts_parser_t) (resp : ts_buffer_t)
    (data : ts_data_t) : Nat → Nat → List Char → Except (ts_status × ts_buffer_t) (List Char)
  | 0, _, buf => .ok buf
  | n + 1, tok, buf =>
    if (parser.tok tok).type ≠ .JSMN_STRING ∨
        ((parser.tok (tok + 1)).type ≠ .JSMN_PRIMITIVE ∧
          (parser.tok (tok + 1)).type ≠ .JSMN_STRING) then
      .error (.TS_STATUS_WRONG_FORMAT,
        thingset_status_message_json cfg resp .TS_STATUS_WRONG_FORMAT)
    else
      match thingset_data_object_by_name data (parser.tok_ptr tok) (parser.tok_len tok) with
      | none =>
        .error (.TS_STATUS_UNKNOWN_DATA_OBJ,
          thingset_status_message_json cfg resp .TS_STATUS_UNKNOWN_DATA_OBJ)
      | some (_, data_obj) =>
        if data_obj.access &&& cfg.TS_ACCESS_WRITE = 0 then
          .error (.TS_STATUS_UNAUTHORIZED,
            thingset_status_message_json cfg resp .TS_STATUS_UNAUTHORIZED)
        else
          let value_len := parser.tok_len (tok + 1)
          if value_len ≥ sizeof_buf ∨
              (data_obj.type = .TS_T_STRING ∧ 0 ≤ data_obj.detail ∧
                data_obj.detail ≤ (value_len : Int)) then
            .error (.TS_STATUS_INVALID_VALUE,
              thingset_status_message_json cfg resp .TS_STATUS_INVALID_VALUE)
          else
            let buf := strncpy_term buf (parser.tok_ptr (tok + 1)) value_len
            if data_obj.type = .TS_T_STRING then
              if (parser.tok (tok + 1)).type ≠ .JSMN_STRING then
                .error (.TS_STATUS_WRONG_TYPE,
                  thingset_status_message_json cfg resp .TS_STATUS_WRONG_TYPE)
              else write_validate cfg parser resp data n (tok + 2) buf
            else if data_obj.type = .TS_T_BOOL then
              if ¬ (buf.headD NUL = 't' ∨ buf.headD NUL = '1' ∨ buf.headD NUL = 'f' ∨
                  buf.headD NUL = '0') then
                .error (.TS_STATUS_WRONG_TYPE,
                  thingset_status_message_json cfg resp .TS_STATUS_WRONG_TYPE)
              else write_validate cfg parser resp data n (tok + 2) buf
            else
              if (parser.tok (tok + 1)).type ≠ .JSMN_PRIMITIVE then
                .error (.TS_STATUS_WRONG_TYPE,
                  thingset_status_message_json cfg resp .TS_STATUS_WRONG_TYPE)
              else if conv_erange cfg data_obj.type buf = true then
                .error (.TS_STATUS_INVALID_VALUE,
                  thingset_status_message_json cfg resp .TS_STATUS_INVALID_VALUE)
              else write_validate cfg parser resp data n (tok + 2) buf

/-- The storage of `data_obj` after the `switch` of the commit loop: the conversion of
`buf` is stored through a pointer of the case's type (`src` and `value_len` are the value
token, copied directly for a string).  The `TS_T_INT16` case stores through a `uint16_t`
pointer, as the source does. -/
def commit_cell (cfg : Config) (data_obj : data_object_t) (buf src : List Char)
    (value_len : Nat) : ts_cell :=
  match data_obj.type with
  | .TS_T_FLOAT32 => .float32 (cstr buf)
  | .TS_T_UINT64 => .word64 ((strtou cfg.llong_bits (cstr buf)).1 % 2 ^ 64)
  | .TS_T_INT64 => .word64 (toBits 64 (strtoi cfg.llong_bits (cstr buf)).1)
  | .TS_T_UINT32 => .word32 ((strtou cfg.long_bits (cstr buf)).1 % 2 ^ 32)
  | .TS_T_INT32 => .word32 (toBits 32 (strtoi cfg.long_bits (cstr buf)).1)
  | .TS_T_UINT16 => .word16 ((strtou cfg.long_bits (cstr buf)).1 % 2 ^ 16)
  | .TS_T_INT16 => .word16 (toBits 16 (strtoi cfg.long_bits (cstr buf)).1)
  | .TS_T_BOOL =>
    if buf.headD NUL = 't' ∨ buf.headD NUL = '1' then .boolean true
    else if buf.headD NUL = 'f' ∨ buf.headD NUL = '0' then .boolean false
    else data_obj.data
  | .TS_T_STRING => .chars (strncpy_term data_obj.data.loadChars src value_len)

/-- The registry after a store through `data->objects[i].data`. -/
def ts_data_t.store (data : ts_data_t) (i : Nat) (cell : ts_cell) : ts_data_t :=
  { objects := data.objects.modify (fun o => { o with data := cell }) i }

/-- The commit loop of `thingset_write_json` with `n` pairs left.  The value is copied to
`buf` again only under the guard `value_len < sizeof(buf)`.  The lookup result is
dereferenced unchecked: `none` is the loop dereferencing `NULL`. -/
def write_commit (cfg : Config) (parser : ts_parser_t) :
    Nat → Nat → List Char → ts_data_t → Option ts_data_t
  | 0, _, _, data => some data
  | n + 1, tok, buf, data =>
    match thingset_data_object_by_name data (parser.tok_ptr tok) (parser.tok_len tok) with
    | none => none
    | some (i, data_obj) =>
      let value_len := parser.tok_len (tok + 1)
      let buf :=
        if value_len < sizeof_buf then strncpy_term buf (parser.tok_ptr (tok + 1)) value_len
        else buf
      write_commit cfg parser n (tok + 2) buf
        (data.store i (commit_cell cfg data_obj buf (parser.tok_ptr (tok + 1)) value_len))

/-- The function `thingset_write_json(parser, resp, data)`: the status, the response buffer and the
registry after the call; `none` iff the commit loop dereferences `NULL`.  The scratch array
starts out with unspecified content, here empty. -/
def thingset_write_json (cfg : Config) (parser : ts_parser_t) (resp : ts_buffer_t)
    (data : ts_data_t) : Option (ts_status × ts_buffer_t × ts_data_t) :=
  if parser.tok_count < 2 then
    if parser.tok_count = cfg.JSMN_ERROR_NOMEM then
      some (.TS_STATUS_REQUEST_TOO_LONG,
        thingset_status_message_json cfg resp .TS_STATUS_WRONG_FORMAT, data)
    else
      some (.TS_STATUS_WRONG_FORMAT,
        thingset_status_message_json cfg resp .TS_STATUS_WRONG_FORMAT, data)
  else
    let tok : Nat := if (parser.tok 0).type = .JSMN_OBJECT then 1 else 0
    let n : Nat := (parser.tok_count.toNat - tok) / 2
    match write_validate cfg parser resp data n tok [] with
    | .error (status, resp) => some (status, resp, data)
    | .ok buf =>
      match write_commit cfg parser n tok buf data with
      | none => none
      | some data =>
        some (.TS_STATUS_SUCCESS,
          thingset_status_message_json cfg resp .TS_STATUS_SUCCESS, data)

/-! ## List handler -/

/-- The category loop of `thingset_list_json` from index `i` on: the mask `(i + 1) << 12`,
as a `uint16_t`, of the first category name that `strncmp` finds equal to the token text on
the token's length; the mask stays 0 when there is none.  (The index is a `uint8_t`; the
table is taken to have fewer than 256 entries.) -/
def category_mask (str : List Char) (len : Nat) : List (List Char) → Nat → Nat
  | [], _ => 0
  | c :: rest, i =>
    if strncmp c str len = 0 then ((i + 1) <<< 12) % 2 ^ 16
    else category_mask str len rest (i + 1)

/-- The loop of `thingset_list_json` over the objects that are left.  An early `return` is
an `error` carrying the status and the buffer. -/
def list_loop (cfg : Config) (mask : Nat) :
    List data_object_t → ts_buffer_t → Except (ts_status × ts_buffer_t) ts_buffer_t
  | [], resp => .ok resp
  | o :: rest, resp =>
    if o.access &&& cfg.TS_ACCESS_READ ≠ 0 ∧ o.id &&& mask = mask then
      let resp := resp.put_n cfg ('"' :: (cstr o.name ++ ['"', ',', ' ']))
      if (resp.pos : Int) ≥ (cfg.TS_RESP_BUFFER_LEN : Int) - 2 then
        .error (.TS_STATUS_RESPONSE_TOO_LONG,
          thingset_status_message_json cfg resp .TS_STATUS_RESPONSE_TOO_LONG)
      else list_loop cfg mask rest resp
    else list_loop cfg mask rest resp

/-- The function `thingset_list_json(parser, resp, data)`. -/
def thingset_list_json (cfg : Config) (parser : ts_parser_t) (resp : ts_buffer_t)
    (data : ts_data_t) : ts_status × ts_buffer_t :=
  let resp := thingset_status_message_json cfg resp .TS_STATUS_SUCCESS
  let mask : Option Nat :=
    if parser.tok_count = 0 then some 0
    else if parser.tok_count = 1 ∧ (parser.tok 0).type = .JSMN_STRING then
      some (category_mask (parser.tok_ptr 0) (parser.tok_len 0) cfg.ts_categories 0)
    else none
  match mask with
  | none =>
    (.TS_STATUS_WRONG_FORMAT, thingset_status_message_json cfg resp .TS_STATUS_WRONG_FORMAT)
  | some mask =>
    match list_loop cfg mask data.objects (resp.put [' ', '[']) with
    | .error r => r
    | .ok resp =>
      (.TS_STATUS_SUCCESS,
        { resp with str := sprintf resp.str (resp.pos - 2) [']'], pos := resp.pos - 1 })

/-! ## Exec handler -/

/-- The function `thingset_exec_json(parser, resp, data)`.  The call `fun()` through the
pointer `data_obj->data` is recorded in the log `calls` of what was called, in call order;
what the callable does is not part of the handler. -/
def thingset_exec_json (cfg : Config) (parser : ts_parser_t) (resp : ts_buffer_t)
    (data : ts_data_t) (calls : List ts_cell) : ts_status × ts_buffer_t × List ts_cell :=
  let resp := thingset_status_message_json cfg resp .TS_STATUS_SUCCESS
  if (parser.tok 0).type ≠ .JSMN_STRING then
    (.TS_STATUS_WRONG_FORMAT,
      thingset_status_message_json cfg resp .TS_STATUS_WRONG_FORMAT, calls)
  else
    match thingset_data_object_by_name data (parser.tok_ptr 0) (parser.tok_len 0) with
    | none =>
      (.TS_STATUS_UNKNOWN_DATA_OBJ,
        thingset_status_message_json cfg resp .TS_STATUS_UNKNOWN_DATA_OBJ, calls)
    | some (_, data_obj) =>
      if data_obj.access &&& cfg.TS_ACCESS_EXEC = 0 then
        (.TS_STATUS_UNAUTHORIZED,
          thingset_status_message_json cfg resp .TS_STATUS_UNAUTHORIZED, calls)
      else (.TS_STATUS_SUCCESS, resp, calls ++ [data_obj.data])

/-! ## Publication message -/

/-- Modelled from the spec: the scan of `thingset_data_object_by_id`, which the source calls
and a file outside the sources defines; section 4.1 of the specification: "scans in
declaration order; matches iff `id` equal. `None` on miss". -/
def by_id_from (id : Nat) : List data_object_t → Nat → Option (Nat × data_object_t)
  | [], _ => none
  | o :: rest, i => if o.id = id then some (i, o) else by_id_from id rest (i + 1)

/-- Modelled from the spec: the function `thingset_data_object_by_id(data, id)`, defined
outside the sources (see `by_id_from`); `none` is `NULL`. -/
def thingset_data_object_by_id (data : ts_data_t) (id : Nat) : Option (Nat × data_object_t) :=
  by_id_from id data.objects 0

/-- The loop of `thingset_pub_msg_json` over the ids that are left.  The lookup result is
passed on unchecked: `none` is the serialiser dereferencing `NULL`.  An early `return` is an
`error` carrying the status and the buffer as it stands (no status line is written).  The
test `resp->pos >= resp->size - 2` is taken over the integers, as it is for every buffer of
at least two bytes. -/
def pub_loop (cfg : Config) (data : ts_data_t) :
    List Nat → ts_buffer_t → Option (Except (ts_status × ts_buffer_t) ts_buffer_t)
  | [], resp => some (.ok resp)
  | id :: rest, resp =>
    match thingset_data_object_by_id data id with
    | none => none
    | some (_, data_obj) =>
      let resp := _json_serialize_data_object cfg resp data_obj true
      if (resp.pos : Int) ≥ (resp.size : Int) - 2 then
        some (.error (.TS_STATUS_RESPONSE_TOO_LONG, resp))
      else pub_loop cfg data rest resp

/-- The function `thingset_pub_msg_json(resp, data, pub_list, list_len)`, the array
`pub_list` of `list_len` ids being a list; `none` iff an id does not resolve and `NULL` is
dereferenced.  The cursor is left where the loop left it. -/
def thingset_pub_msg_json (cfg : Config) (resp : ts_buffer_t) (data : ts_data_t)
    (pub_list : List Nat) : Option (ts_status × ts_buffer_t) :=
  let resp : ts_buffer_t := { resp with str := sprintf resp.str 0 ['#', ' ', '\x7b'], pos := 3 }
  match pub_loop cfg data pub_list resp with
  | none => none
  | some (.error r) => some r
  | some (.ok resp) =>
    some (.TS_STATUS_SUCCESS, { resp with str := sprintf resp.str (resp.pos - 2) ['\x7d'] })

/-! ## A sample configuration and registry

A build with verbose status lines, 64-bit types, a 32-bit `long`, a 64-bit `long long` and a
response buffer of 60 bytes; the status codes follow the values noted in the source. -/

/-- Status codes of the sample configuration. -/
def sample_codes : ts_status → Nat
  | .TS_STATUS_SUCCESS => 0
  | .TS_STATUS_UNKNOWN_FUNCTION => 31
  | .TS_STATUS_UNKNOWN_DATA_OBJ => 32
  | .TS_STATUS_WRONG_FORMAT => 33
  | .TS_STATUS_WRONG_TYPE => 34
  | .TS_STATUS_DEVICE_BUSY => 35
  | .TS_STATUS_UNAUTHORIZED => 36
  | .TS_STATUS_REQUEST_TOO_LONG => 37
  | .TS_STATUS_RESPONSE_TOO_LONG => 38
  | .TS_STATUS_INVALID_VALUE => 39

/-- The sample configuration. -/
def sample_cfg : Config where
  TS_RESP_BUFFER_LEN := 60
  TS_VERBOSE_STATUS_MESSAGES := true
  TS_64BIT_TYPES_SUPPORT := true
  status_code := sample_codes
  TS_ACCESS_READ := 1
  TS_ACCESS_WRITE := 2
  TS_ACCESS_EXEC := 4
  ts_categories := ["info".toList, "conf".toList, "input".toList]
  JSMN_ERROR_NOMEM := -1
  long_bits := 32
  llong_bits := 64
  strtod_erange := fun _ => false
  fmt_f := fun _ t => cstr t

/-- A parser state from the request text and the tokens as (kind, start, length). -/
def mk_request (s : String) (toks : List (jsmntype_t × Nat × Nat)) : ts_parser_t where
  str := s.toList
  tokens := toks.map (fun t => ⟨t.1, t.2.1, t.2.1 + t.2.2, Nat.le_add_right _ _⟩)
  tok_count := toks.length

/-- An empty response buffer of the sample capacity. -/
def empty_resp : ts_buffer_t := ⟨[], 0, 60⟩

/-- A registry with a `uint16` object `a` and an `int16` object `b`, both readable and
writable. -/
def sample_data : ts_data_t :=
  ⟨[⟨0x1001, 3, .TS_T_UINT16, 0, .word16 7, "a".toList⟩,
    ⟨0x3001, 3, .TS_T_INT16, 0, .word16 65535, "b".toList⟩]⟩

/-- The request `{"a":5,"b":"x"}`: a valid value for `a`, a string for the `int16` object
`b`. -/
def req_valid_then_wrong_type : ts_parser_t :=
  mk_request "\x7b\"a\":5,\"b\":\"x\"\x7d"
    [(.JSMN_OBJECT, 0, 15), (.JSMN_STRING, 2, 1), (.JSMN_PRIMITIVE, 5, 1),
      (.JSMN_STRING, 8, 1), (.JSMN_STRING, 12, 1)]

/-- An object named `foo`. -/
def obj_foo : data_object_t := ⟨0x1002, 1, .TS_T_BOOL, 0, .boolean true, "foo".toList⟩

/-- An object named `fooBar`. -/
def obj_fooBar : data_object_t := ⟨0x1003, 1, .TS_T_BOOL, 0, .boolean false, "fooBar".toList⟩

/-- The request `{"a":70000}`. -/
def req_a_70000 : ts_parser_t :=
  mk_request "\x7b\"a\":70000\x7d"
    [(.JSMN_OBJECT, 0, 11), (.JSMN_STRING, 2, 1), (.JSMN_PRIMITIVE, 5, 5)]

/-- The request `{"a":99999999999}`. -/
def req_a_99999999999 : ts_parser_t :=
  mk_request "\x7b\"a\":99999999999\x7d"
    [(.JSMN_OBJECT, 0, 17), (.JSMN_STRING, 2, 1), (.JSMN_PRIMITIVE, 5, 11)]

/-- The list request `info`, the first category name of the sample configuration. -/
def req_list_info : ts_parser_t := mk_request "\"info\"" [(.JSMN_STRING, 1, 4)]

/-- A registry with a read-only `uint16` object `r`. -/
def readonly_data : ts_data_t := ⟨[⟨0x1001, 1, .TS_T_UINT16, 0, .word16 7, "r".toList⟩]⟩

/-- The request `{"r":1}`. -/
def req_r_1 : ts_parser_t :=
  mk_request "\x7b\"r\":1\x7d"
    [(.JSMN_OBJECT, 0, 7), (.JSMN_STRING, 2, 1), (.JSMN_PRIMITIVE, 5, 1)]

/-! ## Notions used to state the properties -/

/-- A decimal digit character. -/
def is_dec_digit (c : Char) : Prop := ∃ d, d < 10 ∧ c = Nat.digitChar d

/-- The buffer holds the text `t`: its memory starts with `t` and a terminator, `t` has no
terminator inside, and the cursor stands at the end of `t`. -/
def ts_buffer_t.holds (b : ts_buffer_t) (t : List Char) : Prop :=
  NUL ∉ t ∧ b.pos = t.length ∧ ∃ tail, b.str = t ++ NUL :: tail

/-- The text the `switch` of `_json_serialize_data_object` formats for the value of an
object, without the separator `", "` that every case appends. -/
def value_text (cfg : Config) (o : data_object_t) : List Char :=
  match o.type with
  | .TS_T_UINT64 => fmt_u o.data.load64
  | .TS_T_INT64 => fmt_i (toSigned 64 o.data.load64)
  | .TS_T_UINT32 => fmt_u o.data.load32
  | .TS_T_INT32 => fmt_i (toSigned 32 o.data.load32)
  | .TS_T_UINT16 => fmt_u o.data.load16
  | .TS_T_INT16 => fmt_i (toSigned 16 o.data.load16)
  | .TS_T_FLOAT32 => cfg.fmt_f o.detail o.data.loadFloat
  | .TS_T_BOOL => if o.data.loadBool = true then "true".toList else "false".toList
  | .TS_T_STRING => '"' :: (cstr o.data.loadChars ++ ['"'])

/-- Whether the `switch` of `_json_serialize_data_object` has a case for the object's type in
this build: all types but the 64-bit ones, which need `TS_64BIT_TYPES_SUPPORT`. -/
def serializable (cfg : Config) (o : data_object_t) : Bool :=
  cfg.TS_64BIT_TYPES_SUPPORT || (o.type != .TS_T_UINT64 && o.type != .TS_T_INT64)

/-- The number of characters by which `_json_serialize_data_object` (without name) advances
the cursor: value and separator, or nothing where the `switch` has no case. -/
def ser_len (cfg : Config) (o : data_object_t) : Nat :=
  if serializable cfg o = true then (value_text cfg o).length + 2 else 0

/-- From token `tok` on, the tokens are STRING tokens that name, in order, the objects
`objs` of the registry, each with the READ bit set. -/
def reads_resolve (cfg : Config) (parser : ts_parser_t) (data : ts_data_t) :
    List data_object_t → Nat → Bool
  | [], _ => true
  | o :: rest, tok =>
    decide ((parser.tok tok).type = .JSMN_STRING) &&
    decide ((thingset_data_object_by_name data (parser.tok_ptr tok)
      (parser.tok_len tok)).map Prod.snd = some o) &&
    decide (o.access &&& cfg.TS_ACCESS_READ ≠ 0) &&
    reads_resolve cfg parser data rest (tok + 1)

/-- The texts `vs` joined by `", "`. -/
def join_comma (vs : List (List Char)) : List Char := [',', ' '].intercalate vs

/-- The index of the first name token of a read request: 1 behind an ARRAY token, else 0. -/
def read_first (parser : ts_parser_t) : Nat :=
  if (parser.tok 0).type = .JSMN_ARRAY then 1 else 0

/-- The cursor of `thingset_read_json` before its loop: behind the success status line and
the opener (`" ["` for an array request, `" "` otherwise). -/
def read_start (cfg : Config) (parser : ts_parser_t) : Nat :=
  (status_line cfg .TS_STATUS_SUCCESS).length + (read_first parser + 1)

/-- The buffer after `_json_serialize_data_object` (without name) ran for each of `objs` in
turn. -/
def serialize_all (cfg : Config) (resp : ts_buffer_t) (objs : List data_object_t) :
    ts_buffer_t :=
  objs.foldl (fun b o => _json_serialize_data_object cfg b o false) resp

/-- The sum of the cursor advances for `objs`. -/
def ser_len_sum (cfg : Config) (objs : List data_object_t) : Nat :=
  (objs.map (ser_len cfg)).sum

/-- The serialised values of `objs`, each followed by the separator. -/
def values_sep (cfg : Config) (objs : List data_object_t) : List Char :=
  (objs.map (fun o => value_text cfg o ++ [',', ' '])).flatten

/-- What `thingset_read_json` writes behind the status line before its loop. -/
def read_opener (parser : ts_parser_t) : List Char :=
  if (parser.tok 0).type = .JSMN_ARRAY then [' ', '['] else [' ']

/-- What `thingset_read_json` writes over the trailing separator after its loop. -/
def read_closer (parser : ts_parser_t) : List Char :=
  if (parser.tok 0).type = .JSMN_ARRAY then [']'] else []

/-- The handler result `res` is the failure `st`: that status is returned and the response
buffer holds exactly its status line, the cursor at the end of the line. -/
def fails_with (cfg : Config) (res : ts_status × ts_buffer_t) (st : ts_status) : Prop :=
  res.1 = st ∧ cstr res.2.str = status_line cfg st ∧ res.2.pos = (status_line cfg st).length

/-- A readable string object `s` holding fifty characters. -/
def obj_long : data_object_t :=
  ⟨0x1004, 1, .TS_T_STRING, 64, .chars (List.replicate 50 'x'), "s".toList⟩

/-- A registry with the object `s` only. -/
def long_data : ts_data_t := ⟨[obj_long]⟩

/-- The read request `["s"]`. -/
def req_read_s : ts_parser_t :=
  mk_request "[\"s\"]" [(.JSMN_ARRAY, 0, 5), (.JSMN_STRING, 2, 1)]

/-- The read request `["s",5]`: a name and then a primitive. -/
def req_read_s_5 : ts_parser_t :=
  mk_request "[\"s\",5]" [(.JSMN_ARRAY, 0, 7), (.JSMN_STRING, 2, 1), (.JSMN_PRIMITIVE, 5, 1)]

/-- The read request `["a","b"]`. -/
def req_read_a_b : ts_parser_t :=
  mk_request "[\"a\",\"b\"]" [(.JSMN_ARRAY, 0, 9), (.JSMN_STRING, 2, 1), (.JSMN_STRING, 6, 1)]

/-- The read request `["a",5]`. -/
def req_read_a_5 : ts_parser_t :=
  mk_request "[\"a\",5]" [(.JSMN_ARRAY, 0, 7), (.JSMN_STRING, 2, 1), (.JSMN_PRIMITIVE, 5, 1)]

/-- The object `a` of the sample registry. -/
def obj_a : data_object_t := ⟨0x1001, 3, .TS_T_UINT16, 0, .word16 7, "a".toList⟩

/-- The object `b` of the sample registry. -/
def obj_b : data_object_t := ⟨0x3001, 3, .TS_T_INT16, 0, .word16 65535, "b".toList⟩

/-- Whether the loop of `thingset_list_json` names the object under `mask`: READ bit set and
`(id & mask) == mask`. -/
def list_selects (cfg : Config) (mask : Nat) (o : data_object_t) : Bool :=
  decide (o.access &&& cfg.TS_ACCESS_READ ≠ 0 ∧ o.id &&& mask = mask)

/-- The name of an object in double quotes. -/
def quoted_name (o : data_object_t) : List Char := '"' :: (cstr o.name ++ ['"'])

/-- The sum of the cursor advances of the list loop: each selected name, quoted, and its
separator. -/
def names_len_sum (cfg : Config) (mask : Nat) (objs : List data_object_t) : Nat :=
  ((objs.filter (list_selects cfg mask)).map (fun o => (quoted_name o).length + 2)).sum

/-- The list request without tokens. -/
def req_list_all : ts_parser_t := mk_request "" []

/-- A registry with a readable object `a`, a write-only object `w` and a readable object
`b`. -/
def mixed_data : ts_data_t :=
  ⟨[⟨0x1001, 3, .TS_T_UINT16, 0, .word16 7, "a".toList⟩,
    ⟨0x2001, 2, .TS_T_UINT16, 0, .word16 8, "w".toList⟩,
    ⟨0x3001, 1, .TS_T_INT16, 0, .word16 65535, "b".toList⟩]⟩

/-- The text of token `i`: the `tok_len` bytes at `tok_ptr`. -/
def ts_parser_t.tok_text (p : ts_parser_t) (i : Nat) : List Char :=
  (p.tok_ptr i).take (p.tok_len i)

/-- A write request of the one pair (`name`, `value`), the value token of kind `kind`, with
the name at token `k`: bare (two tokens, `k = 0`) or inside an object (three tokens,
`k = 1`); both tokens lie within the request text. -/
def is_pair_request (parser : ts_parser_t) (k : Nat) (name value : List Char)
    (kind : jsmntype_t) : Prop :=
  ((parser.tok_count = 2 ∧ k = 0 ∧ (parser.tok 0).type ≠ .JSMN_OBJECT) ∨
    (parser.tok_count = 3 ∧ k = 1 ∧ (parser.tok 0).type = .JSMN_OBJECT)) ∧
  (parser.tok k).type = .JSMN_STRING ∧ (parser.tok k).end_ ≤ parser.str.length ∧
  parser.tok_text k = name ∧
  (parser.tok (k + 1)).type = kind ∧ (parser.tok (k + 1)).end_ ≤ parser.str.length ∧
  parser.tok_text (k + 1) = value

/-- A read request of the single bare name `name`, lying within the request text. -/
def is_name_request (parser : ts_parser_t) (name : List Char) : Prop :=
  parser.tok_count = 1 ∧ (parser.tok 0).type = .JSMN_STRING ∧
  (parser.tok 0).end_ ≤ parser.str.length ∧ parser.tok_text 0 = name

/-- The type-specific tests of the validation loop on a value token of kind `kind` copied
to `buf`. -/
def value_accepted (cfg : Config) (o : data_object_t) (kind : jsmntype_t) (buf : List Char) :
    Prop :=
  if o.type = .TS_T_STRING then kind = .JSMN_STRING
  else if o.type = .TS_T_BOOL then
    buf.headD NUL = 't' ∨ buf.headD NUL = '1' ∨ buf.headD NUL = 'f' ∨ buf.headD NUL = '0'
  else kind = .JSMN_PRIMITIVE ∧ conv_erange cfg o.type buf = false

/-- The range of the integer types: the integers `n` an object of the type can hold (no
integer for the other types). -/
def int_range (type : ts_type) (n : Int) : Prop :=
  match type with
  | .TS_T_UINT16 => 0 ≤ n ∧ n < 2 ^ 16
  | .TS_T_INT16 => -(2 ^ 15) ≤ n ∧ n < 2 ^ 15
  | .TS_T_UINT32 => 0 ≤ n ∧ n < 2 ^ 32
  | .TS_T_INT32 => -(2 ^ 31) ≤ n ∧ n < 2 ^ 31
  | .TS_T_UINT64 => 0 ≤ n ∧ n < 2 ^ 64
  | .TS_T_INT64 => -(2 ^ 63) ≤ n ∧ n < 2 ^ 63
  | _ => False

instance (type : ts_type) (n : Int) : Decidable (int_range type n) := by
  unfold int_range
  cases type <;> exact inferInstance

/-- Writing with the request `pw` succeeds, and reading with the request `pr` afterwards
succeeds with the response text: success status line, a space, `expected`. -/
def round_trips (cfg : Config) (pw pr : ts_parser_t) (resp resp2 : ts_buffer_t)
    (data : ts_data_t) (expected : List Char) : Prop :=
  ∃ resp' data', thingset_write_json cfg pw resp data
      = some (.TS_STATUS_SUCCESS, resp', data') ∧
    ∃ r, thingset_read_json cfg pr resp2 data' = (.TS_STATUS_SUCCESS, r) ∧
      cstr r.str = status_line cfg .TS_STATUS_SUCCESS ++ ' ' :: expected

/-- The write request `{"a":123}`. -/
def req_write_a_123 : ts_parser_t :=
  mk_request "\x7b\"a\":123\x7d"
    [(.JSMN_OBJECT, 0, 9), (.JSMN_STRING, 2, 1), (.JSMN_PRIMITIVE, 5, 3)]

/-- The read request `"a"`. -/
def req_read_a : ts_parser_t := mk_request "\"a\"" [(.JSMN_STRING, 1, 1)]

/-- A readable string object `s` holding 41 characters. -/
def obj_s41 : data_object_t :=
  ⟨0x1005, 1, .TS_T_STRING, 64, .chars (List.replicate 41 'x'), "s".toList⟩

/-- A readable object whose name has 41 characters. -/
def obj_named41 : data_object_t :=
  ⟨0x1006, 1, .TS_T_BOOL, 0, .boolean true, List.replicate 41 'n'⟩

/-- An executable object `reset` whose callable is number 7. -/
def obj_reset : data_object_t := ⟨0x7001, 4, .TS_T_BOOL, 0, .func 7, "reset".toList⟩

/-- A registry with the readable and writable `a` and the executable `reset`. -/
def exec_data : ts_data_t := ⟨[obj_a, obj_reset]⟩

/-- The exec request `"reset"`. -/
def req_exec_reset : ts_parser_t := mk_request "\"reset\"" [(.JSMN_STRING, 1, 5)]

/-- The exec request `"a"`. -/
def req_exec_a : ts_parser_t := mk_request "\"a\"" [(.JSMN_STRING, 1, 1)]

/-- A write request too long for the token array: the tokenizer reported
`JSMN_ERROR_NOMEM` as the token count. -/
def req_nomem : ts_parser_t :=
  { str := "\x7b\"a\":1,\"b\":2\x7d".toList, tokens := [], tok_count := -1 }

/-- The list request `"in"`: a proper prefix of the category names `info` and `input`. -/
def req_list_in : ts_parser_t := mk_request "\"in\"" [(.JSMN_STRING, 1, 2)]

/-- The list request `""`: a STRING token of length 0. -/
def req_list_blank : ts_parser_t := mk_request "\"\"" [(.JSMN_STRING, 1, 0)]

/-- The list request `"conf"`. -/
def req_list_conf : ts_parser_t := mk_request "\"conf\"" [(.JSMN_STRING, 1, 4)]

/-- A registry with a readable object `a` of category 1 and a readable object `c` of
category 2. -/
def cat_data : ts_data_t :=
  ⟨[⟨0x1001, 1, .TS_T_UINT16, 0, .word16 7, "a".toList⟩,
    ⟨0x2001, 1, .TS_T_UINT16, 0, .word16 8, "c".toList⟩]⟩

/-- The read request `[]`: one ARRAY token without elements. -/
def req_read_none : ts_parser_t := mk_request "[]" [(.JSMN_ARRAY, 0, 2)]

/-- The text `_json_serialize_data_object` formats for the name of an object: the name in
double quotes and a colon. -/
def name_text (o : data_object_t) : List Char := '"' :: (cstr o.name ++ ['"', ':'])

/-- An entry of a publication message: the name in double quotes, a colon, the value. -/
def pub_entry (cfg : Config) (o : data_object_t) : List Char :=
  name_text o ++ value_text cfg o

/-- The sum of the cursor advances of the publication loop: each entry and its separator. -/
def pub_len_sum (cfg : Config) (objs : List data_object_t) : Nat :=
  (objs.map (fun o => (pub_entry cfg o).length + 2)).sum

/-- The ids of `pub_list` resolve, in order, to the objects `objs` of the registry. -/
def ids_resolve (data : ts_data_t) : List Nat → List data_object_t → Bool
  | [], [] => true
  | id :: ids, o :: objs =>
    decide ((thingset_data_object_by_id data id).map Prod.snd = some o) &&
      ids_resolve data ids objs
  | _, _ => false

/-- A registry with the string object `s` of 41 characters and the object `a`. -/
def pub_data : ts_data_t := ⟨[obj_s41, obj_a]⟩

/-- What one iteration of the validation loop tests at the pair of tokens `tok`, `tok + 1`
once the name resolved to the object `o`, the scratch array holding `b` before the copy:
token kinds, WRITE bit, value length, and the tests for the type of `o`. -/
def pair_passes (cfg : Config) (parser : ts_parser_t) (o : data_object_t) (tok : Nat)
    (b : List Char) : Prop :=
  (parser.tok tok).type = .JSMN_STRING ∧
  ((parser.tok (tok + 1)).type = .JSMN_PRIMITIVE ∨
    (parser.tok (tok + 1)).type = .JSMN_STRING) ∧
  o.access &&& cfg.TS_ACCESS_WRITE ≠ 0 ∧
  parser.tok_len (tok + 1) < sizeof_buf ∧
  ¬ (o.type = .TS_T_STRING ∧ 0 ≤ o.detail ∧ o.detail ≤ (parser.tok_len (tok + 1) : Int)) ∧
  value_accepted cfg o (parser.tok (tok + 1)).type
    (strncpy_term b (parser.tok_ptr (tok + 1)) (parser.tok_len (tok + 1)))

/-- The index of the object that the name token `tok` resolves to in the registry. -/
def key_index (data : ts_data_t) (parser : ts_parser_t) (tok : Nat) : Option Nat :=
  (thingset_data_object_by_name data (parser.tok_ptr tok) (parser.tok_len tok)).map Prod.fst

/-- The name test of the lookup for the object `o` at the name token `tok`: `strncmp` finds
the name equal on the token's length and `strlen` of the name is that length. -/
def key_names (parser : ts_parser_t) (tok : Nat) (o : data_object_t) : Prop :=
  strncmp o.name (parser.tok_ptr tok) (parser.tok_len tok) = 0 ∧
    strlen o.name = parser.tok_len tok

/-- The registry `d` differs from `data` in stored values only, as far as the lookup can
tell: every name resolves to the same index and to the same object up to its storage. -/
def same_lookup (data d : ts_data_t) : Prop :=
  ∀ str len i o, thingset_data_object_by_name data str len = some (i, o) →
    ∃ c, thingset_data_object_by_name d str len = some (i, { o with data := c })

/-- The stored value without the bytes behind the terminator of a string. -/
def ts_cell.content : ts_cell → ts_cell
  | .chars m => .chars (cstr m)
  | c => c

/-- The index of the first name token of a write request: 1 behind an OBJECT token, else
0. -/
def write_first (parser : ts_parser_t) : Nat :=
  if (parser.tok 0).type = .JSMN_OBJECT then 1 else 0

/-- The number of iterations of the loops of `thingset_write_json`: how often
`tok + 1 < tok_count` holds from the first name token on in steps of two. -/
def write_pairs (parser : ts_parser_t) : Nat :=
  (parser.tok_count.toNat - write_first parser) / 2

/-- A readable and writable string object `s` of capacity 8 holding `abc`. -/
def obj_note : data_object_t := ⟨0x1008, 3, .TS_T_STRING, 8, .chars "abc".toList, "s".toList⟩

/-- A registry with the string object `s` and the object `a`. -/
def str_data : ts_data_t := ⟨[obj_note, obj_a]⟩

/-- The write request `{"s":"hello"}`. -/
def req_write_s_hello : ts_parser_t :=
  mk_request "\x7b\"s\":\"hello\"\x7d"
    [(.JSMN_OBJECT, 0, 13), (.JSMN_STRING, 2, 1), (.JSMN_STRING, 6, 5)]

/-- The write request `{"a":1,"a":2}`: two pairs naming the same object. -/
def req_write_a_1_a_2 : ts_parser_t :=
  mk_request "\x7b\"a\":1,\"a\":2\x7d"
    [(.JSMN_OBJECT, 0, 13), (.JSMN_STRING, 2, 1), (.JSMN_PRIMITIVE, 5, 1),
      (.JSMN_STRING, 8, 1), (.JSMN_PRIMITIVE, 11, 1)]

/-- The write request `{"a":[]}`: the value token is an ARRAY token. -/
def req_write_a_array : ts_parser_t :=
  mk_request "\x7b\"a\":[]\x7d"
    [(.JSMN_OBJECT, 0, 8), (.JSMN_STRING, 2, 1), (.JSMN_ARRAY, 5, 2)]

/-- The write request `{"b":"x"}`: a STRING token for the `int16` object `b`. -/
def req_write_b_x : ts_parser_t :=
  mk_request "\x7b\"b\":\"x\"\x7d"
    [(.JSMN_OBJECT, 0, 9), (.JSMN_STRING, 2, 1), (.JSMN_STRING, 6, 1)]

/-- A writable bool object `on` holding false. -/
def obj_on : data_object_t := ⟨0x2002, 3, .TS_T_BOOL, 0, .boolean false, "on".toList⟩

/-- The write request `{"on":true}`. -/
def req_write_on_true : ts_parser_t :=
  mk_request "\x7b\"on\":true\x7d"
    [(.JSMN_OBJECT, 0, 11), (.JSMN_STRING, 2, 2), (.JSMN_PRIMITIVE, 6, 4)]

/-- The sample configuration on a build without `TS_64BIT_TYPES_SUPPORT`. -/
def cfg_no64 : Config := { sample_cfg with TS_64BIT_TYPES_SUPPORT := false }

/-- The sample configuration with a response buffer of 23 bytes. -/
def cfg_len23 : Config := { sample_cfg with TS_RESP_BUFFER_LEN := 23 }

/-- A readable and writable `uint64` object `u` holding 0. -/
def obj_u : data_object_t := ⟨0x1009, 3, .TS_T_UINT64, 0, .word64 0, "u".toList⟩

/-- The write request `{"u":5}`. -/
def req_write_u_5 : ts_parser_t :=
  mk_request "\x7b\"u\":5\x7d"
    [(.JSMN_OBJECT, 0, 7), (.JSMN_STRING, 2, 1), (.JSMN_PRIMITIVE, 5, 1)]

/-- The read request `"u"`. -/
def req_read_u : ts_parser_t := mk_request "\"u\"" [(.JSMN_STRING, 1, 1)]

/-- The read request `"s"`: the bare name. -/
def req_read_s_bare : ts_parser_t := mk_request "\"s\"" [(.JSMN_STRING, 1, 1)]

/-- The read request `["a","u"]`. -/
def req_read_a_u : ts_parser_t :=
  mk_request "[\"a\",\"u\"]" [(.JSMN_ARRAY, 0, 9), (.JSMN_STRING, 2, 1), (.JSMN_STRING, 6, 1)]

/-! # Properties -/

/-! ## Write atomicity -/

/-- A store changes no name, so it changes no outcome of the name scan. -/
theorem by_name_from_store_isSome (str : List Char) (len : Nat) (c : ts_cell) :
    ∀ (objs : List data_object_t) (k i : Nat),
      (by_name_from str len (objs.modify (fun o => { o with data := c }) i) k).isSome
        = (by_name_from str len objs k).isSome := by
  intro objs
  induction objs with
  | nil => intro k i; cases i <;> rfl
  | cons x rest ih =>
    intro k i
    cases i with
    | zero =>
      simp only [List.modify_zero_cons, by_name_from]
      split <;> rfl
    | succ i =>
      simp only [List.modify_succ_cons, by_name_from]
      split
      · rfl
      · exact ih (k + 1) i

theorem by_name_store_isSome (data : ts_data_t) (i : Nat) (c : ts_cell) (str : List Char)
    (len : Nat) :
    (thingset_data_object_by_name (data.store i c) str len).isSome
      = (thingset_data_object_by_name data str len).isSome :=
  by_name_from_store_isSome str len c data.objects 0 i

/-- After a validation loop that exits normally, every name it walked resolves. -/
theorem write_validate_ok_resolves (cfg : Config) (parser : ts_parser_t) (resp : ts_buffer_t)
    (data : ts_data_t) (n : Nat) :
    ∀ (tok : Nat) (buf buf' : List Char),
      write_validate cfg parser resp data n tok buf = .ok buf' →
      ∀ j, j < n →
        (thingset_data_object_by_name data (parser.tok_ptr (tok + 2 * j))
          (parser.tok_len (tok + 2 * j))).isSome = true := by
  induction n with
  | zero => intro tok buf buf' _ j hj; omega
  | succ n ih =>
    intro tok buf buf' h j hj
    rw [write_validate] at h
    split at h
    · simp at h
    · split at h
      · simp at h
      · rename_i i o hlook
        have hrest : ∃ b, write_validate cfg parser resp data n (tok + 2) b = .ok buf' := by
          dsimp only at h
          repeat' split at h
          all_goals first
            | exact ⟨_, h⟩
            | exact absurd h (by simp)
        obtain ⟨b, hb⟩ := hrest
        cases j with
        | zero => simp [hlook]
        | succ j =>
          have := ih (tok + 2) b buf' hb j (by omega)
          have hidx : tok + 2 * (j + 1) = tok + 2 + 2 * j := by omega
          rw [hidx]
          exact this

/-- The commit loop dereferences no `NULL` when every name it walks resolves in the registry
it started from: the stores in between change no name. -/
theorem write_commit_returns (cfg : Config) (parser : ts_parser_t) (data : ts_data_t)
    (n : Nat) :
    ∀ (tok : Nat) (buf : List Char) (data' : ts_data_t),
      (∀ str len, (thingset_data_object_by_name data' str len).isSome
        = (thingset_data_object_by_name data str len).isSome) →
      (∀ j, j < n →
        (thingset_data_object_by_name data (parser.tok_ptr (tok + 2 * j))
          (parser.tok_len (tok + 2 * j))).isSome = true) →
      ∃ d, write_commit cfg parser n tok buf data' = some d := by
  induction n with
  | zero => intro tok buf data' _ _; exact ⟨data', rfl⟩
  | succ n ih =>
    intro tok buf data' hsame hres
    have h0 := hres 0 (Nat.succ_pos n)
    rw [Nat.mul_zero, Nat.add_zero, ← hsame] at h0
    rw [write_commit]
    cases hlook : thingset_data_object_by_name data' (parser.tok_ptr tok)
        (parser.tok_len tok) with
    | none => rw [hlook] at h0; simp at h0
    | some p =>
      obtain ⟨i, o⟩ := p
      dsimp only
      apply ih
      · intro str len
        rw [by_name_store_isSome, hsame]
      · intro j hj
        have := hres (j + 1) (by omega)
        have hidx : tok + 2 * (j + 1) = tok + 2 + 2 * j := by omega
        rw [hidx] at this
        exact this

/-- The write handler always returns: its commit loop never dereferences `NULL`. -/
theorem write_json_returns (cfg : Config) (parser : ts_parser_t) (resp : ts_buffer_t)
    (data : ts_data_t) :
    ∃ status resp' data',
      thingset_write_json cfg parser resp data = some (status, resp', data') := by
  unfold thingset_write_json
  by_cases hlt : parser.tok_count < 2
  · rw [if_pos hlt]
    split <;> exact ⟨_, _, _, rfl⟩
  · rw [if_neg hlt]
    dsimp only
    generalize (if (parser.tok 0).type = jsmntype_t.JSMN_OBJECT then 1 else 0) = tok
    generalize (parser.tok_count.toNat - tok) / 2 = n
    cases hv : write_validate cfg parser resp data n tok [] with
    | error e => exact ⟨e.1, e.2, data, rfl⟩
    | ok buf =>
      obtain ⟨d, hd⟩ := write_commit_returns cfg parser data n tok buf data
        (fun _ _ => rfl) (write_validate_ok_resolves cfg parser resp data n tok [] buf hv)
      dsimp only
      rw [hd]
      exact ⟨_, _, _, rfl⟩

/-- A failure status of `thingset_write_json` comes with the registry it was given. -/
theorem write_json_failure_same_data (cfg : Config) (parser : ts_parser_t)
    (resp resp' : ts_buffer_t) (data data' : ts_data_t) (status : ts_status)
    (hcall : thingset_write_json cfg parser resp data = some (status, resp', data'))
    (hfail : status ≠ .TS_STATUS_SUCCESS) : data' = data := by
  unfold thingset_write_json at hcall
  by_cases hlt : parser.tok_count < 2
  · rw [if_pos hlt] at hcall
    split at hcall <;> simp at hcall <;> exact hcall.2.2.symm
  · rw [if_neg hlt] at hcall
    simp only at hcall
    generalize (if (parser.tok 0).type = jsmntype_t.JSMN_OBJECT then 1 else 0) = tok at hcall
    generalize (parser.tok_count.toNat - tok) / 2 = n at hcall
    cases hv : write_validate cfg parser resp data n tok [] with
    | error e =>
      obtain ⟨st, r⟩ := e
      rw [hv] at hcall
      simp at hcall
      exact hcall.2.2.symm
    | ok buf =>
      rw [hv] at hcall
      dsimp only at hcall
      cases hc : write_commit cfg parser n tok buf data with
      | none => rw [hc] at hcall; simp at hcall
      | some d =>
        rw [hc] at hcall
        simp at hcall
        exact absurd hcall.1.symm hfail

/-- C1 (write atomicity): for every registry, token stream and request text,
`thingset_write_json` returns, and whenever the status it returns is not success the
registry it leaves behind is the registry it was given: every object holds the stored value
it held before the call. -/
theorem write_json_failure_stores_nothing (cfg : Config) (parser : ts_parser_t)
    (resp : ts_buffer_t) (data : ts_data_t) :
    ∃ status resp' data',
      thingset_write_json cfg parser resp data = some (status, resp', data') ∧
      (status ≠ .TS_STATUS_SUCCESS → data' = data) := by
  obtain ⟨status, resp', data', h⟩ := write_json_returns cfg parser resp data
  exact ⟨status, resp', data', h,
    write_json_failure_same_data cfg parser resp resp' data data' status h⟩

/-- The request `{"a":5,"b":"x"}` fails on `b` with wrong-type and leaves `a` at its old
value. -/
theorem write_json_failure_stores_nothing_witness :
    thingset_write_json sample_cfg req_valid_then_wrong_type empty_resp sample_data
      = some (.TS_STATUS_WRONG_TYPE,
          thingset_status_message_json sample_cfg empty_resp .TS_STATUS_WRONG_TYPE,
          sample_data) ∧
    ∃ status resp' data',
      thingset_write_json sample_cfg req_valid_then_wrong_type empty_resp sample_data
        = some (status, resp', data') ∧
      (status ≠ .TS_STATUS_SUCCESS → data' = sample_data) :=
  ⟨by decide,
    write_json_failure_stores_nothing sample_cfg req_valid_then_wrong_type empty_resp
      sample_data⟩

/-! ## Exact-name matching -/

theorem cstr_nil : cstr [] = [] := rfl

theorem cstr_cons (c : Char) (m : List Char) :
    cstr (c :: m) = if c = NUL then [] else c :: cstr m := by
  unfold cstr
  by_cases h : c = NUL
  · simp [List.takeWhile, h]
  · have hb : (c != NUL) = true := by simpa using h
    simp [List.takeWhile, h, hb]

theorem char_toNat_sub_ne {a b : Char} (h : a ≠ b) :
    (a.toNat : Int) - (b.toNat : Int) ≠ 0 := by
  intro h0
  apply h
  have : a.toNat = b.toNat := by omega
  exact Char.ext (UInt32.ext (by simpa [Char.toNat, UInt32.toNat] using this))

/-- The test of `thingset_data_object_by_name` holds exactly when the name is the `len`
characters at the pointer. -/
theorem name_test_iff (s rest : List Char) :
    ∀ a : List Char,
      (strncmp a (s ++ rest) s.length = 0 ∧ strlen a = s.length) ↔ cstr a = s := by
  induction s with
  | nil =>
    intro a
    simp [strncmp, strlen]
  | cons c s ih =>
    intro a
    cases a with
    | nil => simp [strncmp, strlen, cstr_nil]
    | cons x a =>
      simp only [List.length_cons, List.cons_append, strncmp, List.headD_cons, List.tail_cons,
        strlen, cstr_cons]
      by_cases hxc : x = c
      · subst hxc
        by_cases hx : x = NUL
        · simp [hx]
        · have := ih a
          simp only [strlen] at this
          simp [hx, this]
      · have hne := char_toNat_sub_ne hxc
        by_cases hx : x = NUL
        · simp [hx, hxc]
        · simp [hx, hxc, hne]

/-- The scan returns the first object passing the test, with its index. -/
theorem by_name_from_eq_some (str : List Char) (len : Nat) :
    ∀ (objs : List data_object_t) (k i : Nat) (o : data_object_t),
      by_name_from str len objs k = some (i, o) ↔
        ∃ j, i = k + j ∧ objs[j]? = some o ∧
          (strncmp o.name str len = 0 ∧ strlen o.name = len) ∧
          ∀ j', j' < j → ∀ o', objs[j']? = some o' →
            ¬ (strncmp o'.name str len = 0 ∧ strlen o'.name = len) := by
  intro objs
  induction objs with
  | nil =>
    intro k i o
    simp [by_name_from]
  | cons x rest ih =>
    intro k i o
    unfold by_name_from
    by_cases hx : strncmp x.name str len = 0 ∧ strlen x.name = len
    · rw [if_pos hx]
      constructor
      · intro h
        simp only [Option.some.injEq, Prod.mk.injEq] at h
        obtain ⟨rfl, rfl⟩ := h
        exact ⟨0, rfl, by simp, hx, fun j' hj' => absurd hj' (Nat.not_lt_zero _)⟩
      · rintro ⟨j, rfl, hj, _, hfirst⟩
        cases j with
        | zero =>
          simp only [List.getElem?_cons_zero, Option.some.injEq] at hj
          subst hj
          rfl
        | succ j => exact absurd hx (hfirst 0 (Nat.succ_pos j) x (by simp))
    · rw [if_neg hx, ih (k + 1) i o]
      constructor
      · rintro ⟨j, rfl, hj, ho, hfirst⟩
        refine ⟨j + 1, by omega, by simpa using hj, ho, ?_⟩
        intro j' hj' o' ho'
        cases j' with
        | zero =>
          simp only [List.getElem?_cons_zero, Option.some.injEq] at ho'
          subst ho'
          exact hx
        | succ j' => exact hfirst j' (by omega) o' (by simpa using ho')
      · rintro ⟨j, rfl, hj, ho, hfirst⟩
        cases j with
        | zero =>
          simp only [List.getElem?_cons_zero, Option.some.injEq] at hj
          subst hj
          exact absurd ho hx
        | succ j =>
          refine ⟨j, by omega, by simpa using hj, ho, ?_⟩
          intro j' hj' o' ho'
          exact hfirst (j' + 1) (by omega) o' (by simpa using ho')

/-- The scan returns nothing exactly when no object passes the test. -/
theorem by_name_from_eq_none (str : List Char) (len : Nat) :
    ∀ (objs : List data_object_t) (k : Nat),
      by_name_from str len objs k = none ↔
        ∀ o ∈ objs, ¬ (strncmp o.name str len = 0 ∧ strlen o.name = len) := by
  intro objs
  induction objs with
  | nil => intro k; simp [by_name_from]
  | cons x rest ih =>
    intro k
    unfold by_name_from
    by_cases hx : strncmp x.name str len = 0 ∧ strlen x.name = len
    · rw [if_pos hx]
      constructor
      · intro h
        exact absurd h (by simp)
      · intro h
        exact absurd hx (h x (List.mem_cons_self x rest))
    · rw [if_neg hx, ih (k + 1)]
      simp only [List.mem_cons, forall_eq_or_imp]
      exact ⟨fun h => ⟨hx, h⟩, fun h => h.2⟩

/-- The lookup returns a pointer to object `i` exactly when it is the first object whose name
is the `s.length` bytes `s` at the pointer. -/
theorem by_name_iff (d : ts_data_t) (t rest : List Char) (i : Nat) (o : data_object_t) :
    thingset_data_object_by_name d (t ++ rest) t.length = some (i, o) ↔
      d.objects[i]? = some o ∧ cstr o.name = t ∧
        ∀ j, j < i → ∀ o', d.objects[j]? = some o' → cstr o'.name ≠ t := by
  unfold thingset_data_object_by_name
  rw [by_name_from_eq_some]
  constructor
  · rintro ⟨j, rfl, hj, ho, hfirst⟩
    rw [Nat.zero_add]
    refine ⟨hj, (name_test_iff t rest o.name).mp ho, ?_⟩
    intro j' hj' o' ho' hname
    exact hfirst j' hj' o' ho' ((name_test_iff t rest o'.name).mpr hname)
  · rintro ⟨hi, ho, hfirst⟩
    refine ⟨i, by omega, hi, (name_test_iff t rest o.name).mpr ho, ?_⟩
    intro j' hj' o' ho' htest
    exact hfirst j' hj' o' ho' ((name_test_iff t rest o'.name).mp htest)

/-- C2 (exact-name matching): for the `len = s.length` bytes `s` at the pointer (whatever
follows them in memory), `thingset_data_object_by_name` returns a pointer to object `i`
exactly when that object is the first in declaration order whose name is `s` (same length,
same bytes), and returns `NULL` exactly when no object has that name.  In particular a
registry holding `foo` and `fooBar`, in either order, resolves the 3-byte name to `foo` and
the 6-byte name to `fooBar`. -/
theorem data_object_by_name_exact (data : ts_data_t) (s rest : List Char) :
    (∀ (i : Nat) (o : data_object_t),
      thingset_data_object_by_name data (s ++ rest) s.length = some (i, o) ↔
        data.objects[i]? = some o ∧ cstr o.name = s ∧
          ∀ j, j < i → ∀ o', data.objects[j]? = some o' → cstr o'.name ≠ s) ∧
    (thingset_data_object_by_name data (s ++ rest) s.length = none ↔
      ∀ o ∈ data.objects, cstr o.name ≠ s) ∧
    (∀ a b : data_object_t, cstr a.name = "foo".toList → cstr b.name = "fooBar".toList →
      thingset_data_object_by_name ⟨[a, b]⟩ ("foo".toList ++ rest) 3 = some (0, a) ∧
      thingset_data_object_by_name ⟨[a, b]⟩ ("fooBar".toList ++ rest) 6 = some (1, b) ∧
      thingset_data_object_by_name ⟨[b, a]⟩ ("foo".toList ++ rest) 3 = some (1, a) ∧
      thingset_data_object_by_name ⟨[b, a]⟩ ("fooBar".toList ++ rest) 6 = some (0, b)) := by
  have key := fun (d : ts_data_t) (t : List Char) => by_name_iff d t rest
  refine ⟨key data s, ?_, ?_⟩
  · unfold thingset_data_object_by_name
    rw [by_name_from_eq_none]
    constructor
    · intro h o ho hname
      exact h o ho ((name_test_iff s rest o.name).mpr hname)
    · intro h o ho htest
      exact h o ho ((name_test_iff s rest o.name).mp htest)
  · intro a b ha hb
    have hab : cstr a.name ≠ "fooBar".toList := by rw [ha]; decide
    have hba : cstr b.name ≠ "foo".toList := by rw [hb]; decide
    refine ⟨?_, ?_, ?_, ?_⟩
    · exact (key ⟨[a, b]⟩ "foo".toList 0 a).mpr
        ⟨by simp, ha, fun j hj => absurd hj (Nat.not_lt_zero _)⟩
    · refine (key ⟨[a, b]⟩ "fooBar".toList 1 b).mpr ⟨by simp, hb, ?_⟩
      intro j hj o' ho'
      have hj0 : j = 0 := by omega
      subst hj0
      simp only [List.getElem?_cons_zero, Option.some.injEq] at ho'
      subst ho'
      exact hab
    · refine (key ⟨[b, a]⟩ "foo".toList 1 a).mpr ⟨by simp, ha, ?_⟩
      intro j hj o' ho'
      have hj0 : j = 0 := by omega
      subst hj0
      simp only [List.getElem?_cons_zero, Option.some.injEq] at ho'
      subst ho'
      exact hba
    · exact (key ⟨[b, a]⟩ "fooBar".toList 0 b).mpr
        ⟨by simp, hb, fun j hj => absurd hj (Nat.not_lt_zero _)⟩

/-- The registry holding `foo` before `fooBar` and the one holding them the other way round
resolve both names to the right object. -/
theorem data_object_by_name_exact_witness :
    thingset_data_object_by_name ⟨[obj_foo, obj_fooBar]⟩ ("foo".toList ++ []) 3
        = some (0, obj_foo) ∧
      thingset_data_object_by_name ⟨[obj_foo, obj_fooBar]⟩ ("fooBar".toList ++ []) 6
        = some (1, obj_fooBar) ∧
      thingset_data_object_by_name ⟨[obj_fooBar, obj_foo]⟩ ("foo".toList ++ []) 3
        = some (1, obj_foo) ∧
      thingset_data_object_by_name ⟨[obj_fooBar, obj_foo]⟩ ("fooBar".toList ++ []) 6
        = some (0, obj_fooBar) :=
  (data_object_by_name_exact ⟨[]⟩ [] []).2.2 obj_foo obj_fooBar (by decide) (by decide)

/-! ## Numeric overflow -/

/-- C3 (numeric overflow), the code at the failing input: on the sample build (32-bit `long`)
writing `70000` to the `uint16` object `a` is accepted, returns success and stores
`70000 mod 65536 = 4464`; `99999999999` is rejected there with invalid-value, but only
because it exceeds `unsigned long`: on a build with a 64-bit `long` it is accepted as well
and stores `99999999999 mod 65536 = 59391`. -/
theorem write_json_uint16_overflow_is_truncated :
    thingset_write_json sample_cfg req_a_70000 empty_resp sample_data
        = some (.TS_STATUS_SUCCESS,
            thingset_status_message_json sample_cfg empty_resp .TS_STATUS_SUCCESS,
            ⟨[⟨0x1001, 3, .TS_T_UINT16, 0, .word16 4464, "a".toList⟩,
              ⟨0x3001, 3, .TS_T_INT16, 0, .word16 65535, "b".toList⟩]⟩) ∧
      thingset_write_json sample_cfg req_a_99999999999 empty_resp sample_data
        = some (.TS_STATUS_INVALID_VALUE,
            thingset_status_message_json sample_cfg empty_resp .TS_STATUS_INVALID_VALUE,
            sample_data) ∧
      thingset_write_json { sample_cfg with long_bits := 64 } req_a_99999999999 empty_resp
          sample_data
        = some (.TS_STATUS_SUCCESS,
            thingset_status_message_json sample_cfg empty_resp .TS_STATUS_SUCCESS,
            ⟨[⟨0x1001, 3, .TS_T_UINT16, 0, .word16 59391, "a".toList⟩,
              ⟨0x3001, 3, .TS_T_INT16, 0, .word16 65535, "b".toList⟩]⟩) := by
  refine ⟨?_, ?_, ?_⟩ <;> decide

/-! ## List filtering -/

/-- C4 (list filtering by category), the code at the failing input: with `a` in category 1
(id `0x1001`) and `b` in category 3 (id `0x3001`), the list request for the first category
(`info`, mask `0x1000`) returns success and names both `a` and `b`: the test
`(id & mask) == mask` lets through every id whose category bits contain those of the
mask. -/
theorem list_json_category_mask_is_containment :
    (thingset_list_json sample_cfg req_list_info empty_resp sample_data).1
        = .TS_STATUS_SUCCESS ∧
      cstr (thingset_list_json sample_cfg req_list_info empty_resp sample_data).2.str
        = ":0 Success. [\"a\", \"b\"]".toList ∧
      category_mask (req_list_info.tok_ptr 0) (req_list_info.tok_len 0)
        sample_cfg.ts_categories 0 = 1 <<< 12 ∧
      sample_data.objects.map (fun o => o.id >>> 12) = [1, 3] := by
  refine ⟨?_, ?_, ?_, ?_⟩ <;> decide

/-! ## Write access enforcement -/

/-- C7 (write access enforcement): a write request of one name/value pair, bare (two
tokens, `k = 0`) or inside an object (three tokens, `k = 1`), whose name resolves to an
object without the WRITE bit returns unauthorized with the unauthorized status line,
whatever the STRING or PRIMITIVE value token holds, and leaves the registry as it was. -/
theorem write_json_requires_write_access (cfg : Config) (parser : ts_parser_t)
    (resp : ts_buffer_t) (data : ts_data_t) (k i : Nat) (o : data_object_t)
    (hshape : (parser.tok_count = 2 ∧ k = 0 ∧ (parser.tok 0).type ≠ .JSMN_OBJECT) ∨
      (parser.tok_count = 3 ∧ k = 1 ∧ (parser.tok 0).type = .JSMN_OBJECT))
    (hname : (parser.tok k).type = .JSMN_STRING)
    (hvalue : (parser.tok (k + 1)).type = .JSMN_PRIMITIVE ∨
      (parser.tok (k + 1)).type = .JSMN_STRING)
    (hres : thingset_data_object_by_name data (parser.tok_ptr k) (parser.tok_len k)
      = some (i, o))
    (hacc : o.access &&& cfg.TS_ACCESS_WRITE = 0) :
    thingset_write_json cfg parser resp data
      = some (.TS_STATUS_UNAUTHORIZED,
          thingset_status_message_json cfg resp .TS_STATUS_UNAUTHORIZED, data) := by
  have hfmt : ¬ ((parser.tok k).type ≠ .JSMN_STRING ∨
      ((parser.tok (k + 1)).type ≠ .JSMN_PRIMITIVE ∧
        (parser.tok (k + 1)).type ≠ .JSMN_STRING)) := by
    rcases hvalue with h | h <;> simp [hname, h]
  have hloop : write_validate cfg parser resp data 1 k []
      = .error (.TS_STATUS_UNAUTHORIZED,
          thingset_status_message_json cfg resp .TS_STATUS_UNAUTHORIZED) := by
    unfold write_validate
    rw [if_neg hfmt, hres]
    simp only [hacc, if_true]
  unfold thingset_write_json
  rcases hshape with ⟨hc, hk, h0⟩ | ⟨hc, hk, h0⟩
  · subst hk
    have hlt : ¬ parser.tok_count < 2 := by omega
    rw [if_neg hlt]
    simp only [h0, if_false, hc]
    have : (Int.toNat 2 - 0) / 2 = 1 := by decide
    rw [this, hloop]
  · subst hk
    have hlt : ¬ parser.tok_count < 2 := by omega
    rw [if_neg hlt]
    simp only [h0, if_true, hc]
    have : (Int.toNat 3 - 1) / 2 = 1 := by decide
    rw [this, hloop]

/-- The read-only object `r` rejects the write `{"r":1}` and keeps its value. -/
theorem write_json_requires_write_access_witness :
    thingset_write_json sample_cfg req_r_1 empty_resp readonly_data
      = some (.TS_STATUS_UNAUTHORIZED,
          thingset_status_message_json sample_cfg empty_resp .TS_STATUS_UNAUTHORIZED,
          readonly_data) :=
  write_json_requires_write_access sample_cfg req_r_1 empty_resp readonly_data 1 0
    ⟨0x1001, 1, .TS_T_UINT16, 0, .word16 7, "r".toList⟩
    (Or.inr ⟨by decide, rfl, by decide⟩) (by decide) (Or.inl (by decide)) (by decide)
    (by decide)

/-! ## Decimal digits -/

theorem digitVal_digitChar {d : Nat} (h : d < 10) : digitVal (Nat.digitChar d) = some d := by
  interval_cases d <;> decide

theorem digitChar_plain {d : Nat} (h : d < 10) :
    Nat.digitChar d ≠ NUL ∧ Nat.digitChar d ≠ '-' ∧ Nat.digitChar d ≠ '+' ∧
      isspace (Nat.digitChar d) = false := by
  interval_cases d <;> decide

theorem digitChar_eq_zero {d : Nat} (h : d < 10) (h0 : Nat.digitChar d = '0') : d = 0 := by
  interval_cases d <;> first | rfl | exact absurd h0 (by decide)

theorem scanDigits_digitChar {d : Nat} (h : d < 10) (tl : List Char) (a : Nat) :
    scanDigits 10 (Nat.digitChar d :: tl) a = scanDigits 10 tl (a * 10 + d) := by
  simp only [scanDigits, digitVal_digitChar h, h, if_true]

/-! With `n < fuel` the digit loop never runs out of steps; the facts below are what the
conversions need to know about the digits it produces. -/

theorem dec_digits_ne_nil : ∀ (fuel n : Nat), n < fuel → dec_digits fuel n ≠ []
  | 0, n, h => absurd h (Nat.not_lt_zero n)
  | fuel + 1, n, _ => by
    unfold dec_digits
    split <;> simp

theorem dec_digits_all_digit :
    ∀ (fuel n : Nat), ∀ c ∈ dec_digits fuel n, is_dec_digit c
  | 0, n => by simp [dec_digits]
  | fuel + 1, n => by
    intro c hc
    unfold dec_digits at hc
    split at hc
    · rename_i hsmall
      rw [List.mem_singleton] at hc
      exact ⟨n, hsmall, hc⟩
    · rcases List.mem_append.mp hc with h | h
      · exact dec_digits_all_digit fuel (n / 10) c h
      · rw [List.mem_singleton] at h
        exact ⟨n % 10, Nat.mod_lt n (by decide), h⟩

theorem dec_digits_head_zero :
    ∀ (fuel n : Nat), n < fuel → (dec_digits fuel n).head? = some '0' → n = 0
  | 0, n, h, _ => absurd h (Nat.not_lt_zero n)
  | fuel + 1, n, hfuel, hhead => by
    unfold dec_digits at hhead
    split at hhead
    · rename_i hsmall
      rw [List.head?_cons, Option.some.injEq] at hhead
      exact digitChar_eq_zero hsmall hhead
    · rename_i hbig
      have hq : n / 10 < fuel := by omega
      have hne := dec_digits_ne_nil fuel (n / 10) hq
      rw [List.head?_append_of_ne_nil _ hne] at hhead
      have := dec_digits_head_zero fuel (n / 10) hq hhead
      omega

theorem dec_digits_scan :
    ∀ (fuel n : Nat), n < fuel → ∀ (tl : List Char) (a : Nat),
      scanDigits 10 (dec_digits fuel n ++ tl) a
        = scanDigits 10 tl (a * 10 ^ (dec_digits fuel n).length + n)
  | 0, n, h => absurd h (Nat.not_lt_zero n)
  | fuel + 1, n, hfuel => by
    intro tl a
    unfold dec_digits
    split
    · rename_i hsmall
      rw [List.singleton_append, scanDigits_digitChar hsmall, List.length_singleton, pow_one]
    · rename_i hbig
      have hq : n / 10 < fuel := by omega
      have hr : n % 10 < 10 := Nat.mod_lt n (by decide)
      rw [List.append_assoc, dec_digits_scan fuel (n / 10) hq, List.singleton_append,
        scanDigits_digitChar hr, List.length_append, List.length_singleton, pow_succ]
      congr 1
      have hsplit := Nat.div_add_mod n 10
      nlinarith

theorem dec_digits_length_le :
    ∀ (fuel n k : Nat), 0 < k → n < 10 ^ k → (dec_digits fuel n).length ≤ k
  | 0, n, k, _, _ => by simp [dec_digits]
  | fuel + 1, n, k, hk, hn => by
    unfold dec_digits
    split
    · simpa using hk
    · rename_i hbig
      obtain ⟨k', rfl⟩ : ∃ k', k = k' + 1 := ⟨k - 1, by omega⟩
      have hk' : 0 < k' := by
        rcases Nat.eq_zero_or_pos k' with h | h
        · subst h
          simp at hn
          omega
        · exact h
      have hq : n / 10 < 10 ^ k' := by
        rw [pow_succ] at hn
        exact Nat.div_lt_of_lt_mul (by rw [Nat.mul_comm]; exact hn)
      have := dec_digits_length_le fuel (n / 10) k' hk' hq
      rw [List.length_append, List.length_singleton]
      omega

/-- The decimal text of `n`, as `fmt_u` prints it. -/
theorem fmt_u_dec (n : Nat) :
    fmt_u n ≠ [] ∧ (∀ c ∈ fmt_u n, is_dec_digit c) ∧
      ((fmt_u n).head? = some '0' → n = 0) ∧
      (∀ (tl : List Char) (a : Nat),
        scanDigits 10 (fmt_u n ++ tl) a = scanDigits 10 tl (a * 10 ^ (fmt_u n).length + n)) ∧
      (∀ k, 0 < k → n < 10 ^ k → (fmt_u n).length ≤ k) :=
  ⟨dec_digits_ne_nil (n + 1) n (Nat.lt_succ_self n), dec_digits_all_digit (n + 1) n,
    dec_digits_head_zero (n + 1) n (Nat.lt_succ_self n),
    dec_digits_scan (n + 1) n (Nat.lt_succ_self n),
    fun k hk hn => dec_digits_length_le (n + 1) n k hk hn⟩

theorem fmt_u_no_nul (n : Nat) : NUL ∉ fmt_u n := by
  intro h
  obtain ⟨d, hd, hc⟩ := (fmt_u_dec n).2.1 NUL h
  exact (digitChar_plain hd).1 hc.symm

theorem fmt_i_no_nul (z : Int) : NUL ∉ fmt_i z := by
  unfold fmt_i
  split
  · intro h
    rcases List.mem_cons.mp h with h | h
    · exact absurd h (by decide)
    · exact fmt_u_no_nul _ h
  · exact fmt_u_no_nul _

/-! ## The response buffer -/

theorem cstr_no_nul (m : List Char) : NUL ∉ cstr m := by
  intro h
  have := List.mem_takeWhile_imp h
  simp at this

theorem cstr_append_nul (t tail : List Char) (h : NUL ∉ t) : cstr (t ++ NUL :: tail) = t := by
  induction t with
  | nil => simp [cstr_cons]
  | cons c t ih =>
    have hc : c ≠ NUL := fun hc => h (by simp [hc])
    have ht : NUL ∉ t := fun ht => h (List.mem_cons_of_mem _ ht)
    rw [List.cons_append, cstr_cons, if_neg hc, ih ht]

theorem cstr_length_le_of_nul (pre tail : List Char) :
    (cstr (pre ++ NUL :: tail)).length ≤ pre.length := by
  induction pre with
  | nil => simp [cstr_cons]
  | cons c t ih =>
    rw [List.cons_append, cstr_cons]
    split
    · simp
    · simp only [List.length_cons]
      omega

theorem poke_of_le (m : List Char) (off : Nat) (s : List Char) (h : off ≤ m.length) :
    poke m off s = m.take off ++ s ++ m.drop (off + s.length) := by
  unfold poke
  have : off - m.length = 0 := by omega
  rw [this]
  simp

/-- After `sprintf(&m[off], ...)` the memory has a terminator at index `off + s.length` at
the latest. -/
theorem sprintf_cstr_length_le (m : List Char) (off : Nat) (s : List Char) :
    (cstr (sprintf m off s)).length ≤ off + s.length := by
  unfold sprintf poke
  have h1 : m.take off ++ List.replicate (off - m.length) NUL ++ (s ++ [NUL]) ++
      m.drop (off + (s ++ [NUL]).length)
      = (m.take off ++ List.replicate (off - m.length) NUL ++ s) ++
        NUL :: m.drop (off + (s ++ [NUL]).length) := by simp
  rw [h1]
  refine le_trans (cstr_length_le_of_nul _ _) ?_
  simp only [List.length_append, List.length_take, List.length_replicate]
  omega

theorem holds_cstr {b : ts_buffer_t} {t : List Char} (h : b.holds t) :
    cstr b.str = t ∧ b.pos = t.length := by
  obtain ⟨hn, hp, tail, hs⟩ := h
  exact ⟨by rw [hs, cstr_append_nul t tail hn], hp⟩

theorem holds_terminator {b : ts_buffer_t} {t : List Char} (h : b.holds t) :
    b.str[b.pos]? = some NUL := by
  obtain ⟨_, hp, tail, hs⟩ := h
  rw [hs, hp, List.getElem?_append_right (Nat.le_refl _)]
  simp

/-- Writing `s` and a terminator at an offset inside the text `t` leaves the text cut at the
offset and continued by `s`. -/
theorem holds_sprintf_at {b : ts_buffer_t} {t : List Char} (h : b.holds t) (off : Nat)
    (s : List Char) (hoff : off ≤ t.length) (hs : NUL ∉ s) :
    ts_buffer_t.holds { b with str := sprintf b.str off s, pos := off + s.length }
      (t.take off ++ s) := by
  obtain ⟨hn, _, tail, hstr⟩ := h
  refine ⟨?_, ?_, ?_⟩
  · intro hmem
    rcases List.mem_append.mp hmem with h1 | h1
    · exact hn (List.mem_of_mem_take h1)
    · exact hs h1
  · simp only [List.length_append, List.length_take]
    omega
  · refine ⟨b.str.drop (off + (s ++ [NUL]).length), ?_⟩
    unfold sprintf
    rw [poke_of_le _ _ _ (by rw [hstr]; simp; omega), hstr,
      List.take_append_of_le_length hoff]
    simp

/-- The status message overwrites whatever the buffer held with the status line. -/
theorem status_line_no_nul (cfg : Config) (code : ts_status) : NUL ∉ status_line cfg code := by
  have hphrase : NUL ∉ status_phrase code := by cases code <;> decide
  unfold status_line
  split
  · intro h
    rcases List.mem_cons.mp h with h | h
    · exact absurd h (by decide)
    · rcases List.mem_append.mp h with h | h
      · exact fmt_u_no_nul _ h
      · rcases List.mem_cons.mp h with h | h
        · exact absurd h (by decide)
        · exact hphrase h
  · intro h
    rcases List.mem_cons.mp h with h | h
    · exact absurd h (by decide)
    · rcases List.mem_append.mp h with h | h
      · exact fmt_u_no_nul _ h
      · simp only [List.mem_singleton] at h
        exact absurd h (by decide)

theorem status_message_holds (cfg : Config) (resp : ts_buffer_t) (code : ts_status) :
    (thingset_status_message_json cfg resp code).holds (status_line cfg code) := by
  have hn := status_line_no_nul cfg code
  have hstr : sprintf resp.str 0 (status_line cfg code)
      = status_line cfg code ++ NUL :: resp.str.drop (0 + (status_line cfg code ++ [NUL]).length) := by
    unfold sprintf
    rw [poke_of_le _ _ _ (Nat.zero_le _)]
    simp
  refine ⟨hn, ?_, _, hstr⟩
  unfold thingset_status_message_json
  simp only [strlen]
  rw [hstr, cstr_append_nul _ _ hn]

theorem put_holds {b : ts_buffer_t} {t : List Char} (h : b.holds t) (s : List Char)
    (hs : NUL ∉ s) : (b.put s).holds (t ++ s) := by
  have := holds_sprintf_at h t.length s (Nat.le_refl _) hs
  rw [List.take_length] at this
  unfold ts_buffer_t.put
  rw [h.2.1]
  exact this

theorem put_n_pos (cfg : Config) (b : ts_buffer_t) (s : List Char) :
    (b.put_n cfg s).pos = b.pos + s.length := rfl

/-- An `snprintf` that stays below the capacity writes its whole output. -/
theorem put_n_holds (cfg : Config) {b : ts_buffer_t} {t : List Char} (h : b.holds t)
    (s : List Char) (hs : NUL ∉ s) (hfit : t.length + s.length < cfg.TS_RESP_BUFFER_LEN) :
    (b.put_n cfg s).holds (t ++ s) := by
  have hput := put_holds h s hs
  have hpos := h.2.1
  have : b.put_n cfg s = b.put s := by
    unfold ts_buffer_t.put_n ts_buffer_t.put snprintf
    have h1 : ¬ ((cfg.TS_RESP_BUFFER_LEN : Int) - (b.pos : Int) = 0) := by omega
    have h2 : ¬ ((cfg.TS_RESP_BUFFER_LEN : Int) - (b.pos : Int) < 0) := by omega
    rw [if_neg h1, if_neg h2]
    have h3 : s.take (((cfg.TS_RESP_BUFFER_LEN : Int) - (b.pos : Int)).toNat - 1) = s := by
      apply List.take_of_length_le
      omega
    rw [h3]
    rfl
  rw [this]
  exact hput

/-! ## The serialiser -/

theorem serialize_of_serializable (cfg : Config) (buf : ts_buffer_t) (o : data_object_t)
    (h : serializable cfg o = true) :
    _json_serialize_data_object cfg buf o false
      = buf.put_n cfg (value_text cfg o ++ [',', ' ']) := by
  unfold serializable at h
  unfold _json_serialize_data_object value_text
  cases ht : o.type <;> simp [ht] at h ⊢ <;> simp [h]

theorem serialize_of_not_serializable (cfg : Config) (buf : ts_buffer_t) (o : data_object_t)
    (h : serializable cfg o = false) :
    _json_serialize_data_object cfg buf o false = buf := by
  unfold serializable at h
  unfold _json_serialize_data_object
  cases ht : o.type <;> simp [ht] at h ⊢ <;> simp [h]

theorem serialize_pos (cfg : Config) (buf : ts_buffer_t) (o : data_object_t) :
    (_json_serialize_data_object cfg buf o false).pos = buf.pos + ser_len cfg o := by
  unfold ser_len
  cases h : serializable cfg o
  · rw [serialize_of_not_serializable cfg buf o h]
    simp
  · rw [serialize_of_serializable cfg buf o h, put_n_pos]
    simp

theorem value_text_no_nul (cfg : Config) (hf : ∀ d t, NUL ∉ cfg.fmt_f d t)
    (o : data_object_t) : NUL ∉ value_text cfg o ++ [',', ' '] := by
  have hsep : ∀ v : List Char, NUL ∉ v → NUL ∉ v ++ [',', ' '] := by
    intro v hv h
    rcases List.mem_append.mp h with h | h
    · exact hv h
    · exact absurd h (by decide)
  apply hsep
  unfold value_text
  cases o.type
  · exact fmt_u_no_nul _
  · exact fmt_i_no_nul _
  · exact fmt_u_no_nul _
  · exact fmt_i_no_nul _
  · exact fmt_u_no_nul _
  · exact fmt_i_no_nul _
  · exact hf _ _
  · dsimp only
    split <;> decide
  · intro h
    rcases List.mem_cons.mp h with h | h
    · exact absurd h (by decide)
    · rcases List.mem_append.mp h with h | h
      · exact cstr_no_nul _ h
      · exact absurd h (by decide)

theorem serialize_all_pos (cfg : Config) (objs : List data_object_t) :
    ∀ resp : ts_buffer_t,
      (serialize_all cfg resp objs).pos = resp.pos + ser_len_sum cfg objs := by
  induction objs with
  | nil => intro resp; simp [serialize_all, ser_len_sum]
  | cons o rest ih =>
    intro resp
    have := ih (_json_serialize_data_object cfg resp o false)
    simp only [serialize_all, List.foldl_cons, ser_len_sum, List.map_cons, List.sum_cons]
      at this ⊢
    rw [this, serialize_pos]
    omega

/-- Serialising objects that the build can all serialise, with the cursor staying below the
capacity, appends their values and separators to the text. -/
theorem serialize_all_holds (cfg : Config) (objs : List data_object_t) :
    ∀ (resp : ts_buffer_t) (t : List Char), resp.holds t →
      (∀ o ∈ objs, NUL ∉ value_text cfg o ++ [',', ' ']) →
      (∀ o ∈ objs, serializable cfg o = true) →
      t.length + ser_len_sum cfg objs < cfg.TS_RESP_BUFFER_LEN →
      (serialize_all cfg resp objs).holds (t ++ values_sep cfg objs) := by
  induction objs with
  | nil =>
    intro resp t h _ _ _
    simpa [serialize_all, values_sep] using h
  | cons o rest ih =>
    intro resp t h hnul hser hfit
    have ho : serializable cfg o = true := hser o (List.mem_cons_self _ _)
    have hlen : ser_len cfg o = (value_text cfg o ++ [',', ' ']).length := by
      simp [ser_len, ho]
    simp only [ser_len_sum, List.map_cons, List.sum_cons] at hfit
    have hstep : (_json_serialize_data_object cfg resp o false).holds
        (t ++ (value_text cfg o ++ [',', ' '])) := by
      rw [serialize_of_serializable cfg resp o ho]
      exact put_n_holds cfg h _ (hnul o (List.mem_cons_self _ _)) (by omega)
    have := ih _ _ hstep (fun o' ho' => hnul o' (List.mem_cons_of_mem _ ho'))
      (fun o' ho' => hser o' (List.mem_cons_of_mem _ ho'))
      (by simp only [ser_len_sum, List.length_append] at hlen ⊢; omega)
    simpa [serialize_all, values_sep, List.append_assoc] using this

/-! ## The read loop -/

/-- One iteration of the read loop at a STRING token that names a readable object. -/
theorem read_loop_step (cfg : Config) (parser : ts_parser_t) (data : ts_data_t)
    (o : data_object_t) (n tok : Nat) (resp : ts_buffer_t)
    (htype : (parser.tok tok).type = .JSMN_STRING)
    (hres : (thingset_data_object_by_name data (parser.tok_ptr tok)
      (parser.tok_len tok)).map Prod.snd = some o)
    (hacc : o.access &&& cfg.TS_ACCESS_READ ≠ 0) :
    read_loop cfg parser data (n + 1) tok resp =
      if ((_json_serialize_data_object cfg resp o false).pos : Int)
          ≥ (cfg.TS_RESP_BUFFER_LEN : Int) - 2 then
        .error (.TS_STATUS_RESPONSE_TOO_LONG,
          thingset_status_message_json cfg (_json_serialize_data_object cfg resp o false)
            .TS_STATUS_RESPONSE_TOO_LONG)
      else read_loop cfg parser data n (tok + 1)
        (_json_serialize_data_object cfg resp o false) := by
  rw [read_loop]
  have h1 : ¬ (parser.tok tok).type ≠ .JSMN_STRING := by simp [htype]
  rw [if_neg h1]
  cases hb : thingset_data_object_by_name data (parser.tok_ptr tok) (parser.tok_len tok) with
  | none => rw [hb] at hres; simp at hres
  | some p =>
    obtain ⟨i, o'⟩ := p
    rw [hb] at hres
    simp only [Option.map_some', Option.some.injEq] at hres
    subst hres
    simp only [if_neg hacc]

theorem reads_resolve_cons (cfg : Config) (parser : ts_parser_t) (data : ts_data_t)
    (o : data_object_t) (rest : List data_object_t) (tok : Nat)
    (h : reads_resolve cfg parser data (o :: rest) tok = true) :
    (parser.tok tok).type = .JSMN_STRING ∧
      (thingset_data_object_by_name data (parser.tok_ptr tok)
        (parser.tok_len tok)).map Prod.snd = some o ∧
      o.access &&& cfg.TS_ACCESS_READ ≠ 0 ∧
      reads_resolve cfg parser data rest (tok + 1) = true := by
  simp only [reads_resolve, Bool.and_eq_true, decide_eq_true_eq] at h
  exact ⟨h.1.1.1, h.1.1.2, h.1.2, h.2⟩

/-- Through name tokens that resolve to readable objects, and while the cursor stays below
`TS_RESP_BUFFER_LEN - 2`, the read loop serialises the objects in order and goes on with
the tokens behind them. -/
theorem read_loop_prefix (cfg : Config) (parser : ts_parser_t) (data : ts_data_t) (m : Nat)
    (objs : List data_object_t) :
    ∀ (tok : Nat) (resp : ts_buffer_t),
      reads_resolve cfg parser data objs tok = true →
      resp.pos + ser_len_sum cfg objs + 2 < cfg.TS_RESP_BUFFER_LEN →
      read_loop cfg parser data (objs.length + m) tok resp
        = read_loop cfg parser data m (tok + objs.length) (serialize_all cfg resp objs) := by
  induction objs with
  | nil => intro tok resp _ _; simp [serialize_all]
  | cons o rest ih =>
    intro tok resp hres hfit
    obtain ⟨h1, h2, h3, h4⟩ := reads_resolve_cons cfg parser data o rest tok hres
    simp only [ser_len_sum, List.map_cons, List.sum_cons] at hfit
    have hlen : (o :: rest).length + m = (rest.length + m) + 1 := by
      simp only [List.length_cons]; omega
    rw [hlen, read_loop_step cfg parser data o _ tok resp h1 h2 h3]
    have hpos := serialize_pos cfg resp o
    have hno : ¬ (((_json_serialize_data_object cfg resp o false).pos : Int)
        ≥ (cfg.TS_RESP_BUFFER_LEN : Int) - 2) := by
      rw [hpos]; omega
    rw [if_neg hno, ih (tok + 1) _ h4 (by rw [hpos]; simp only [ser_len_sum]; omega)]
    simp only [serialize_all, List.foldl_cons, List.length_cons]
    congr 1
    omega

/-- If the values of the named objects bring the cursor to `TS_RESP_BUFFER_LEN - 2` or
beyond, the read loop returns response-too-long with the status line as the response. -/
theorem read_loop_too_long (cfg : Config) (parser : ts_parser_t) (data : ts_data_t) (m : Nat)
    (objs : List data_object_t) :
    ∀ (tok : Nat) (resp : ts_buffer_t),
      reads_resolve cfg parser data objs tok = true → objs ≠ [] →
      cfg.TS_RESP_BUFFER_LEN ≤ resp.pos + ser_len_sum cfg objs + 2 →
      ∃ r', read_loop cfg parser data (objs.length + m) tok resp
        = .error (.TS_STATUS_RESPONSE_TOO_LONG,
            thingset_status_message_json cfg r' .TS_STATUS_RESPONSE_TOO_LONG) := by
  induction objs with
  | nil => intro tok resp _ h; exact absurd rfl h
  | cons o rest ih =>
    intro tok resp hres _ hlong
    obtain ⟨h1, h2, h3, h4⟩ := reads_resolve_cons cfg parser data o rest tok hres
    simp only [ser_len_sum, List.map_cons, List.sum_cons] at hlong
    have hlen : (o :: rest).length + m = (rest.length + m) + 1 := by
      simp only [List.length_cons]; omega
    rw [hlen, read_loop_step cfg parser data o _ tok resp h1 h2 h3]
    have hpos := serialize_pos cfg resp o
    by_cases hnow : ((_json_serialize_data_object cfg resp o false).pos : Int)
        ≥ (cfg.TS_RESP_BUFFER_LEN : Int) - 2
    · rw [if_pos hnow]
      exact ⟨_, rfl⟩
    · rw [if_neg hnow]
      have hrest : rest ≠ [] := by
        intro hr
        subst hr
        apply hnow
        rw [hpos]
        simp only [List.map_nil, List.sum_nil] at hlong
        omega
      exact ih (tok + 1) _ h4 hrest (by rw [hpos]; simp only [ser_len_sum]; omega)

/-- Every early return of the read loop carries a failure status and the buffer the status
message left. -/
theorem read_loop_error (cfg : Config) (parser : ts_parser_t) (data : ts_data_t) (n : Nat) :
    ∀ (tok : Nat) (resp : ts_buffer_t) (st : ts_status) (r : ts_buffer_t),
      read_loop cfg parser data n tok resp = .error (st, r) →
      st ≠ .TS_STATUS_SUCCESS ∧ ∃ r', r = thingset_status_message_json cfg r' st := by
  induction n with
  | zero => intro tok resp st r h; simp [read_loop] at h
  | succ n ih =>
    intro tok resp st r h
    rw [read_loop] at h
    split at h
    · simp only [Except.error.injEq, Prod.mk.injEq] at h
      obtain ⟨rfl, rfl⟩ := h
      exact ⟨by decide, _, rfl⟩
    · split at h
      · simp only [Except.error.injEq, Prod.mk.injEq] at h
        obtain ⟨rfl, rfl⟩ := h
        exact ⟨by decide, _, rfl⟩
      · split at h
        · simp only [Except.error.injEq, Prod.mk.injEq] at h
          obtain ⟨rfl, rfl⟩ := h
          exact ⟨by decide, _, rfl⟩
        · dsimp only at h
          split at h
          · simp only [Except.error.injEq, Prod.mk.injEq] at h
            obtain ⟨rfl, rfl⟩ := h
            exact ⟨by decide, _, rfl⟩
          · exact ih _ _ st r h

/-- At a normal exit of the read loop the cursor is where it started (no iteration) or below
`TS_RESP_BUFFER_LEN - 2`. -/
theorem read_loop_ok_pos (cfg : Config) (parser : ts_parser_t) (data : ts_data_t) (n : Nat) :
    ∀ (tok : Nat) (resp r : ts_buffer_t),
      read_loop cfg parser data n tok resp = .ok r →
      r = resp ∨ r.pos + 2 < cfg.TS_RESP_BUFFER_LEN := by
  induction n with
  | zero =>
    intro tok resp r h
    simp only [read_loop, Except.ok.injEq] at h
    exact Or.inl h.symm
  | succ n ih =>
    intro tok resp r h
    rw [read_loop] at h
    split at h
    · simp at h
    · split at h
      · simp at h
      · split at h
        · simp at h
        · dsimp only at h
          split at h
          · simp at h
          · rename_i hpos
            rcases ih _ _ r h with h' | h'
            · right
              rw [h']
              omega
            · exact Or.inr h'

/-! ## The read handler -/

/-- The read handler as its three stages: status line and opener, the loop, and the
closer written two characters before the cursor. -/
theorem read_json_stages (cfg : Config) (parser : ts_parser_t) (resp : ts_buffer_t)
    (data : ts_data_t) :
    thingset_read_json cfg parser resp data =
      match read_loop cfg parser data
          (parser.tok_count - (read_first parser : Int)).toNat (read_first parser)
          ((thingset_status_message_json cfg resp .TS_STATUS_SUCCESS).put
            (read_opener parser)) with
      | .error r => r
      | .ok r =>
        (.TS_STATUS_SUCCESS,
          { r with str := sprintf r.str (r.pos - 2) (read_closer parser),
                   pos := r.pos - 2 + (read_closer parser).length }) := by
  unfold thingset_read_json read_first read_opener read_closer
  by_cases ha : (parser.tok 0).type = .JSMN_ARRAY
  · simp only [ha, decide_True, if_true]
    split <;> rfl
  · simp only [ha, decide_False, Bool.false_eq_true, if_false]
    split <;> rfl

theorem read_opener_length (parser : ts_parser_t) :
    (read_opener parser).length = read_first parser + 1 := by
  unfold read_opener read_first
  split <;> rfl

theorem read_init_holds (cfg : Config) (parser : ts_parser_t) (resp : ts_buffer_t) :
    ((thingset_status_message_json cfg resp .TS_STATUS_SUCCESS).put
      (read_opener parser)).holds
      (status_line cfg .TS_STATUS_SUCCESS ++ read_opener parser) := by
  apply put_holds (status_message_holds cfg resp _)
  unfold read_opener
  split <;> decide

theorem read_init_pos (cfg : Config) (parser : ts_parser_t) (resp : ts_buffer_t) :
    ((thingset_status_message_json cfg resp .TS_STATUS_SUCCESS).put
      (read_opener parser)).pos = read_start cfg parser := by
  rw [(read_init_holds cfg parser resp).2.1, List.length_append, read_opener_length]
  rfl

/-- Whenever `thingset_read_json` returns a failure status, the response is exactly the
status line of that status. -/
theorem read_json_failure_holds (cfg : Config) (parser : ts_parser_t) (resp : ts_buffer_t)
    (data : ts_data_t) (st : ts_status) (r : ts_buffer_t)
    (h : thingset_read_json cfg parser resp data = (st, r))
    (hst : st ≠ .TS_STATUS_SUCCESS) : r.holds (status_line cfg st) := by
  rw [read_json_stages] at h
  split at h
  · rename_i e heq
    subst h
    obtain ⟨_, r', hr'⟩ := read_loop_error cfg parser data _ _ _ st r heq
    rw [hr']
    exact status_message_holds cfg r' st
  · simp only [Prod.mk.injEq] at h
    exact absurd h.1.symm hst

/-- C5 (capacity enforcement on read), for a buffer that has room for the success status
line and four more bytes.  (a) If the name tokens all resolve to readable objects `objs` and
the values, each with its separator `", "`, bring the cursor from behind the status prefix
to `TS_RESP_BUFFER_LEN - 2` or beyond, `thingset_read_json` returns response-too-long and
the buffer holds exactly the terminated response-too-long status line, the cursor at its
end.  (b) Whenever `thingset_read_json` returns success, the response text and its
terminator take at most `TS_RESP_BUFFER_LEN` bytes. -/
theorem read_json_capacity (cfg : Config) (parser : ts_parser_t) (resp : ts_buffer_t)
    (data : ts_data_t)
    (hroom : (status_line cfg .TS_STATUS_SUCCESS).length + 4 < cfg.TS_RESP_BUFFER_LEN) :
    (∀ objs : List data_object_t,
      parser.tok_count = ((read_first parser + objs.length : Nat) : Int) →
      reads_resolve cfg parser data objs (read_first parser) = true →
      cfg.TS_RESP_BUFFER_LEN ≤ read_start cfg parser + ser_len_sum cfg objs + 2 →
      ∃ r, thingset_read_json cfg parser resp data = (.TS_STATUS_RESPONSE_TOO_LONG, r) ∧
        cstr r.str = status_line cfg .TS_STATUS_RESPONSE_TOO_LONG ∧
        r.pos = (status_line cfg .TS_STATUS_RESPONSE_TOO_LONG).length ∧
        r.str[r.pos]? = some NUL) ∧
    (∀ r, thingset_read_json cfg parser resp data = (.TS_STATUS_SUCCESS, r) →
      (cstr r.str).length + 1 ≤ cfg.TS_RESP_BUFFER_LEN ∧ (cstr r.str).length ≤ r.pos) := by
  have hfirst : read_first parser ≤ 1 := by unfold read_first; split <;> omega
  constructor
  · intro objs hcount hres hlong
    have hne : objs ≠ [] := by
      intro h
      subst h
      simp only [ser_len_sum, List.map_nil, List.sum_nil, read_start] at hlong
      omega
    have hn : (parser.tok_count - (read_first parser : Int)).toNat = objs.length + 0 := by
      rw [hcount]; omega
    obtain ⟨r', hr'⟩ := read_loop_too_long cfg parser data 0 objs (read_first parser)
      ((thingset_status_message_json cfg resp .TS_STATUS_SUCCESS).put (read_opener parser))
      hres hne (by rw [read_init_pos]; exact hlong)
    refine ⟨thingset_status_message_json cfg r' .TS_STATUS_RESPONSE_TOO_LONG, ?_, ?_⟩
    · rw [read_json_stages, hn, hr']
    · have hh := status_message_holds cfg r' .TS_STATUS_RESPONSE_TOO_LONG
      exact ⟨(holds_cstr hh).1, (holds_cstr hh).2, holds_terminator hh⟩
  · intro r h
    rw [read_json_stages] at h
    split at h
    · rename_i e heq
      subst h
      exact absurd rfl (read_loop_error cfg parser data _ _ _ _ _ heq).1
    · rename_i r0 heq
      simp only [Prod.mk.injEq, true_and] at h
      subst h
      have hlen := sprintf_cstr_length_le r0.str (r0.pos - 2) (read_closer parser)
      have hcl : (read_closer parser).length ≤ 1 := by
        unfold read_closer; split <;> simp
      simp only
      refine ⟨?_, hlen⟩
      rcases read_loop_ok_pos cfg parser data _ _ _ r0 heq with h0 | h0
      · have hp : r0.pos = read_start cfg parser := by rw [h0, read_init_pos]
        simp only [read_start] at hp
        omega
      · omega

/-- The request `["s"]` for a string of fifty characters overflows the sample buffer of 60
bytes; the request `["a","b"]` succeeds within it. -/
theorem read_json_capacity_witness :
    (∃ r, thingset_read_json sample_cfg req_read_s empty_resp long_data
        = (.TS_STATUS_RESPONSE_TOO_LONG, r) ∧
      cstr r.str = status_line sample_cfg .TS_STATUS_RESPONSE_TOO_LONG ∧
      r.pos = (status_line sample_cfg .TS_STATUS_RESPONSE_TOO_LONG).length ∧
      r.str[r.pos]? = some NUL) ∧
    ((cstr (thingset_read_json sample_cfg req_read_a_b empty_resp sample_data).2.str).length
        + 1 ≤ sample_cfg.TS_RESP_BUFFER_LEN ∧
      (cstr (thingset_read_json sample_cfg req_read_a_b empty_resp sample_data).2.str).length
        ≤ (thingset_read_json sample_cfg req_read_a_b empty_resp sample_data).2.pos) :=
  ⟨(read_json_capacity sample_cfg req_read_s empty_resp long_data (by decide)).1 [obj_long]
      (by decide) (by decide) (by decide),
    (read_json_capacity sample_cfg req_read_a_b empty_resp sample_data (by decide)).2
      (thingset_read_json sample_cfg req_read_a_b empty_resp sample_data).2 (by decide)⟩

/-! ## Read failures -/

/-- C6 as stated fails: in the request `["s",5]` the first token that is not a STRING token
is the primitive `5`, behind the name of a readable object, yet the handler returns
response-too-long, not wrong-format: the value of `s` has already overflowed the buffer. -/
theorem read_json_first_failure_counterexample :
    (req_read_s_5.tok 1).type = .JSMN_STRING ∧
      reads_resolve sample_cfg req_read_s_5 long_data [obj_long] 1 = true ∧
      (req_read_s_5.tok 2).type ≠ .JSMN_STRING ∧
      (thingset_read_json sample_cfg req_read_s_5 empty_resp long_data).1
        = .TS_STATUS_RESPONSE_TOO_LONG ∧
      (thingset_read_json sample_cfg req_read_s_5 empty_resp long_data).1
        ≠ .TS_STATUS_WRONG_FORMAT := by
  refine ⟨?_, ?_, ?_, ?_, ?_⟩ <;> decide

/-- C6 (read failures), amended: let the name tokens before token `k` resolve to readable
objects `objs` whose values keep the cursor below `TS_RESP_BUFFER_LEN - 2`, and let token
`k` be within the request.  If token `k` is not a STRING token the handler returns
wrong-format; if it names no object, unknown-object; if it names an object without the READ
bit, unauthorized; each time the buffer holds exactly that status line (cursor at its end)
and none of the values serialised before.  Moreover, whatever the request, a failure status
that is returned comes with exactly its status line in the buffer. -/
theorem read_json_first_failure (cfg : Config) (parser : ts_parser_t) (resp : ts_buffer_t)
    (data : ts_data_t) (objs : List data_object_t) (k : Nat)
    (hk : k = read_first parser + objs.length)
    (hres : reads_resolve cfg parser data objs (read_first parser) = true)
    (hfit : read_start cfg parser + ser_len_sum cfg objs + 2 < cfg.TS_RESP_BUFFER_LEN)
    (hin : (k : Int) < parser.tok_count) :
    ((parser.tok k).type ≠ .JSMN_STRING →
      fails_with cfg (thingset_read_json cfg parser resp data) .TS_STATUS_WRONG_FORMAT) ∧
    ((parser.tok k).type = .JSMN_STRING →
      thingset_data_object_by_name data (parser.tok_ptr k) (parser.tok_len k) = none →
      fails_with cfg (thingset_read_json cfg parser resp data) .TS_STATUS_UNKNOWN_DATA_OBJ) ∧
    (∀ (i : Nat) (o : data_object_t), (parser.tok k).type = .JSMN_STRING →
      thingset_data_object_by_name data (parser.tok_ptr k) (parser.tok_len k) = some (i, o) →
      o.access &&& cfg.TS_ACCESS_READ = 0 →
      fails_with cfg (thingset_read_json cfg parser resp data) .TS_STATUS_UNAUTHORIZED) ∧
    (∀ (st : ts_status) (r : ts_buffer_t), thingset_read_json cfg parser resp data = (st, r) →
      st ≠ .TS_STATUS_SUCCESS →
      cstr r.str = status_line cfg st ∧ r.pos = (status_line cfg st).length) := by
  obtain ⟨m, hm⟩ : ∃ m, (parser.tok_count - (read_first parser : Int)).toNat
      = objs.length + (m + 1) := ⟨(parser.tok_count - (k : Int)).toNat - 1, by omega⟩
  have hloop := read_loop_prefix cfg parser data (m + 1) objs (read_first parser)
    ((thingset_status_message_json cfg resp .TS_STATUS_SUCCESS).put (read_opener parser))
    hres (by rw [read_init_pos]; exact hfit)
  rw [← hk] at hloop
  have hfail : ∀ (st : ts_status) (r' : ts_buffer_t),
      thingset_read_json cfg parser resp data
        = (st, thingset_status_message_json cfg r' st) →
      fails_with cfg (thingset_read_json cfg parser resp data) st := by
    intro st r' h
    rw [h]
    exact ⟨rfl, holds_cstr (status_message_holds cfg r' st)⟩
  refine ⟨?_, ?_, ?_, ?_⟩
  · intro hbad
    apply hfail _ (serialize_all cfg _ objs)
    rw [read_json_stages, hm, hloop, read_loop, if_pos hbad]
  · intro hstr hnone
    apply hfail _ (serialize_all cfg _ objs)
    have h1 : ¬ (parser.tok k).type ≠ .JSMN_STRING := by simp [hstr]
    rw [read_json_stages, hm, hloop, read_loop, if_neg h1, hnone]
  · intro i o hstr hsome hacc
    apply hfail _ (serialize_all cfg _ objs)
    have h1 : ¬ (parser.tok k).type ≠ .JSMN_STRING := by simp [hstr]
    rw [read_json_stages, hm, hloop, read_loop, if_neg h1, hsome]
    simp only [hacc, if_true]
    rfl
  · intro st r h hst
    exact holds_cstr (read_json_failure_holds cfg parser resp data st r h hst)

/-- In the request `["a",5]` the name `a` resolves and fits, the primitive `5` is reported as
wrong-format. -/
theorem read_json_first_failure_witness :
    fails_with sample_cfg (thingset_read_json sample_cfg req_read_a_5 empty_resp sample_data)
      .TS_STATUS_WRONG_FORMAT :=
  (read_json_first_failure sample_cfg req_read_a_5 empty_resp sample_data [obj_a] 2
    (by decide) (by decide) (by decide) (by decide)).1 (by decide)

/-! ## Shape of a read response -/

/-- Texts that are each followed by the separator are the texts joined by the separator,
followed by one separator. -/
theorem flatten_sep_eq_join_comma (vs : List (List Char)) (h : vs ≠ []) :
    (vs.map (fun v => v ++ [',', ' '])).flatten = join_comma vs ++ [',', ' '] := by
  induction vs with
  | nil => exact absurd rfl h
  | cons v rest ih =>
    cases rest with
    | nil => simp [join_comma, List.intercalate]
    | cons w rest =>
      have := ih (by simp)
      simp only [List.map_cons, List.flatten_cons] at this ⊢
      rw [this]
      simp [join_comma, List.intercalate, List.intersperse]

theorem values_sep_eq (cfg : Config) (objs : List data_object_t) (h : objs ≠ []) :
    values_sep cfg objs = join_comma (objs.map (value_text cfg)) ++ [',', ' '] := by
  have := flatten_sep_eq_join_comma (objs.map (value_text cfg)) (by simpa using h)
  rw [← this]
  simp [values_sep, List.map_map, Function.comp_def]

/-- The response of a read whose names resolve to serialisable readable objects and whose
values stay below the capacity test: status line, opener, the values joined by the
separator, closer. -/
theorem read_json_values (cfg : Config)
    (parser : ts_parser_t) (resp : ts_buffer_t) (data : ts_data_t)
    (objs : List data_object_t) (hne : objs ≠ [])
    (hnul : ∀ o ∈ objs, NUL ∉ value_text cfg o ++ [',', ' '])
    (hcount : parser.tok_count = ((read_first parser + objs.length : Nat) : Int))
    (hres : reads_resolve cfg parser data objs (read_first parser) = true)
    (hser : ∀ o ∈ objs, serializable cfg o = true)
    (hfit : read_start cfg parser + ser_len_sum cfg objs + 2 < cfg.TS_RESP_BUFFER_LEN) :
    ∃ r, thingset_read_json cfg parser resp data = (.TS_STATUS_SUCCESS, r) ∧
      r.holds (status_line cfg .TS_STATUS_SUCCESS ++ read_opener parser ++
        join_comma (objs.map (value_text cfg)) ++ read_closer parser) := by
  have hn : (parser.tok_count - (read_first parser : Int)).toNat = objs.length + 0 := by
    rw [hcount]; omega
  have hloop := read_loop_prefix cfg parser data 0 objs (read_first parser)
    ((thingset_status_message_json cfg resp .TS_STATUS_SUCCESS).put (read_opener parser))
    hres (by rw [read_init_pos]; exact hfit)
  have hinit := read_init_holds cfg parser resp
  have hlen0 : (status_line cfg .TS_STATUS_SUCCESS ++ read_opener parser).length
      = read_start cfg parser := by
    rw [List.length_append, read_opener_length]; rfl
  have hall := serialize_all_holds cfg objs _ _ hinit hnul hser (by rw [hlen0]; omega)
  rw [values_sep_eq cfg objs hne, ← List.append_assoc] at hall
  have hclose : NUL ∉ read_closer parser := by
    unfold read_closer; split <;> decide
  have hpos := hall.2.1
  have hread : thingset_read_json cfg parser resp data = (.TS_STATUS_SUCCESS,
      { serialize_all cfg ((thingset_status_message_json cfg resp
          .TS_STATUS_SUCCESS).put (read_opener parser)) objs with
        str := sprintf (serialize_all cfg ((thingset_status_message_json cfg resp
            .TS_STATUS_SUCCESS).put (read_opener parser)) objs).str
          ((serialize_all cfg ((thingset_status_message_json cfg resp
            .TS_STATUS_SUCCESS).put (read_opener parser)) objs).pos - 2)
          (read_closer parser),
        pos := (serialize_all cfg ((thingset_status_message_json cfg resp
            .TS_STATUS_SUCCESS).put (read_opener parser)) objs).pos - 2
          + (read_closer parser).length }) := by
    rw [read_json_stages, hn, hloop]
    simp only [read_loop]
  have hfinal := holds_sprintf_at hall
    ((serialize_all cfg ((thingset_status_message_json cfg resp .TS_STATUS_SUCCESS).put
      (read_opener parser)) objs).pos - 2) (read_closer parser) (by omega) hclose
  have htake : (status_line cfg .TS_STATUS_SUCCESS ++ read_opener parser ++
      join_comma (objs.map (value_text cfg)) ++ [',', ' ']).take
        ((serialize_all cfg ((thingset_status_message_json cfg resp .TS_STATUS_SUCCESS).put
          (read_opener parser)) objs).pos - 2)
      = status_line cfg .TS_STATUS_SUCCESS ++ read_opener parser ++
        join_comma (objs.map (value_text cfg)) := by
    rw [hpos, List.length_append]
    simp only [List.length_cons, List.length_nil, Nat.add_sub_cancel, List.take_left']
  rw [htake] at hfinal
  exact ⟨_, hread, hfinal⟩

/-- C9 as stated fails: the request `["s"]` for a readable string of 41 characters has the
response `:0 Success. ["x…x"]` of 57 characters, which fits the sample buffer of 60 bytes
with its terminator, yet the handler returns response-too-long: behind the value and its
separator the cursor stands at 58, which is `TS_RESP_BUFFER_LEN - 2`.  And on a build
without `TS_64BIT_TYPES_SUPPORT` the request `["a","u"]` for the `uint16` object `a` and the
`uint64` object `u` returns success with the text `:0 Success. [7]`: the serialiser has no
case for the type of `u` and the response holds one value for two names. -/
theorem read_json_shape_counterexample :
    reads_resolve sample_cfg req_read_s ⟨[obj_s41]⟩ [obj_s41] 1 = true ∧
      (status_line sample_cfg .TS_STATUS_SUCCESS ++ ' ' :: '[' ::
        (join_comma [value_text sample_cfg obj_s41] ++ [']'])).length + 1
        ≤ sample_cfg.TS_RESP_BUFFER_LEN ∧
      (thingset_read_json sample_cfg req_read_s empty_resp ⟨[obj_s41]⟩).1
        = .TS_STATUS_RESPONSE_TOO_LONG ∧
      reads_resolve cfg_no64 req_read_a_u ⟨[obj_a, obj_u]⟩ [obj_a, obj_u] 1 = true ∧
      (thingset_read_json cfg_no64 req_read_a_u empty_resp ⟨[obj_a, obj_u]⟩).1
        = .TS_STATUS_SUCCESS ∧
      cstr (thingset_read_json cfg_no64 req_read_a_u empty_resp ⟨[obj_a, obj_u]⟩).2.str
        = ":0 Success. [7]".toList := by
  refine ⟨?_, ?_, ?_, ?_, ?_, ?_⟩ <;> decide

/-- C9 (read response shape and order), amended: a read request whose name tokens resolve,
in order, to the `n ≥ 1` readable objects `objs`, all of a type the build serialises, and
for which the cursor behind the last value and its separator stays below
`TS_RESP_BUFFER_LEN - 2` (the test of the handler) returns success; the response text is the
success status line, a space, and the values of the objects in request order joined by
`", "`, enclosed in `[` and `]` exactly when the first token is an ARRAY token; the cursor
stands at the end of the text. -/
theorem read_json_shape (cfg : Config) (hf : ∀ d t, NUL ∉ cfg.fmt_f d t)
    (parser : ts_parser_t) (resp : ts_buffer_t) (data : ts_data_t)
    (objs : List data_object_t) (hne : objs ≠ [])
    (hcount : parser.tok_count = ((read_first parser + objs.length : Nat) : Int))
    (hres : reads_resolve cfg parser data objs (read_first parser) = true)
    (hser : ∀ o ∈ objs, serializable cfg o = true)
    (hfit : read_start cfg parser + ser_len_sum cfg objs + 2 < cfg.TS_RESP_BUFFER_LEN) :
    ∃ r, thingset_read_json cfg parser resp data = (.TS_STATUS_SUCCESS, r) ∧
      cstr r.str = status_line cfg .TS_STATUS_SUCCESS ++ ' ' ::
        (if (parser.tok 0).type = .JSMN_ARRAY then
          '[' :: (join_comma (objs.map (value_text cfg)) ++ [']'])
        else join_comma (objs.map (value_text cfg))) ∧
      r.pos = (cstr r.str).length := by
  obtain ⟨r, hread, hholds⟩ :=
    read_json_values cfg parser resp data objs hne
      (fun o _ => value_text_no_nul cfg hf o) hcount hres hser hfit
  refine ⟨r, hread, ?_, ?_⟩
  · rw [(holds_cstr hholds).1]
    unfold read_opener read_closer
    split <;> simp
  · rw [(holds_cstr hholds).1]
    exact hholds.2.1

/-- The request `["a","b"]` on the sample registry. -/
theorem read_json_shape_witness :
    ∃ r, thingset_read_json sample_cfg req_read_a_b empty_resp sample_data
        = (.TS_STATUS_SUCCESS, r) ∧
      cstr r.str = status_line sample_cfg .TS_STATUS_SUCCESS ++ ' ' ::
        (if (req_read_a_b.tok 0).type = .JSMN_ARRAY then
          '[' :: (join_comma ([obj_a, obj_b].map (value_text sample_cfg)) ++ [']'])
        else join_comma ([obj_a, obj_b].map (value_text sample_cfg))) ∧
      r.pos = (cstr r.str).length :=
  read_json_shape sample_cfg (fun _ t => cstr_no_nul t) req_read_a_b empty_resp sample_data
    [obj_a, obj_b] (by decide) (by decide) (by decide) (by decide) (by decide)

/-! ## The list handler -/

theorem quoted_name_sep_no_nul (o : data_object_t) :
    NUL ∉ '"' :: (cstr o.name ++ ['"', ',', ' ']) := by
  intro h
  rcases List.mem_cons.mp h with h | h
  · exact absurd h (by decide)
  · rcases List.mem_append.mp h with h | h
    · exact cstr_no_nul _ h
    · exact absurd h (by decide)

/-- While the cursor stays below `TS_RESP_BUFFER_LEN - 2`, the list loop appends the quoted
names of the selected objects, each with its separator, in registry order. -/
theorem list_loop_ok (cfg : Config) (mask : Nat) (objs : List data_object_t) :
    ∀ (resp : ts_buffer_t) (t : List Char), resp.holds t →
      t.length + names_len_sum cfg mask objs + 2 < cfg.TS_RESP_BUFFER_LEN →
      ∃ r, list_loop cfg mask objs resp = .ok r ∧
        r.holds (t ++ (((objs.filter (list_selects cfg mask)).map quoted_name).map
          (fun v => v ++ [',', ' '])).flatten) := by
  induction objs with
  | nil =>
    intro resp t h _
    exact ⟨resp, rfl, by simpa using h⟩
  | cons o rest ih =>
    intro resp t h hfit
    rw [list_loop]
    by_cases hsel : o.access &&& cfg.TS_ACCESS_READ ≠ 0 ∧ o.id &&& mask = mask
    · have hs : list_selects cfg mask o = true := by simpa [list_selects] using hsel
      simp only [names_len_sum, List.filter_cons, hs, if_true, List.map_cons, List.sum_cons]
        at hfit
      have hq : ('"' :: (cstr o.name ++ ['"', ',', ' '])).length = (quoted_name o).length + 2 := by
        simp [quoted_name]
      have hstep := put_n_holds cfg h _ (quoted_name_sep_no_nul o) (by rw [hq]; omega)
      have hpos := hstep.2.1
      rw [if_pos hsel]
      simp only
      have hno : ¬ (((resp.put_n cfg ('"' :: (cstr o.name ++ ['"', ',', ' ']))).pos : Int)
          ≥ (cfg.TS_RESP_BUFFER_LEN : Int) - 2) := by
        rw [hpos, List.length_append, hq]; omega
      rw [if_neg hno]
      obtain ⟨r, hr, hh⟩ := ih _ _ hstep (by
        rw [List.length_append, hq]; simp only [names_len_sum]; omega)
      refine ⟨r, hr, ?_⟩
      simpa [List.filter_cons, hs, quoted_name, List.append_assoc] using hh
    · have hs : list_selects cfg mask o = false := by simpa [list_selects] using hsel
      simp only [names_len_sum, List.filter_cons, hs] at hfit
      rw [if_neg hsel]
      obtain ⟨r, hr, hh⟩ := ih _ _ h (by simpa [names_len_sum] using hfit)
      refine ⟨r, hr, ?_⟩
      simpa [List.filter_cons, hs] using hh

/-- C10 as stated fails: a registry with one readable object whose name has 41 characters
lists as `:0 Success. ["n…n"]`, 57 characters that fit the sample buffer of 60 bytes with
their terminator, yet the handler returns response-too-long: behind the name and its
separator the cursor stands at 58, which is `TS_RESP_BUFFER_LEN - 2`. -/
theorem list_json_all_readable_counterexample :
    req_list_all.tok_count = 0 ∧
      obj_named41.access &&& sample_cfg.TS_ACCESS_READ ≠ 0 ∧
      (status_line sample_cfg .TS_STATUS_SUCCESS ++ ' ' :: '[' ::
        (join_comma [quoted_name obj_named41] ++ [']'])).length + 1
        ≤ sample_cfg.TS_RESP_BUFFER_LEN ∧
      (thingset_list_json sample_cfg req_list_all empty_resp ⟨[obj_named41]⟩).1
        = .TS_STATUS_RESPONSE_TOO_LONG := by
  refine ⟨?_, ?_, ?_, ?_⟩ <;> decide

/-- C10 (list everything), amended: for a request with zero tokens and a registry with at
least one object whose READ bit is set, if the cursor behind the last name and its separator
stays below `TS_RESP_BUFFER_LEN - 2` (the test of the handler),
`thingset_list_json` returns success and the response text is the success status line,
` [`, the double-quoted names of exactly the objects whose READ bit is set, in registry
order, joined by `", "`, and `]`; the cursor stands at the end of the text. -/
theorem list_json_all_readable (cfg : Config) (parser : ts_parser_t) (resp : ts_buffer_t)
    (data : ts_data_t) (hcount : parser.tok_count = 0)
    (hsome : ∃ o ∈ data.objects, o.access &&& cfg.TS_ACCESS_READ ≠ 0)
    (hfit : (status_line cfg .TS_STATUS_SUCCESS).length + 2
      + ((data.objects.filter (fun o => decide (o.access &&& cfg.TS_ACCESS_READ ≠ 0))).map
          (fun o => (quoted_name o).length + 2)).sum + 2 < cfg.TS_RESP_BUFFER_LEN) :
    ∃ r, thingset_list_json cfg parser resp data = (.TS_STATUS_SUCCESS, r) ∧
      cstr r.str = status_line cfg .TS_STATUS_SUCCESS ++ ' ' :: '[' ::
        (join_comma ((data.objects.filter
          (fun o => decide (o.access &&& cfg.TS_ACCESS_READ ≠ 0))).map quoted_name)
          ++ [']']) ∧
      r.pos = (cstr r.str).length := by
  have hsel : list_selects cfg 0 = fun o => decide (o.access &&& cfg.TS_ACCESS_READ ≠ 0) := by
    funext o
    simp [list_selects]
  have hinit : ((thingset_status_message_json cfg resp .TS_STATUS_SUCCESS).put
      [' ', '[']).holds (status_line cfg .TS_STATUS_SUCCESS ++ [' ', '[']) :=
    put_holds (status_message_holds cfg resp _) _ (by decide)
  obtain ⟨r0, hr0, hh⟩ := list_loop_ok cfg 0 data.objects _ _ hinit (by
    simp only [names_len_sum, hsel, List.length_append, List.length_cons, List.length_nil]
    omega)
  rw [hsel] at hh
  have hne : (data.objects.filter
      (fun o => decide (o.access &&& cfg.TS_ACCESS_READ ≠ 0))).map quoted_name ≠ [] := by
    obtain ⟨o, ho, hacc⟩ := hsome
    have : o ∈ data.objects.filter
        (fun o => decide (o.access &&& cfg.TS_ACCESS_READ ≠ 0)) := by
      simp [List.mem_filter, ho, hacc]
    intro h
    rw [List.map_eq_nil_iff] at h
    rw [h] at this
    simp at this
  rw [flatten_sep_eq_join_comma _ hne, ← List.append_assoc] at hh
  have hpos := hh.2.1
  have hfinal := holds_sprintf_at hh (r0.pos - 2) [']'] (by omega) (by decide)
  have htake : (status_line cfg .TS_STATUS_SUCCESS ++ [' ', '['] ++
      join_comma ((data.objects.filter
        (fun o => decide (o.access &&& cfg.TS_ACCESS_READ ≠ 0))).map quoted_name)
      ++ [',', ' ']).take (r0.pos - 2)
      = status_line cfg .TS_STATUS_SUCCESS ++ [' ', '['] ++
        join_comma ((data.objects.filter
          (fun o => decide (o.access &&& cfg.TS_ACCESS_READ ≠ 0))).map quoted_name) := by
    rw [hpos, List.length_append]
    simp only [List.length_cons, List.length_nil, Nat.add_sub_cancel, List.take_left']
  rw [htake] at hfinal
  have hp1 : r0.pos - 1 = r0.pos - 2 + [']'].length := by
    rw [hpos, List.length_append]
    simp only [List.length_cons, List.length_nil]
    omega
  have hlist : thingset_list_json cfg parser resp data
      = (.TS_STATUS_SUCCESS,
        { r0 with str := sprintf r0.str (r0.pos - 2) [']'],
                  pos := r0.pos - 2 + [']'].length }) := by
    unfold thingset_list_json
    simp only [hcount, if_true, hr0]
    rw [hp1]
  refine ⟨_, hlist, ?_, ?_⟩
  · rw [(holds_cstr hfinal).1]
    simp
  · rw [(holds_cstr hfinal).1]
    exact hfinal.2.1

/-- The registry with `a`, the write-only `w` and `b` lists as `["a", "b"]`. -/
theorem list_json_all_readable_witness :
    (∃ r, thingset_list_json sample_cfg req_list_all empty_resp mixed_data
        = (.TS_STATUS_SUCCESS, r) ∧
      cstr r.str = status_line sample_cfg .TS_STATUS_SUCCESS ++ ' ' :: '[' ::
        (join_comma ((mixed_data.objects.filter
          (fun o => decide (o.access &&& sample_cfg.TS_ACCESS_READ ≠ 0))).map quoted_name)
          ++ [']']) ∧
      r.pos = (cstr r.str).length) ∧
    cstr (thingset_list_json sample_cfg req_list_all empty_resp mixed_data).2.str
      = ":0 Success. [\"a\", \"b\"]".toList :=
  ⟨list_json_all_readable sample_cfg req_list_all empty_resp mixed_data (by decide)
      ⟨⟨0x1001, 3, .TS_T_UINT16, 0, .word16 7, "a".toList⟩, by decide, by decide⟩ (by decide),
    by decide⟩

/-! ## Writing one pair -/

theorem cstr_of_no_nul (s : List Char) (h : NUL ∉ s) : cstr s = s := by
  have := cstr_append_nul s [] h
  induction s with
  | nil => rfl
  | cons c s ih =>
    have hc : c ≠ NUL := fun hc => h (by simp [hc])
    have hs : NUL ∉ s := fun hs => h (List.mem_cons_of_mem _ hs)
    rw [cstr_cons, if_neg hc, ih hs (cstr_append_nul s [] hs)]

/-- Copying a text without terminator, the token being exactly the text. -/
theorem strncpy_term_eq (dst s rest : List Char) (h : NUL ∉ s) :
    strncpy_term dst (s ++ rest) s.length = s ++ NUL :: dst.drop (s.length + 1) := by
  unfold strncpy_term
  rw [List.take_left' rfl, cstr_of_no_nul s h, poke_of_le _ _ _ (Nat.zero_le _)]
  simp

theorem tok_text_split (p : ts_parser_t) (i : Nat) (s : List Char)
    (hin : (p.tok i).end_ ≤ p.str.length) (htext : p.tok_text i = s) :
    p.tok_len i = s.length ∧ ∃ rest, p.tok_ptr i = s ++ rest := by
  have hle := (p.tok i).le
  have hlen : p.tok_len i ≤ (p.tok_ptr i).length := by
    unfold ts_parser_t.tok_len ts_parser_t.tok_ptr
    rw [List.length_drop]
    omega
  constructor
  · rw [← htext]
    unfold ts_parser_t.tok_text
    rw [List.length_take]
    omega
  · refine ⟨(p.tok_ptr i).drop (p.tok_len i), ?_⟩
    rw [← htext]
    unfold ts_parser_t.tok_text
    exact (List.take_append_drop _ _).symm

theorem store_getElem? (data : ts_data_t) (i j : Nat) (c : ts_cell) :
    (data.store i c).objects[j]?
      = (data.objects[j]?).map (fun o => if i = j then { o with data := c } else o) := by
  unfold ts_data_t.store
  simp only [List.getElem?_modify]
  rfl

/-- A store changes no name, so the lookup finds the same object, with its new storage. -/
theorem by_name_store (data : ts_data_t) (s rest : List Char) (i : Nat) (o : data_object_t)
    (c : ts_cell)
    (h : thingset_data_object_by_name data (s ++ rest) s.length = some (i, o)) :
    ∀ rest', thingset_data_object_by_name (data.store i c) (s ++ rest') s.length
      = some (i, { o with data := c }) := by
  intro rest'
  obtain ⟨hi, hname, hfirst⟩ := (by_name_iff data s rest i o).mp h
  refine (by_name_iff _ s rest' i _).mpr ⟨?_, hname, ?_⟩
  · rw [store_getElem?, hi]
    simp
  · intro j hj o' ho'
    rw [store_getElem?] at ho'
    have hne : ¬ i = j := by omega
    simp only [hne, if_false, Option.map_eq_some'] at ho'
    obtain ⟨o'', ho'', rfl⟩ := ho'
    exact hfirst j hj o'' ho''

/-- The validation loop accepts a single pair whose name resolves to a writable object and
whose value passes the length and type tests; the scratch array then holds the value. -/
theorem write_validate_one (cfg : Config) (parser : ts_parser_t) (resp : ts_buffer_t)
    (data : ts_data_t) (k i : Nat) (o : data_object_t) (value rest : List Char)
    (hname : (parser.tok k).type = .JSMN_STRING)
    (hkind : (parser.tok (k + 1)).type = .JSMN_PRIMITIVE ∨
      (parser.tok (k + 1)).type = .JSMN_STRING)
    (hres : thingset_data_object_by_name data (parser.tok_ptr k) (parser.tok_len k)
      = some (i, o))
    (hacc : o.access &&& cfg.TS_ACCESS_WRITE ≠ 0)
    (hptr : parser.tok_ptr (k + 1) = value ++ rest)
    (hvlen : parser.tok_len (k + 1) = value.length)
    (hnul : NUL ∉ value) (hlen : value.length < 21)
    (hdetail : o.type = .TS_T_STRING → ¬ (0 ≤ o.detail ∧ o.detail ≤ (value.length : Int)))
    (hok : value_accepted cfg o (parser.tok (k + 1)).type (value ++ [NUL])) :
    write_validate cfg parser resp data 1 k [] = .ok (value ++ [NUL]) := by
  have hfmt : ¬ ((parser.tok k).type ≠ .JSMN_STRING ∨
      ((parser.tok (k + 1)).type ≠ .JSMN_PRIMITIVE ∧
        (parser.tok (k + 1)).type ≠ .JSMN_STRING)) := by
    rcases hkind with h | h <;> simp [hname, h]
  have hbuf : strncpy_term [] (value ++ rest) value.length = value ++ [NUL] := by
    rw [strncpy_term_eq [] value rest hnul]
    simp
  have hsize : ¬ (value.length ≥ sizeof_buf ∨
      (o.type = .TS_T_STRING ∧ 0 ≤ o.detail ∧ o.detail ≤ (value.length : Int))) := by
    intro h
    rcases h with h | ⟨h1, h2⟩
    · unfold sizeof_buf at h; omega
    · exact hdetail h1 h2
  rw [write_validate, if_neg hfmt, hres]
  simp only [if_neg hacc, hvlen, hptr, if_neg hsize, hbuf]
  unfold value_accepted at hok
  by_cases hs : o.type = .TS_T_STRING
  · rw [if_pos hs] at hok
    simp only [hs, if_true, hok, ne_eq, not_true_eq_false, if_false, write_validate]
  · rw [if_neg hs] at hok
    by_cases hb : o.type = .TS_T_BOOL
    · rw [if_pos hb] at hok
      simp only [hb, if_true, hok, not_true_eq_false, if_false, write_validate]
      simp
    · rw [if_neg hb] at hok
      simp only [hs, hb, if_false, hok.1, hok.2, ne_eq, not_true_eq_false, write_validate]
      simp

/-- The commit loop for a single pair stores the conversion of the value. -/
theorem write_commit_one (cfg : Config) (parser : ts_parser_t) (data : ts_data_t)
    (k i : Nat) (o : data_object_t) (value rest : List Char)
    (hres : thingset_data_object_by_name data (parser.tok_ptr k) (parser.tok_len k)
      = some (i, o))
    (hptr : parser.tok_ptr (k + 1) = value ++ rest)
    (hvlen : parser.tok_len (k + 1) = value.length)
    (hnul : NUL ∉ value) (hlen : value.length < 21) :
    write_commit cfg parser 1 k (value ++ [NUL]) data
      = some (data.store i
          (commit_cell cfg o (value ++ [NUL]) (value ++ rest) value.length)) := by
  have hbuf : strncpy_term (value ++ [NUL]) (value ++ rest) value.length = value ++ [NUL] := by
    rw [strncpy_term_eq _ value rest hnul]
    simp
  have hl : value.length < sizeof_buf := hlen
  rw [write_commit, hres]
  simp only [hvlen, hptr, if_pos hl, hbuf, write_commit]

/-- The write handler on a request of one pair that passes validation. -/
theorem write_json_one_pair (cfg : Config) (parser : ts_parser_t) (resp : ts_buffer_t)
    (data : ts_data_t) (k i : Nat) (o : data_object_t) (name value : List Char)
    (kind : jsmntype_t)
    (hreq : is_pair_request parser k name value kind)
    (hkind : kind = .JSMN_PRIMITIVE ∨ kind = .JSMN_STRING)
    (hres : ∀ rest, thingset_data_object_by_name data (name ++ rest) name.length
      = some (i, o))
    (hacc : o.access &&& cfg.TS_ACCESS_WRITE ≠ 0)
    (hnul : NUL ∉ value) (hlen : value.length < 21)
    (hdetail : o.type = .TS_T_STRING → ¬ (0 ≤ o.detail ∧ o.detail ≤ (value.length : Int)))
    (hok : value_accepted cfg o kind (value ++ [NUL])) :
    ∃ rest, thingset_write_json cfg parser resp data
      = some (.TS_STATUS_SUCCESS,
          thingset_status_message_json cfg resp .TS_STATUS_SUCCESS,
          data.store i (commit_cell cfg o (value ++ [NUL]) (value ++ rest) value.length)) := by
  obtain ⟨hshape, hname, hnin, hntext, hvkind, hvin, hvtext⟩ := hreq
  obtain ⟨hnlen, nrest, hnptr⟩ := tok_text_split parser k name hnin hntext
  obtain ⟨hvlen, vrest, hvptr⟩ := tok_text_split parser (k + 1) value hvin hvtext
  have hres' : thingset_data_object_by_name data (parser.tok_ptr k) (parser.tok_len k)
      = some (i, o) := by rw [hnptr, hnlen]; exact hres nrest
  have hv := write_validate_one cfg parser resp data k i o value vrest hname
    (by rw [hvkind]; exact hkind) hres' hacc hvptr hvlen hnul hlen hdetail
    (by rw [hvkind]; exact hok)
  have hc := write_commit_one cfg parser data k i o value vrest hres' hvptr hvlen hnul hlen
  refine ⟨vrest, ?_⟩
  unfold thingset_write_json
  rcases hshape with ⟨hcnt, hk, h0⟩ | ⟨hcnt, hk, h0⟩
  · subst hk
    have hlt : ¬ parser.tok_count < 2 := by omega
    rw [if_neg hlt]
    simp only [h0, if_false, hcnt]
    have : (Int.toNat 2 - 0) / 2 = 1 := by decide
    rw [this, hv]
    simp only [hc]
  · subst hk
    have hlt : ¬ parser.tok_count < 2 := by omega
    rw [if_neg hlt]
    simp only [h0, if_true, hcnt]
    have : (Int.toNat 3 - 1) / 2 = 1 := by decide
    rw [this, hv]
    simp only [hc]

/-! ## Conversions of decimal text -/

theorem fmt_u_zero : fmt_u 0 = ['0'] := by decide

theorem cstr_value_nul (s : List Char) (h : NUL ∉ s) : cstr (s ++ [NUL]) = s :=
  cstr_append_nul s [] h

/-- The `strto*` family reads the decimal text of `n` as the magnitude `n`, without sign. -/
theorem strto_subject_fmt_u (n : Nat) : strto_subject (fmt_u n) = (false, n) := by
  obtain ⟨hne, hdig, hzero, hscan, _⟩ := fmt_u_dec n
  cases hds : fmt_u n with
  | nil => exact absurd hds hne
  | cons c tl =>
    obtain ⟨d, hd, hc⟩ := hdig c (by rw [hds]; exact List.mem_cons_self _ _)
    obtain ⟨_, hminus, hplus, hspace⟩ := digitChar_plain hd
    rw [← hc] at hminus hplus hspace
    have hdrop : (c :: tl).dropWhile isspace = c :: tl := by
      simp [List.dropWhile, hspace]
    unfold strto_subject
    simp only [hdrop, List.headD_cons, hminus, hplus, or_self, if_false, decide_False]
    by_cases h0 : c = '0'
    · have hn : n = 0 := hzero (by rw [hds, h0]; rfl)
      subst hn
      rw [fmt_u_zero] at hds
      simp only [List.cons.injEq] at hds
      obtain ⟨rfl, rfl⟩ := hds
      decide
    · rw [if_neg h0]
      have := hscan [] 0
      rw [List.append_nil, hds] at this
      rw [this]
      simp [scanDigits]

/-- The `strto*` family reads a minus sign and the decimal text of `n` as the magnitude `n`
with sign. -/
theorem strto_subject_minus (n : Nat) : strto_subject ('-' :: fmt_u n) = (true, n) := by
  have h := strto_subject_fmt_u n
  obtain ⟨hne, hdig, _, _, _⟩ := fmt_u_dec n
  cases hds : fmt_u n with
  | nil => exact absurd hds hne
  | cons c tl =>
    obtain ⟨d, hd, hc⟩ := hdig c (by rw [hds]; exact List.mem_cons_self _ _)
    obtain ⟨_, hminus, hplus, hspace⟩ := digitChar_plain hd
    rw [← hc] at hminus hplus hspace
    rw [hds] at h
    have hdrop : (c :: tl).dropWhile isspace = c :: tl := by
      simp [List.dropWhile, hspace]
    have hdrop2 : ('-' :: c :: tl).dropWhile isspace = '-' :: c :: tl := by
      have : isspace '-' = false := by decide
      simp [List.dropWhile, this]
    unfold strto_subject at h ⊢
    simp only [hdrop, List.headD_cons, hminus, hplus, or_self, if_false, decide_False,
      Prod.mk.injEq, true_and] at h
    simp only [hdrop2, List.headD_cons, true_or, if_true, List.tail_cons, decide_True,
      Prod.mk.injEq, true_and]
    exact h

theorem strtou_fmt_u (w n : Nat) (h : n < 2 ^ w) : strtou w (fmt_u n) = (n, false) := by
  unfold strtou
  rw [strto_subject_fmt_u]
  have : ¬ n > 2 ^ w - 1 := by omega
  simp [this]

theorem fmt_i_of_nonneg (z : Int) (h : 0 ≤ z) : fmt_i z = fmt_u z.toNat := by
  unfold fmt_i
  have : ¬ z < 0 := by omega
  rw [if_neg this]
  congr 1
  omega

theorem fmt_i_of_neg (z : Int) (h : z < 0) : fmt_i z = '-' :: fmt_u z.natAbs := by
  unfold fmt_i
  rw [if_pos h]

theorem strtoi_fmt_i (w : Nat) (z : Int) (hlo : -(2 ^ (w - 1) : Int) ≤ z)
    (hhi : z < (2 ^ (w - 1) : Int)) : strtoi w (fmt_i z) = (z, false) := by
  have hpow : ((2 ^ (w - 1) : Nat) : Int) = (2 ^ (w - 1) : Int) := by push_cast; rfl
  have hpos : 0 < 2 ^ (w - 1) := Nat.pow_pos (by decide)
  unfold strtoi
  by_cases hz : z < 0
  · rw [fmt_i_of_neg z hz, strto_subject_minus]
    have : ¬ z.natAbs > 2 ^ (w - 1) := by omega
    simp only [if_true, this, if_false, Prod.mk.injEq, and_true]
    omega
  · rw [fmt_i_of_nonneg z (by omega), strto_subject_fmt_u]
    have : ¬ z.toNat > 2 ^ (w - 1) - 1 := by omega
    simp only [Bool.false_eq_true, if_false, this, Prod.mk.injEq, and_true]
    omega

theorem fmt_u_length_le (n k : Nat) (hk : 0 < k) (h : n < 10 ^ k) : (fmt_u n).length ≤ k :=
  (fmt_u_dec n).2.2.2.2 k hk h

/-- The decimal text of an integer of at most 64 bits is shorter than the scratch array. -/
theorem fmt_i_length_lt (z : Int) (hlo : -(2 ^ 63 : Int) ≤ z) (hhi : z < 2 ^ 64) :
    (fmt_i z).length < 21 := by
  by_cases hz : z < 0
  · rw [fmt_i_of_neg z hz]
    have := fmt_u_length_le z.natAbs 19 (by decide) (by norm_num; omega)
    simp only [List.length_cons]
    omega
  · rw [fmt_i_of_nonneg z (by omega)]
    have := fmt_u_length_le z.toNat 20 (by decide) (by norm_num; omega)
    omega

theorem toSigned_toBits_16 (z : Int) (hlo : -(2 ^ 15 : Int) ≤ z) (hhi : z < 2 ^ 15) :
    toSigned 16 (toBits 16 z % 2 ^ 16) = z := by
  unfold toSigned toBits
  norm_num at hlo hhi ⊢
  split <;> omega

theorem toSigned_toBits_32 (z : Int) (hlo : -(2 ^ 31 : Int) ≤ z) (hhi : z < 2 ^ 31) :
    toSigned 32 (toBits 32 z % 2 ^ 32) = z := by
  unfold toSigned toBits
  norm_num at hlo hhi ⊢
  split <;> omega

theorem toSigned_toBits_64 (z : Int) (hlo : -(2 ^ 63 : Int) ≤ z) (hhi : z < 2 ^ 63) :
    toSigned 64 (toBits 64 z % 2 ^ 64) = z := by
  unfold toSigned toBits
  norm_num at hlo hhi ⊢
  split <;> omega

/-- For an integer object and an integer of its range, the decimal text passes the
validation tests and the value stored by the commit prints as the same text. -/
theorem int_round_trip (cfg : Config) (hlong : 32 ≤ cfg.long_bits)
    (hllong : 64 ≤ cfg.llong_bits) (o : data_object_t)
    (n : Int) (hr : int_range o.type n) (src : List Char) (len : Nat) :
    value_accepted cfg o .JSMN_PRIMITIVE (fmt_i n ++ [NUL]) ∧
      value_text cfg { o with data := commit_cell cfg o (fmt_i n ++ [NUL]) src len }
        = fmt_i n ∧
      o.type ≠ .TS_T_STRING := by
  have hcs : cstr (fmt_i n ++ [NUL]) = fmt_i n := cstr_value_nul _ (fmt_i_no_nul n)
  have hp32 : 2 ^ 32 ≤ 2 ^ cfg.long_bits := Nat.pow_le_pow_right (by decide) hlong
  have hp31 : 2 ^ 31 ≤ 2 ^ (cfg.long_bits - 1) :=
    Nat.pow_le_pow_right (by decide) (by omega)
  have hp31i : (2 ^ 31 : Int) ≤ (2 ^ (cfg.long_bits - 1) : Int) := by exact_mod_cast hp31
  have hp64 : 2 ^ 64 ≤ 2 ^ cfg.llong_bits := Nat.pow_le_pow_right (by decide) hllong
  have hp63 : 2 ^ 63 ≤ 2 ^ (cfg.llong_bits - 1) :=
    Nat.pow_le_pow_right (by decide) (by omega)
  have hp63i : (2 ^ 63 : Int) ≤ (2 ^ (cfg.llong_bits - 1) : Int) := by exact_mod_cast hp63
  unfold int_range at hr
  unfold value_accepted conv_erange commit_cell value_text
  cases ht : o.type <;> rw [ht] at hr <;> simp only at hr
  · -- uint64
    obtain ⟨h0, h1⟩ := hr
    have hlt : n.toNat < 2 ^ cfg.llong_bits := by omega
    have hconv := strtou_fmt_u cfg.llong_bits n.toNat hlt
    rw [fmt_i_of_nonneg n h0] at hcs ⊢
    have hmod : n.toNat % 18446744073709551616 = n.toNat := by omega
    simp [hcs, hconv, ts_cell.load64, hmod]
  · -- int64
    obtain ⟨h0, h1⟩ := hr
    have hconv := strtoi_fmt_i cfg.llong_bits n (by omega) (by omega)
    have hs : toSigned 64 (toBits 64 n % 18446744073709551616) = n := by
      have := toSigned_toBits_64 n (by omega) (by omega)
      simpa using this
    simp [hcs, hconv, ts_cell.load64, hs]
  · -- uint32
    obtain ⟨h0, h1⟩ := hr
    have hlt : n.toNat < 2 ^ cfg.long_bits := by omega
    have hconv := strtou_fmt_u cfg.long_bits n.toNat hlt
    rw [fmt_i_of_nonneg n h0] at hcs ⊢
    have hmod : n.toNat % 4294967296 = n.toNat := by omega
    simp [hcs, hconv, ts_cell.load32, hmod]
  · -- int32
    obtain ⟨h0, h1⟩ := hr
    have hconv := strtoi_fmt_i cfg.long_bits n (by omega) (by omega)
    have hs : toSigned 32 (toBits 32 n % 4294967296) = n := by
      have := toSigned_toBits_32 n (by omega) (by omega)
      simpa using this
    simp [hcs, hconv, ts_cell.load32, hs]
  · -- uint16
    obtain ⟨h0, h1⟩ := hr
    have hlt : n.toNat < 2 ^ cfg.long_bits := by omega
    have hconv := strtou_fmt_u cfg.long_bits n.toNat hlt
    rw [fmt_i_of_nonneg n h0] at hcs ⊢
    have hmod : n.toNat % 65536 = n.toNat := by omega
    simp [hcs, hconv, ts_cell.load16, hmod]
  · -- int16
    obtain ⟨h0, h1⟩ := hr
    have hconv := strtoi_fmt_i cfg.long_bits n (by omega) (by omega)
    have hs : toSigned 16 (toBits 16 n % 65536) = n := by
      have := toSigned_toBits_16 n (by omega) (by omega)
      simpa using this
    simp [hcs, hconv, ts_cell.load16, hs]

/-! ## Round trip -/

/-- Reading a single bare name that resolves to a readable, serialisable object whose value
fits. -/
theorem read_json_one (cfg : Config) (parser : ts_parser_t) (resp : ts_buffer_t)
    (data : ts_data_t) (i : Nat) (o : data_object_t) (name : List Char)
    (hreq : is_name_request parser name)
    (hres : ∀ rest, thingset_data_object_by_name data (name ++ rest) name.length
      = some (i, o))
    (hread : o.access &&& cfg.TS_ACCESS_READ ≠ 0)
    (hser : serializable cfg o = true)
    (hnul : NUL ∉ value_text cfg o)
    (hfit : (status_line cfg .TS_STATUS_SUCCESS).length + (value_text cfg o).length + 5
      < cfg.TS_RESP_BUFFER_LEN) :
    ∃ r, thingset_read_json cfg parser resp data = (.TS_STATUS_SUCCESS, r) ∧
      cstr r.str = status_line cfg .TS_STATUS_SUCCESS ++ ' ' :: value_text cfg o := by
  obtain ⟨hcount, htype, hin, htext⟩ := hreq
  obtain ⟨hlen, rest, hptr⟩ := tok_text_split parser 0 name hin htext
  have hna : ¬ (parser.tok 0).type = .JSMN_ARRAY := by rw [htype]; decide
  have hfirst : read_first parser = 0 := by unfold read_first; rw [if_neg hna]
  have hresolve : reads_resolve cfg parser data [o] (read_first parser) = true := by
    rw [hfirst]
    simp only [reads_resolve, htype, hptr, hlen, hres rest, Option.map_some', hread,
      decide_True, ne_eq, not_false_eq_true, Bool.and_self]
  obtain ⟨r, hr, hholds⟩ := read_json_values cfg parser resp data [o] (by simp)
    (by
      intro o' ho' h
      simp only [List.mem_singleton] at ho'
      subst ho'
      rcases List.mem_append.mp h with h | h
      · exact hnul h
      · exact absurd h (by decide))
    (by rw [hfirst, hcount]; rfl) hresolve
    (by intro o' ho'; simp only [List.mem_singleton] at ho'; subst ho'; exact hser)
    (by
      simp only [read_start, hfirst, ser_len_sum, ser_len, hser, if_true, List.map_cons,
        List.map_nil, List.sum_cons, List.sum_nil]
      omega)
  refine ⟨r, hr, ?_⟩
  rw [(holds_cstr hholds).1]
  unfold read_opener read_closer
  simp [hna, join_comma, List.intercalate]

/-- A single-pair write that validates, followed by a single-name read of the same
object. -/
theorem round_trip_of_accepted (cfg : Config) (pw pr : ts_parser_t) (resp resp2 : ts_buffer_t)
    (data : ts_data_t) (k i : Nat) (o : data_object_t) (value expected : List Char)
    (kind : jsmntype_t)
    (hobj : data.objects[i]? = some o)
    (hfirst : ∀ j, j < i → ∀ o', data.objects[j]? = some o' → cstr o'.name ≠ cstr o.name)
    (hread : o.access &&& cfg.TS_ACCESS_READ ≠ 0)
    (hwrite : o.access &&& cfg.TS_ACCESS_WRITE ≠ 0)
    (hser : serializable cfg o = true)
    (hpw : is_pair_request pw k (cstr o.name) value kind)
    (hpr : is_name_request pr (cstr o.name))
    (hkind : kind = .JSMN_PRIMITIVE ∨ kind = .JSMN_STRING)
    (hnul : NUL ∉ value) (hlen : value.length < 21)
    (hdetail : o.type = .TS_T_STRING → ¬ (0 ≤ o.detail ∧ o.detail ≤ (value.length : Int)))
    (hok : value_accepted cfg o kind (value ++ [NUL]))
    (htext : ∀ rest, value_text cfg
      { o with data := commit_cell cfg o (value ++ [NUL]) (value ++ rest) value.length }
        = expected)
    (hexp : NUL ∉ expected)
    (hfit : (status_line cfg .TS_STATUS_SUCCESS).length + expected.length + 5
      < cfg.TS_RESP_BUFFER_LEN) :
    round_trips cfg pw pr resp resp2 data expected := by
  have hres : ∀ rest, thingset_data_object_by_name data (cstr o.name ++ rest)
      (cstr o.name).length = some (i, o) :=
    fun rest => (by_name_iff data (cstr o.name) rest i o).mpr ⟨hobj, rfl, hfirst⟩
  obtain ⟨rest, hw⟩ := write_json_one_pair cfg pw resp data k i o (cstr o.name) value kind
    hpw hkind hres hwrite hnul hlen hdetail hok
  have hres' := by_name_store data (cstr o.name) [] i o
    (commit_cell cfg o (value ++ [NUL]) (value ++ rest) value.length) (hres [])
  obtain ⟨r, hr, hc⟩ := read_json_one cfg pr resp2 _ i _ (cstr o.name) hpr hres' hread
    (by simpa [serializable] using hser) (by rw [htext rest]; exact hexp)
    (by rw [htext rest]; exact hfit)
  rw [htext rest] at hc
  exact ⟨_, _, hw, r, hr, hc⟩

theorem int_range_bounds (type : ts_type) (n : Int) (h : int_range type n) :
    -(2 ^ 63 : Int) ≤ n ∧ n < 2 ^ 64 := by
  unfold int_range at h
  cases type <;> simp only at h <;> omega

/-- C8 as stated fails.  On a build without `TS_64BIT_TYPES_SUPPORT` the readable and
writable `uint64` object `u` accepts the write `{"u":5}` with success, and the read `"u"`
then returns success with the text `:0 Success` and no value: the serialiser has no case for
the type.  With a response buffer of 23 bytes the write `{"s":"hello"}` to the string `s`
succeeds and the read `"s"` returns response-too-long, although the text
`:0 Success. "hello"` of 19 characters fits the buffer with its terminator. -/
theorem write_read_round_trip_counterexample :
    obj_u.access &&& cfg_no64.TS_ACCESS_READ ≠ 0 ∧
      obj_u.access &&& cfg_no64.TS_ACCESS_WRITE ≠ 0 ∧
      int_range obj_u.type 5 ∧
      is_pair_request req_write_u_5 1 (cstr obj_u.name) (fmt_i 5) .JSMN_PRIMITIVE ∧
      is_name_request req_read_u (cstr obj_u.name) ∧
      (thingset_write_json cfg_no64 req_write_u_5 empty_resp ⟨[obj_u]⟩).map
          (fun w => (w.1, (thingset_read_json cfg_no64 req_read_u empty_resp w.2.2).1,
            cstr (thingset_read_json cfg_no64 req_read_u empty_resp w.2.2).2.str))
        = some (.TS_STATUS_SUCCESS, .TS_STATUS_SUCCESS, ":0 Success".toList) ∧
      (thingset_write_json cfg_len23 req_write_s_hello empty_resp str_data).map
          (fun w => (w.1, (thingset_read_json cfg_len23 req_read_s_bare empty_resp w.2.2).1))
        = some (.TS_STATUS_SUCCESS, .TS_STATUS_RESPONSE_TOO_LONG) ∧
      (":0 Success. \"hello\"".toList).length + 1 ≤ cfg_len23.TS_RESP_BUFFER_LEN := by
  refine ⟨?_, ?_, ?_, ?_, ?_, ?_, ?_, ?_⟩
  · decide
  · decide
  · decide
  · unfold is_pair_request; decide
  · unfold is_name_request; decide
  · decide
  · decide
  · decide

/-- C8 (write/read round trip), amended.  Let `o` be the first object of the registry
bearing its name, with the READ and WRITE bits set and of a type the build serialises
(`uint64` and `int64` only under `TS_64BIT_TYPES_SUPPORT`), on a platform whose `long` has at
least 32 and `long long` at least 64 bits.  Let `pw` be a write request of one pair, bare or
in an object, naming `o`, and `pr` the read request of the bare name of `o`.  A text `t` is
read back when the cursor behind `t` and its separator stays below
`TS_RESP_BUFFER_LEN - 2`, the test of the read handler: the length of the success status
line plus the length of `t` plus 5 is below `TS_RESP_BUFFER_LEN`.
(i) If `o` has an integer type, `n` lies in its range and the decimal text of `n` is read
back, writing the decimal text of `n` as a PRIMITIVE token succeeds and the read then
succeeds with the success status line, a space and the decimal text of `n`.  (ii) If `o` is
a bool, writing `true` (`false`), when read back, reads back as `true` (`false`).  (iii) If
`o` is a string, writing a STRING token `s` of fewer than 21 and fewer than `detail`
characters, when `s` in double quotes is read back, reads back as `s` in double quotes.
With verbose status lines and success code 0 the response starts with `:0 Success. `. -/
theorem write_read_round_trip (cfg : Config) (pw pr : ts_parser_t) (resp resp2 : ts_buffer_t)
    (data : ts_data_t) (k i : Nat) (o : data_object_t)
    (hlong : 32 ≤ cfg.long_bits) (hllong : 64 ≤ cfg.llong_bits)
    (hobj : data.objects[i]? = some o)
    (hfirst : ∀ j, j < i → ∀ o', data.objects[j]? = some o' → cstr o'.name ≠ cstr o.name)
    (hread : o.access &&& cfg.TS_ACCESS_READ ≠ 0)
    (hwrite : o.access &&& cfg.TS_ACCESS_WRITE ≠ 0)
    (hser : serializable cfg o = true)
    (hpr : is_name_request pr (cstr o.name)) :
    (∀ n : Int, int_range o.type n →
      (status_line cfg .TS_STATUS_SUCCESS).length + (fmt_i n).length + 5
        < cfg.TS_RESP_BUFFER_LEN →
      is_pair_request pw k (cstr o.name) (fmt_i n) .JSMN_PRIMITIVE →
      round_trips cfg pw pr resp resp2 data (fmt_i n)) ∧
    (o.type = .TS_T_BOOL → ∀ kind, (kind = .JSMN_PRIMITIVE ∨ kind = .JSMN_STRING) →
      ((status_line cfg .TS_STATUS_SUCCESS).length + 4 + 5 < cfg.TS_RESP_BUFFER_LEN →
        is_pair_request pw k (cstr o.name) "true".toList kind →
        round_trips cfg pw pr resp resp2 data "true".toList) ∧
      ((status_line cfg .TS_STATUS_SUCCESS).length + 5 + 5 < cfg.TS_RESP_BUFFER_LEN →
        is_pair_request pw k (cstr o.name) "false".toList kind →
        round_trips cfg pw pr resp resp2 data "false".toList)) ∧
    (o.type = .TS_T_STRING → ∀ s : List Char, NUL ∉ s → s.length < 21 →
      (s.length : Int) < o.detail →
      (status_line cfg .TS_STATUS_SUCCESS).length + (s.length + 2) + 5
        < cfg.TS_RESP_BUFFER_LEN →
      is_pair_request pw k (cstr o.name) s .JSMN_STRING →
      round_trips cfg pw pr resp resp2 data ('"' :: (s ++ ['"']))) ∧
    (cfg.TS_VERBOSE_STATUS_MESSAGES = true → cfg.status_code .TS_STATUS_SUCCESS = 0 →
      status_line cfg .TS_STATUS_SUCCESS ++ [' '] = ":0 Success. ".toList) := by
  refine ⟨?_, ?_, ?_, ?_⟩
  · intro n hr hfit hpw
    obtain ⟨hok, htext, hns⟩ := int_round_trip cfg hlong hllong o n hr [] 0
    obtain ⟨hlo, hhi⟩ := int_range_bounds o.type n hr
    have hlen := fmt_i_length_lt n hlo hhi
    refine round_trip_of_accepted cfg pw pr resp resp2 data k i o (fmt_i n) (fmt_i n)
      .JSMN_PRIMITIVE hobj hfirst hread hwrite hser hpw hpr (Or.inl rfl) (fmt_i_no_nul n) hlen
      (fun h => absurd h hns) hok ?_ (fmt_i_no_nul n) hfit
    intro rest
    exact (int_round_trip cfg hlong hllong o n hr (fmt_i n ++ rest) (fmt_i n).length).2.1
  · intro hb kind hkind
    have hns : o.type ≠ .TS_T_STRING := by rw [hb]; decide
    constructor
    · intro hfit hpw
      refine round_trip_of_accepted cfg pw pr resp resp2 data k i o "true".toList
        "true".toList kind hobj hfirst hread hwrite hser hpw hpr hkind (by decide) (by decide)
        (fun h => absurd h hns) ?_ ?_ (by decide) hfit
      · unfold value_accepted
        rw [if_neg hns, if_pos hb]
        decide
      · intro rest
        simp [value_text, commit_cell, hb, ts_cell.loadBool]
    · intro hfit hpw
      refine round_trip_of_accepted cfg pw pr resp resp2 data k i o "false".toList
        "false".toList kind hobj hfirst hread hwrite hser hpw hpr hkind (by decide) (by decide)
        (fun h => absurd h hns) ?_ ?_ (by decide) hfit
      · unfold value_accepted
        rw [if_neg hns, if_pos hb]
        decide
      · intro rest
        simp [value_text, commit_cell, hb, ts_cell.loadBool, NUL]
  · intro hs s hnul hlen hdet hfit hpw
    have hq : NUL ∉ '"' :: (s ++ ['"']) := by
      intro h
      rcases List.mem_cons.mp h with h | h
      · exact absurd h (by decide)
      · rcases List.mem_append.mp h with h | h
        · exact hnul h
        · exact absurd h (by decide)
    refine round_trip_of_accepted cfg pw pr resp resp2 data k i o s ('"' :: (s ++ ['"']))
      .JSMN_STRING hobj hfirst hread hwrite hser hpw hpr (Or.inr rfl) hnul hlen
      (fun _ h => by omega) ?_ ?_ hq ?_
    · unfold value_accepted
      rw [if_pos hs]
    · intro rest
      simp only [value_text, commit_cell, hs, ts_cell.loadChars]
      rw [strncpy_term_eq _ s rest hnul, cstr_append_nul s _ hnul]
    · simp only [List.length_cons, List.length_append, List.length_nil]
      omega
  · intro hv hc
    unfold status_line
    rw [if_pos hv, hc]
    decide

/-- Writing `{"a":123}` to the sample registry and reading `"a"` back. -/
theorem write_read_round_trip_witness :
    round_trips sample_cfg req_write_a_123 req_read_a empty_resp empty_resp sample_data
      (fmt_i 123) :=
  (write_read_round_trip sample_cfg req_write_a_123 req_read_a empty_resp empty_resp
    sample_data 1 0 obj_a (by decide) (by decide) (by decide)
    (fun j hj => absurd hj (Nat.not_lt_zero j)) (by decide) (by decide) (by decide)
    (by unfold is_name_request; decide)).1 123
    (by decide) (by decide) (by unfold is_pair_request; decide)

/-! ## Exec gating -/

/-- C11 (exec gating): with the invocations of callables recorded in a log, an exec request
whose first token is a STRING name returns unknown-object and leaves the log as it was when
the name resolves to no object; returns unauthorized and leaves the log as it was when the
resolved object lacks the EXEC bit; and otherwise appends exactly one entry to the log, the
callable of that object, and returns success.  Each time the response is exactly the status
line of the returned status, the cursor at its end. -/
theorem exec_json_gating (cfg : Config) (parser : ts_parser_t) (resp : ts_buffer_t)
    (data : ts_data_t) (calls : List ts_cell)
    (hname : (parser.tok 0).type = .JSMN_STRING) :
    (thingset_data_object_by_name data (parser.tok_ptr 0) (parser.tok_len 0) = none →
      ∃ r, thingset_exec_json cfg parser resp data calls
          = (.TS_STATUS_UNKNOWN_DATA_OBJ, r, calls) ∧
        cstr r.str = status_line cfg .TS_STATUS_UNKNOWN_DATA_OBJ ∧
        r.pos = (status_line cfg .TS_STATUS_UNKNOWN_DATA_OBJ).length) ∧
    (∀ (i : Nat) (o : data_object_t),
      thingset_data_object_by_name data (parser.tok_ptr 0) (parser.tok_len 0) = some (i, o) →
      o.access &&& cfg.TS_ACCESS_EXEC = 0 →
      ∃ r, thingset_exec_json cfg parser resp data calls
          = (.TS_STATUS_UNAUTHORIZED, r, calls) ∧
        cstr r.str = status_line cfg .TS_STATUS_UNAUTHORIZED ∧
        r.pos = (status_line cfg .TS_STATUS_UNAUTHORIZED).length) ∧
    (∀ (i : Nat) (o : data_object_t),
      thingset_data_object_by_name data (parser.tok_ptr 0) (parser.tok_len 0) = some (i, o) →
      o.access &&& cfg.TS_ACCESS_EXEC ≠ 0 →
      ∃ r, thingset_exec_json cfg parser resp data calls
          = (.TS_STATUS_SUCCESS, r, calls ++ [o.data]) ∧
        cstr r.str = status_line cfg .TS_STATUS_SUCCESS ∧
        r.pos = (status_line cfg .TS_STATUS_SUCCESS).length) := by
  have hfmt : ¬ (parser.tok 0).type ≠ .JSMN_STRING := by simp [hname]
  refine ⟨?_, ?_, ?_⟩
  · intro hnone
    refine ⟨_, ?_, holds_cstr (status_message_holds cfg
      (thingset_status_message_json cfg resp .TS_STATUS_SUCCESS) _)⟩
    unfold thingset_exec_json
    simp only [if_neg hfmt, hnone]
  · intro i o hsome hacc
    refine ⟨_, ?_, holds_cstr (status_message_holds cfg
      (thingset_status_message_json cfg resp .TS_STATUS_SUCCESS) _)⟩
    unfold thingset_exec_json
    simp only [if_neg hfmt, hsome, hacc, if_true]
  · intro i o hsome hacc
    refine ⟨_, ?_, holds_cstr (status_message_holds cfg resp _)⟩
    unfold thingset_exec_json
    simp only [if_neg hfmt, hsome, if_neg hacc]

/-- The exec request `"reset"` calls callable 7 once; the exec request `"a"`, an object
without the EXEC bit, calls nothing. -/
theorem exec_json_gating_witness :
    (∃ r, thingset_exec_json sample_cfg req_exec_reset empty_resp exec_data []
          = (.TS_STATUS_SUCCESS, r, [] ++ [obj_reset.data]) ∧
        cstr r.str = status_line sample_cfg .TS_STATUS_SUCCESS ∧
        r.pos = (status_line sample_cfg .TS_STATUS_SUCCESS).length) ∧
    (∃ r, thingset_exec_json sample_cfg req_exec_a empty_resp exec_data []
          = (.TS_STATUS_UNAUTHORIZED, r, []) ∧
        cstr r.str = status_line sample_cfg .TS_STATUS_UNAUTHORIZED ∧
        r.pos = (status_line sample_cfg .TS_STATUS_UNAUTHORIZED).length) :=
  ⟨(exec_json_gating sample_cfg req_exec_reset empty_resp exec_data [] (by decide)).2.2
      1 obj_reset (by decide) (by decide),
    (exec_json_gating sample_cfg req_exec_a empty_resp exec_data [] (by decide)).2.1
      0 obj_a (by decide) (by decide)⟩

/-! ## Returned and rendered status of a write -/

/-- C19 (returned status and rendered status): when the token count is the tokenizer's
`JSMN_ERROR_NOMEM`, `thingset_write_json` returns request-too-long while the status line it
wrote into the response buffer is the one of wrong-format; the two lines differ. -/
theorem write_json_nomem_renders_wrong_format :
    thingset_write_json sample_cfg req_nomem empty_resp sample_data
        = some (.TS_STATUS_REQUEST_TOO_LONG,
            thingset_status_message_json sample_cfg empty_resp .TS_STATUS_WRONG_FORMAT,
            sample_data) ∧
      cstr (thingset_status_message_json sample_cfg empty_resp .TS_STATUS_WRONG_FORMAT).str
        = ":33 Wrong format.".toList ∧
      status_line sample_cfg .TS_STATUS_WRONG_FORMAT = ":33 Wrong format.".toList ∧
      status_line sample_cfg .TS_STATUS_REQUEST_TOO_LONG = ":37 Request too long.".toList := by
  refine ⟨?_, ?_, ?_, ?_⟩ <;> decide

/-! ## Category names -/

/-- C15 (category-name resolution): with the categories `info`, `conf`, `input`, the token
`in`, a proper prefix of `info`, and the token of length 0 both select the mask `1 << 12` of
`info`; the list responses then name only the object of category 1, where the request
without tokens names both objects. -/
theorem list_json_category_prefix_selects :
    category_mask (req_list_in.tok_ptr 0) (req_list_in.tok_len 0)
      sample_cfg.ts_categories 0 = 1 <<< 12 ∧
    category_mask (req_list_blank.tok_ptr 0) (req_list_blank.tok_len 0)
      sample_cfg.ts_categories 0 = 1 <<< 12 ∧
    req_list_in.tok_text 0 = "in".toList ∧ req_list_blank.tok_text 0 = [] ∧
    cstr (thingset_list_json sample_cfg req_list_in empty_resp cat_data).2.str
      = ":0 Success. [\"a\"]".toList ∧
    cstr (thingset_list_json sample_cfg req_list_blank empty_resp cat_data).2.str
      = ":0 Success. [\"a\"]".toList ∧
    cstr (thingset_list_json sample_cfg req_list_all empty_resp cat_data).2.str
      = ":0 Success. [\"a\", \"c\"]".toList := by
  refine ⟨?_, ?_, ?_, ?_, ?_, ?_, ?_⟩ <;> decide

/-! ## Responses without elements -/

/-- C16 (framing with zero elements): the read of the empty array `[]`, a list request that
no object matches and the publication of an empty id list all return success, and the
removal of the trailing separator takes the opener instead: the texts are `:0 Success.]`,
`:0 Success.]` and `#}`. -/
theorem zero_elements_lose_opener :
    ((thingset_read_json sample_cfg req_read_none empty_resp sample_data).1
        = .TS_STATUS_SUCCESS ∧
      cstr (thingset_read_json sample_cfg req_read_none empty_resp sample_data).2.str
        = ":0 Success.]".toList) ∧
    ((thingset_list_json sample_cfg req_list_conf empty_resp readonly_data).1
        = .TS_STATUS_SUCCESS ∧
      cstr (thingset_list_json sample_cfg req_list_conf empty_resp readonly_data).2.str
        = ":0 Success.]".toList) ∧
    (thingset_pub_msg_json sample_cfg empty_resp sample_data []).map
        (fun r => (r.1, cstr r.2.str)) = some (.TS_STATUS_SUCCESS, "#\x7d".toList) := by
  refine ⟨⟨?_, ?_⟩, ⟨?_, ?_⟩, ?_⟩ <;> decide

/-! ## Cursor of a publication message -/

/-- C20 (cursor and text length): publishing the objects `a` and `b` returns success with
the text `# {"a":7, "b":-1}` of 17 characters while the cursor is 18: the closer is written
over the separator and the cursor is not moved back, so the byte before the cursor is the
terminator. -/
theorem pub_msg_json_cursor_past_text :
    (thingset_pub_msg_json sample_cfg empty_resp sample_data [0x1001, 0x3001]).map
        (fun r => (r.1, cstr r.2.str, (cstr r.2.str).length, r.2.pos, r.2.str.getD 17 'x'))
      = some (.TS_STATUS_SUCCESS, "# \x7b\"a\":7, \"b\":-1\x7d".toList, 17, 18, NUL) := by
  decide

/-! ## Shape of a publication message -/

theorem serialize_size (cfg : Config) (buf : ts_buffer_t) (o : data_object_t)
    (include_name : Bool) :
    (_json_serialize_data_object cfg buf o include_name).size = buf.size := by
  unfold _json_serialize_data_object
  cases o.type <;> cases include_name <;> dsimp only <;> (try split) <;> rfl

theorem serialize_named (cfg : Config) (buf : ts_buffer_t) (o : data_object_t) :
    _json_serialize_data_object cfg buf o true
      = _json_serialize_data_object cfg (buf.put_n cfg (name_text o)) o false := by
  unfold _json_serialize_data_object name_text
  simp

theorem name_text_no_nul (o : data_object_t) : NUL ∉ name_text o := by
  unfold name_text
  intro h
  rcases List.mem_cons.mp h with h | h
  · exact absurd h (by decide)
  · rcases List.mem_append.mp h with h | h
    · exact cstr_no_nul _ h
    · exact absurd h (by decide)

/-- Serialising with the name an object that the build can serialise, with the cursor
staying below the capacity, appends the entry and the separator to the text. -/
theorem serialize_named_holds (cfg : Config) {buf : ts_buffer_t} {t : List Char}
    (h : buf.holds t) (o : data_object_t) (hser : serializable cfg o = true)
    (hnul : NUL ∉ value_text cfg o ++ [',', ' '])
    (hfit : t.length + ((pub_entry cfg o).length + 2) < cfg.TS_RESP_BUFFER_LEN) :
    (_json_serialize_data_object cfg buf o true).holds
      (t ++ (pub_entry cfg o ++ [',', ' '])) := by
  simp only [pub_entry, List.length_append] at hfit
  have h1 := put_n_holds cfg h (name_text o) (name_text_no_nul o) (by omega)
  have h2 := put_n_holds cfg h1 (value_text cfg o ++ [',', ' ']) hnul
    (by simp only [List.length_append, List.length_cons, List.length_nil]; omega)
  rw [serialize_named, serialize_of_serializable cfg _ o hser]
  simpa [pub_entry, List.append_assoc] using h2

/-- The publication loop over ids that resolve to serialisable objects, with the cursor
staying below both capacity tests, runs to its end and appends every entry and separator. -/
theorem pub_loop_ok (cfg : Config) (data : ts_data_t) :
    ∀ (pub_list : List Nat) (objs : List data_object_t) (resp : ts_buffer_t) (t : List Char),
      resp.holds t → ids_resolve data pub_list objs = true →
      (∀ o ∈ objs, NUL ∉ value_text cfg o ++ [',', ' ']) →
      (∀ o ∈ objs, serializable cfg o = true) →
      t.length + pub_len_sum cfg objs < cfg.TS_RESP_BUFFER_LEN →
      t.length + pub_len_sum cfg objs + 2 < resp.size →
      ∃ r, pub_loop cfg data pub_list resp = some (.ok r) ∧
        r.holds (t ++ (objs.map (fun o => pub_entry cfg o ++ [',', ' '])).flatten) := by
  intro pub_list
  induction pub_list with
  | nil =>
    intro objs resp t h hres _ _ _ _
    cases objs with
    | nil => exact ⟨resp, rfl, by simpa using h⟩
    | cons o rest => simp [ids_resolve] at hres
  | cons id ids ih =>
    intro objs resp t h hres hnul hser hcap hfit
    cases objs with
    | nil => simp [ids_resolve] at hres
    | cons o rest =>
      simp only [ids_resolve, Bool.and_eq_true, decide_eq_true_eq] at hres
      obtain ⟨hid, hrest⟩ := hres
      obtain ⟨⟨i, o'⟩, hlook, ho⟩ := Option.map_eq_some'.mp hid
      simp only at ho
      subst ho
      simp only [pub_len_sum, List.map_cons, List.sum_cons] at hcap hfit
      have hstep := serialize_named_holds cfg h o' (hser o' (List.mem_cons_self _ _))
        (hnul o' (List.mem_cons_self _ _)) (by omega)
      have hpos := hstep.2.1
      have hsize := serialize_size cfg resp o' true
      simp only [List.length_append, List.length_cons, List.length_nil] at hpos
      have hno : ¬ (((_json_serialize_data_object cfg resp o' true).pos : Int)
          ≥ ((_json_serialize_data_object cfg resp o' true).size : Int) - 2) := by
        rw [hpos, hsize]
        omega
      obtain ⟨r, hr, hholds⟩ := ih rest _ _ hstep hrest
        (fun x hx => hnul x (List.mem_cons_of_mem _ hx))
        (fun x hx => hser x (List.mem_cons_of_mem _ hx))
        (by simp only [pub_len_sum, List.length_append, List.length_cons, List.length_nil]
            omega)
        (by rw [hsize]
            simp only [pub_len_sum, List.length_append, List.length_cons, List.length_nil]
            omega)
      refine ⟨r, ?_, by simpa [List.append_assoc] using hholds⟩
      simp only [pub_loop, hlook, if_neg hno]
      exact hr

/-- C12 as stated fails: publishing the string `s` of 41 characters and `a` gives the text
`# {"s":"x…x", "a":7}` of 58 characters, which fits the sample buffer of 60 bytes with its
terminator, yet the handler returns response-too-long: behind the last entry and its
separator the cursor stands at 59, above `resp->size - 2`. -/
theorem pub_msg_json_shape_counterexample :
    ids_resolve pub_data [0x1005, 0x1001] [obj_s41, obj_a] = true ∧
      ('#' :: ' ' :: '\x7b' ::
        (join_comma ([obj_s41, obj_a].map (pub_entry sample_cfg)) ++ ['\x7d'])).length + 1
        ≤ empty_resp.size ∧
      (thingset_pub_msg_json sample_cfg empty_resp pub_data [0x1005, 0x1001]).map Prod.fst
        = some .TS_STATUS_RESPONSE_TOO_LONG := by
  refine ⟨?_, ?_, ?_⟩ <;> decide

/-- C12 (publish message shape), amended: for a list of `n ≥ 1` ids that resolve, in order,
to the objects `objs`, all of a type the build serialises, and for which the cursor behind
the last entry and its separator stays below `resp->size - 2` (the test of the handler) and
below `TS_RESP_BUFFER_LEN` (the bound of the formatting), `thingset_pub_msg_json` returns
success and the buffer text is `# {`, the entries `"<name>":<value>` in list order joined by
`", "`, and `}`; no access bit of the objects is looked at. -/
theorem pub_msg_json_shape (cfg : Config) (hf : ∀ d t, NUL ∉ cfg.fmt_f d t)
    (resp : ts_buffer_t) (data : ts_data_t) (pub_list : List Nat)
    (objs : List data_object_t) (hne : objs ≠ [])
    (hres : ids_resolve data pub_list objs = true)
    (hser : ∀ o ∈ objs, serializable cfg o = true)
    (hfit : 3 + pub_len_sum cfg objs + 2 < resp.size)
    (hcap : 3 + pub_len_sum cfg objs < cfg.TS_RESP_BUFFER_LEN) :
    ∃ r, thingset_pub_msg_json cfg resp data pub_list = some (.TS_STATUS_SUCCESS, r) ∧
      cstr r.str = '#' :: ' ' :: '\x7b' ::
        (join_comma (objs.map (pub_entry cfg)) ++ ['\x7d']) := by
  have hinit : ts_buffer_t.holds
      { resp with str := sprintf resp.str 0 ['#', ' ', '\x7b'], pos := 3 }
      ['#', ' ', '\x7b'] := by
    refine ⟨by decide, rfl, resp.str.drop 4, ?_⟩
    show sprintf resp.str 0 ['#', ' ', '\x7b'] = _
    unfold sprintf
    rw [poke_of_le _ _ _ (Nat.zero_le _)]
    simp
  obtain ⟨r, hloop, hholds⟩ := pub_loop_ok cfg data pub_list objs _ _ hinit hres
    (fun o _ => value_text_no_nul cfg hf o) hser
    (by simp only [List.length_cons, List.length_nil]; omega)
    (by simp only [List.length_cons, List.length_nil]; omega)
  have hflat : (objs.map (fun o => pub_entry cfg o ++ [',', ' '])).flatten
      = join_comma (objs.map (pub_entry cfg)) ++ [',', ' '] := by
    rw [← flatten_sep_eq_join_comma (objs.map (pub_entry cfg)) (by simpa using hne)]
    simp [List.map_map, Function.comp_def]
  rw [hflat, ← List.append_assoc] at hholds
  have hpos := hholds.2.1
  have hfinal := holds_sprintf_at hholds (r.pos - 2) ['\x7d'] (by omega) (by decide)
  have htake : (['#', ' ', '\x7b'] ++ join_comma (objs.map (pub_entry cfg)) ++ [',', ' ']).take
      (r.pos - 2) = ['#', ' ', '\x7b'] ++ join_comma (objs.map (pub_entry cfg)) := by
    rw [hpos, List.length_append]
    simp only [List.length_cons, List.length_nil, Nat.add_sub_cancel, List.take_left']
  rw [htake] at hfinal
  refine ⟨{ r with str := sprintf r.str (r.pos - 2) ['\x7d'] }, ?_, ?_⟩
  · unfold thingset_pub_msg_json
    simp only [hloop]
  · have := (holds_cstr hfinal).1
    simpa using this

/-- Publishing the write-only object `w` and the object `a` of the mixed registry. -/
theorem pub_msg_json_shape_witness :
    ∃ r, thingset_pub_msg_json sample_cfg empty_resp mixed_data [0x2001, 0x1001]
        = some (.TS_STATUS_SUCCESS, r) ∧
      cstr r.str = '#' :: ' ' :: '\x7b' ::
        (join_comma ([⟨0x2001, 2, .TS_T_UINT16, 0, .word16 8, "w".toList⟩, obj_a].map
          (pub_entry sample_cfg)) ++ ['\x7d']) :=
  pub_msg_json_shape sample_cfg (fun _ t => cstr_no_nul t) empty_resp mixed_data
    [0x2001, 0x1001] [⟨0x2001, 2, .TS_T_UINT16, 0, .word16 8, "w".toList⟩, obj_a]
    (by decide) (by decide) (by decide) (by decide) (by decide)

/-! ## The scratch array and the lookup under stores -/

/-- The copy of a value leaves the value text, cut at its terminator, and a terminator at
the start of the array, whatever the array held. -/
theorem strncpy_term_shape (b src : List Char) (n : Nat) :
    ∃ tail, strncpy_term b src n = cstr (src.take n) ++ NUL :: tail := by
  unfold strncpy_term
  rw [poke_of_le _ _ _ (Nat.zero_le _)]
  cases hk : n - (cstr (List.take n src)).length with
  | zero => exact ⟨b.drop ((cstr (List.take n src)).length + 1), by simp⟩
  | succ k =>
    exact ⟨List.replicate k NUL ++ NUL :: b.drop ((cstr (List.take n src)).length + (k + 1 + 1)),
      by simp [List.replicate_succ]⟩

theorem strncpy_term_cstr (b src : List Char) (n : Nat) :
    cstr (strncpy_term b src n) = cstr (src.take n) := by
  obtain ⟨tail, h⟩ := strncpy_term_shape b src n
  rw [h, cstr_append_nul _ _ (cstr_no_nul _)]

theorem strncpy_term_head (b src : List Char) (n : Nat) :
    (strncpy_term b src n).headD NUL = (src.take n).headD NUL := by
  obtain ⟨tail, h⟩ := strncpy_term_shape b src n
  rw [h]
  cases hs : src.take n with
  | nil => simp [cstr_nil]
  | cons c rest =>
    rw [cstr_cons]
    by_cases hc : c = NUL
    · simp [hc]
    · simp [hc]

theorem conv_erange_congr (cfg : Config) (type : ts_type) (b1 b2 : List Char)
    (h : cstr b1 = cstr b2) : conv_erange cfg type b1 = conv_erange cfg type b2 := by
  unfold conv_erange
  rw [h]

/-- The tests of the validation loop look at the value text only, not at what the scratch
array held before the copy. -/
theorem value_accepted_refresh (cfg : Config) (o : data_object_t) (kind : jsmntype_t)
    (b b' src : List Char) (n : Nat)
    (h : value_accepted cfg o kind (strncpy_term b src n)) :
    value_accepted cfg o kind (strncpy_term b' src n) := by
  unfold value_accepted at h ⊢
  rw [strncpy_term_head] at h ⊢
  rw [conv_erange_congr cfg o.type (strncpy_term b' src n) (strncpy_term b src n)
    (by rw [strncpy_term_cstr, strncpy_term_cstr])]
  exact h

/-- An object the scan returns is at the returned index and passes the name test. -/
theorem by_name_some_test (data : ts_data_t) (str : List Char) (len i : Nat)
    (o : data_object_t) (h : thingset_data_object_by_name data str len = some (i, o)) :
    data.objects[i]? = some o ∧ strncmp o.name str len = 0 ∧ strlen o.name = len := by
  obtain ⟨j, hj, hobj, htest, _⟩ := (by_name_from_eq_some str len data.objects 0 i o).mp h
  have : i = j := by omega
  subst this
  exact ⟨hobj, htest⟩

/-- A store changes no name: the scan finds the same index, and the object with its new
storage where the store went to that index. -/
theorem by_name_from_store (str : List Char) (len : Nat) (c : ts_cell) :
    ∀ (objs : List data_object_t) (k i : Nat),
      by_name_from str len (objs.modify (fun o => { o with data := c }) i) k
        = (by_name_from str len objs k).map
            (fun p => (p.1, if p.1 = k + i then { p.2 with data := c } else p.2)) := by
  intro objs
  induction objs with
  | nil => intro k i; cases i <;> rfl
  | cons x rest ih =>
    intro k i
    cases i with
    | zero =>
      simp only [List.modify_zero_cons, by_name_from]
      by_cases hx : strncmp x.name str len = 0 ∧ strlen x.name = len
      · rw [if_pos hx, if_pos hx]
        simp
      · rw [if_neg hx, if_neg hx]
        cases hr : by_name_from str len rest (k + 1) with
        | none => rfl
        | some p =>
          obtain ⟨j, o⟩ := p
          obtain ⟨j', hj', _⟩ := (by_name_from_eq_some str len rest (k + 1) j o).mp hr
          have hne : ¬ j = k := by omega
          simp [hne]
    | succ i =>
      simp only [List.modify_succ_cons, by_name_from]
      by_cases hx : strncmp x.name str len = 0 ∧ strlen x.name = len
      · rw [if_pos hx, if_pos hx]
        have hne : ¬ k = k + (i + 1) := by omega
        simp [hne]
      · rw [if_neg hx, if_neg hx]
        have h := ih (k + 1) i
        have e : k + 1 + i = k + (i + 1) := by omega
        rw [e] at h
        exact h

theorem by_name_store_eq (data : ts_data_t) (i : Nat) (c : ts_cell) (str : List Char)
    (len : Nat) :
    thingset_data_object_by_name (data.store i c) str len
      = (thingset_data_object_by_name data str len).map
          (fun p => (p.1, if p.1 = i then { p.2 with data := c } else p.2)) := by
  have := by_name_from_store str len c data.objects 0 i
  rw [Nat.zero_add] at this
  exact this

/-! ## The validation loop, pair by pair -/

/-- An iteration of the validation loop that does not return resolved the name, passed
every test and copied the value to the scratch array. -/
theorem write_validate_step (cfg : Config) (parser : ts_parser_t) (resp : ts_buffer_t)
    (data : ts_data_t) (n tok : Nat) (b buf : List Char)
    (h : write_validate cfg parser resp data (n + 1) tok b = .ok buf) :
    ∃ i o, thingset_data_object_by_name data (parser.tok_ptr tok) (parser.tok_len tok)
        = some (i, o) ∧
      pair_passes cfg parser o tok b ∧
      write_validate cfg parser resp data n (tok + 2)
        (strncpy_term b (parser.tok_ptr (tok + 1)) (parser.tok_len (tok + 1))) = .ok buf := by
  rw [write_validate] at h
  by_cases hfmt : (parser.tok tok).type ≠ .JSMN_STRING ∨
      ((parser.tok (tok + 1)).type ≠ .JSMN_PRIMITIVE ∧
        (parser.tok (tok + 1)).type ≠ .JSMN_STRING)
  · rw [if_pos hfmt] at h
    exact absurd h (by simp)
  rw [if_neg hfmt] at h
  have hname : (parser.tok tok).type = .JSMN_STRING := by
    by_contra hc
    exact hfmt (Or.inl hc)
  have hkind : (parser.tok (tok + 1)).type = .JSMN_PRIMITIVE ∨
      (parser.tok (tok + 1)).type = .JSMN_STRING := by
    by_contra hc
    exact hfmt (Or.inr ⟨fun h1 => hc (Or.inl h1), fun h2 => hc (Or.inr h2)⟩)
  cases hlook : thingset_data_object_by_name data (parser.tok_ptr tok) (parser.tok_len tok) with
  | none =>
    rw [hlook] at h
    exact absurd h (by simp)
  | some p =>
    obtain ⟨i, o⟩ := p
    rw [hlook] at h
    dsimp only at h
    by_cases hacc : o.access &&& cfg.TS_ACCESS_WRITE = 0
    · rw [if_pos hacc] at h
      exact absurd h (by simp)
    rw [if_neg hacc] at h
    by_cases hsize : parser.tok_len (tok + 1) ≥ sizeof_buf ∨
        (o.type = .TS_T_STRING ∧ 0 ≤ o.detail ∧ o.detail ≤ (parser.tok_len (tok + 1) : Int))
    · rw [if_pos hsize] at h
      exact absurd h (by simp)
    rw [if_neg hsize] at h
    have hlen : parser.tok_len (tok + 1) < sizeof_buf := by
      by_contra hc
      exact hsize (Or.inl (by omega))
    have hdet : ¬ (o.type = .TS_T_STRING ∧ 0 ≤ o.detail ∧
        o.detail ≤ (parser.tok_len (tok + 1) : Int)) := fun hc => hsize (Or.inr hc)
    refine ⟨i, o, rfl, ⟨hname, hkind, hacc, hlen, hdet, ?_⟩, ?_⟩
    · unfold value_accepted
      by_cases hs : o.type = .TS_T_STRING
      · rw [if_pos hs] at h ⊢
        by_contra hc
        rw [if_pos hc] at h
        exact absurd h (by simp)
      · rw [if_neg hs] at h ⊢
        by_cases hb : o.type = .TS_T_BOOL
        · rw [if_pos hb] at h ⊢
          by_contra hc
          rw [if_pos hc] at h
          exact absurd h (by simp)
        · rw [if_neg hb] at h ⊢
          by_cases hp : (parser.tok (tok + 1)).type ≠ .JSMN_PRIMITIVE
          · rw [if_pos hp] at h
            exact absurd h (by simp)
          · rw [if_neg hp] at h
            refine ⟨by simpa using hp, ?_⟩
            by_contra hc
            rw [if_pos (by simpa using hc)] at h
            exact absurd h (by simp)
    · by_cases hs : o.type = .TS_T_STRING
      · rw [if_pos hs] at h
        by_cases hc : (parser.tok (tok + 1)).type ≠ .JSMN_STRING
        · rw [if_pos hc] at h
          exact absurd h (by simp)
        · rw [if_neg hc] at h
          exact h
      · rw [if_neg hs] at h
        by_cases hb : o.type = .TS_T_BOOL
        · rw [if_pos hb] at h
          split at h
          · exact absurd h (by simp)
          · exact h
        · rw [if_neg hb] at h
          split at h
          · exact absurd h (by simp)
          · split at h
            · exact absurd h (by simp)
            · exact h

/-! ## The commit loop, pair by pair -/

theorem same_lookup_refl (data : ts_data_t) : same_lookup data data := by
  intro str len i o h
  exact ⟨o.data, h⟩

theorem same_lookup_store (data d : ts_data_t) (k : Nat) (c : ts_cell)
    (h : same_lookup data d) : same_lookup data (d.store k c) := by
  intro str len i o hlook
  obtain ⟨c0, hc0⟩ := h str len i o hlook
  rw [by_name_store_eq, hc0]
  by_cases hik : i = k
  · exact ⟨c, by simp [hik]⟩
  · exact ⟨c0, by simp [hik]⟩

theorem key_index_store (d : ts_data_t) (parser : ts_parser_t) (k : Nat) (c : ts_cell)
    (tok : Nat) : key_index (d.store k c) parser tok = key_index d parser tok := by
  unfold key_index
  rw [by_name_store_eq, Option.map_map]
  rfl

/-- An iteration of the commit loop at a name that resolves and a value shorter than the
scratch array: the value is copied to the array, whatever it held, and its conversion is
stored through the resolved object. -/
theorem write_commit_step (cfg : Config) (parser : ts_parser_t) (d : ts_data_t)
    (tok i : Nat) (o : data_object_t)
    (hlook : thingset_data_object_by_name d (parser.tok_ptr tok) (parser.tok_len tok)
      = some (i, o))
    (hlen : parser.tok_len (tok + 1) < sizeof_buf) (m : Nat) (b : List Char) :
    write_commit cfg parser (m + 1) tok b d
      = write_commit cfg parser m (tok + 2)
          (strncpy_term b (parser.tok_ptr (tok + 1)) (parser.tok_len (tok + 1)))
          (d.store i (commit_cell cfg o
            (strncpy_term b (parser.tok_ptr (tok + 1)) (parser.tok_len (tok + 1)))
            (parser.tok_ptr (tok + 1)) (parser.tok_len (tok + 1)))) := by
  rw [write_commit, hlook]
  simp only [if_pos hlen]

/-- One iteration of the commit loop, whatever the value length. -/
theorem write_commit_succ (cfg : Config) (parser : ts_parser_t) (d d' : ts_data_t)
    (n tok : Nat) (b : List Char)
    (h : write_commit cfg parser (n + 1) tok b d = some d') :
    ∃ i o b1 c, thingset_data_object_by_name d (parser.tok_ptr tok) (parser.tok_len tok)
        = some (i, o) ∧ write_commit cfg parser n (tok + 2) b1 (d.store i c) = some d' := by
  rw [write_commit] at h
  cases hlook : thingset_data_object_by_name d (parser.tok_ptr tok) (parser.tok_len tok) with
  | none =>
    rw [hlook] at h
    exact absurd h (by simp)
  | some p =>
    obtain ⟨i, o⟩ := p
    rw [hlook] at h
    exact ⟨i, o, _, _, rfl, h⟩

/-- The commit loop stores only through objects that a name token of the loop resolves
to. -/
theorem write_commit_frame (cfg : Config) (parser : ts_parser_t) (n : Nat) :
    ∀ (tok : Nat) (b : List Char) (d d' : ts_data_t),
      write_commit cfg parser n tok b d = some d' →
      ∀ k, (∀ j, j < n → key_index d parser (tok + 2 * j) ≠ some k) →
        d'.objects[k]? = d.objects[k]? := by
  induction n with
  | zero =>
    intro tok b d d' h k _
    simp only [write_commit, Option.some.injEq] at h
    rw [h]
  | succ n ih =>
    intro tok b d d' h k hk
    obtain ⟨i, o, b1, c, hlook, hrest⟩ := write_commit_succ cfg parser d d' n tok b h
    have h0 := hk 0 (Nat.succ_pos n)
    rw [Nat.mul_zero, Nat.add_zero] at h0
    have hik : ¬ i = k := by
      intro hik
      apply h0
      unfold key_index
      rw [hlook, hik]
      rfl
    rw [ih (tok + 2) b1 (d.store i c) d' hrest k ?_, store_getElem?]
    · cases d.objects[k]? with
      | none => rfl
      | some x => simp [hik]
    · intro j hj
      rw [key_index_store]
      have := hk (j + 1) (by omega)
      have hidx : tok + 2 * (j + 1) = tok + 2 + 2 * j := by omega
      rw [hidx] at this
      exact this

theorem with_data_self (o : data_object_t) : { o with data := o.data } = o := by
  cases o
  rfl

/-- The object that the name of pair `j` resolves to, and that no later name resolves to,
ends with the conversion of the value of pair `j`, stored by iteration `j` of the commit
loop. -/
theorem write_commit_last (cfg : Config) (parser : ts_parser_t) (n : Nat) :
    ∀ (tok : Nat) (b : List Char) (d d' : ts_data_t),
      write_commit cfg parser n tok b d = some d' →
      (∀ j, j < n → parser.tok_len (tok + 2 * j + 1) < sizeof_buf) →
      ∀ j, j < n → ∀ (k : Nat) (o : data_object_t),
        thingset_data_object_by_name d (parser.tok_ptr (tok + 2 * j))
          (parser.tok_len (tok + 2 * j)) = some (k, o) →
        (∀ j', j < j' → j' < n → key_index d parser (tok + 2 * j') ≠ some k) →
        ∃ b' c, d'.objects[k]? = some { o with data :=
          (commit_cell cfg { o with data := c }
            (strncpy_term b' (parser.tok_ptr (tok + 2 * j + 1))
              (parser.tok_len (tok + 2 * j + 1)))
            (parser.tok_ptr (tok + 2 * j + 1)) (parser.tok_len (tok + 2 * j + 1))) } := by
  induction n with
  | zero => intro tok b d d' _ _ j hj; omega
  | succ n ih =>
    intro tok b d d' h hlen j hj k o hlook hlater
    have hlen0 := hlen 0 (Nat.succ_pos n)
    rw [Nat.mul_zero, Nat.add_zero] at hlen0
    cases j with
    | zero =>
      rw [Nat.mul_zero, Nat.add_zero] at hlook ⊢
      rw [write_commit_step cfg parser d tok k o hlook hlen0] at h
      refine ⟨b, o.data, ?_⟩
      rw [write_commit_frame cfg parser n (tok + 2) _ _ d' h k ?_, store_getElem?,
        (by_name_some_test d _ _ k o hlook).1, with_data_self]
      · simp
      · intro j' hj'
        rw [key_index_store]
        have := hlater (j' + 1) (by omega) (by omega)
        have hidx : tok + 2 * (j' + 1) = tok + 2 + 2 * j' := by omega
        rw [hidx] at this
        exact this
    | succ j =>
      obtain ⟨i0, o0, b1, c0, hlook0, hrest⟩ := write_commit_succ cfg parser d d' n tok b h
      have hidx : tok + 2 * (j + 1) = tok + 2 + 2 * j := by omega
      rw [hidx] at hlook ⊢
      have hlook1 : thingset_data_object_by_name (d.store i0 c0)
          (parser.tok_ptr (tok + 2 + 2 * j)) (parser.tok_len (tok + 2 + 2 * j))
          = some (k, if k = i0 then { o with data := c0 } else o) := by
        rw [by_name_store_eq, hlook]
        rfl
      obtain ⟨b', c, hfinal⟩ := ih (tok + 2) b1 (d.store i0 c0) d' hrest
        (fun j' hj' => by
          have := hlen (j' + 1) (by omega)
          have hidx' : tok + 2 * (j' + 1) + 1 = tok + 2 + 2 * j' + 1 := by omega
          rw [hidx'] at this
          exact this)
        j (by omega) k _ hlook1
        (fun j' hjj' hj' => by
          rw [key_index_store]
          have := hlater (j' + 1) (by omega) (by omega)
          have hidx' : tok + 2 * (j' + 1) = tok + 2 + 2 * j' := by omega
          rw [hidx'] at this
          exact this)
      refine ⟨b', c, ?_⟩
      rw [hfinal]
      by_cases hk : k = i0
      · simp [hk]
      · simp [hk]

/-- The conversion that the commit loop stores for a validated value does not depend on
what the scratch array or the object held before, apart from the bytes behind the
terminator of a string. -/
theorem commit_cell_content (cfg : Config) (o : data_object_t) (kind : jsmntype_t)
    (c : ts_cell) (b b' src : List Char) (n : Nat)
    (hok : value_accepted cfg o kind (strncpy_term b src n)) :
    (commit_cell cfg { o with data := c } (strncpy_term b' src n) src n).content
      = (commit_cell cfg o (strncpy_term [] src n) src n).content := by
  unfold commit_cell
  cases ht : o.type
  case TS_T_BOOL =>
    simp only [value_accepted, ht, strncpy_term_head] at hok
    simp only [strncpy_term_head]
    rcases hok with h | h | h | h <;> simp only [h] <;> simp
  case TS_T_STRING =>
    simp only [ts_cell.content, strncpy_term_cstr]
  all_goals simp only [strncpy_term_cstr]

/-! ## Validation and commit together -/

/-- After `j` iterations the commit loop of a validated request stands at pair `j`: the name
resolves in the registry as it is then, to the index and object that the validation loop
resolved it to, up to the storage of the object. -/
theorem write_commit_reaches (cfg : Config) (parser : ts_parser_t) (resp : ts_buffer_t)
    (data : ts_data_t) (n : Nat) :
    ∀ (tok : Nat) (b0 buf b : List Char) (d : ts_data_t),
      write_validate cfg parser resp data n tok b0 = .ok buf → same_lookup data d →
      ∀ j, j < n → ∃ (d_j : ts_data_t) (b_j : List Char) (i : Nat) (o : data_object_t)
          (c : ts_cell) (b' : List Char),
        (∀ m, write_commit cfg parser (j + m) tok b d
          = write_commit cfg parser m (tok + 2 * j) b_j d_j) ∧
        thingset_data_object_by_name data (parser.tok_ptr (tok + 2 * j))
          (parser.tok_len (tok + 2 * j)) = some (i, o) ∧
        thingset_data_object_by_name d_j (parser.tok_ptr (tok + 2 * j))
          (parser.tok_len (tok + 2 * j)) = some (i, { o with data := c }) ∧
        pair_passes cfg parser o (tok + 2 * j) b' := by
  induction n with
  | zero => intro tok b0 buf b d _ _ j hj; omega
  | succ n ih =>
    intro tok b0 buf b d hval hsame j hj
    obtain ⟨i0, o0, hlook0, hpass0, hrest⟩ :=
      write_validate_step cfg parser resp data n tok b0 buf hval
    obtain ⟨c0, hd0⟩ := hsame _ _ i0 o0 hlook0
    cases j with
    | zero =>
      refine ⟨d, b, i0, o0, c0, b0, ?_, ?_, ?_, ?_⟩
      · intro m
        rw [Nat.zero_add, Nat.mul_zero, Nat.add_zero]
      · rw [Nat.mul_zero, Nat.add_zero]; exact hlook0
      · rw [Nat.mul_zero, Nat.add_zero]; exact hd0
      · rw [Nat.mul_zero, Nat.add_zero]; exact hpass0
    | succ j =>
      have hidx : tok + 2 * (j + 1) = tok + 2 + 2 * j := by omega
      rw [hidx]
      obtain ⟨d_j, b_j, i, o, c, b', hrun, hl, hlj, hp⟩ :=
        ih (tok + 2) _ buf
          (strncpy_term b (parser.tok_ptr (tok + 1)) (parser.tok_len (tok + 1)))
          (d.store i0 (commit_cell cfg { o0 with data := c0 }
            (strncpy_term b (parser.tok_ptr (tok + 1)) (parser.tok_len (tok + 1)))
            (parser.tok_ptr (tok + 1)) (parser.tok_len (tok + 1))))
          hrest (same_lookup_store data d _ _ hsame) j (by omega)
      refine ⟨d_j, b_j, i, o, c, b', ?_, hl, hlj, hp⟩
      intro m
      have e : j + 1 + m = (j + m) + 1 := by omega
      rw [e, write_commit_step cfg parser d tok i0 _ hd0 hpass0.2.2.2.1, hrun m]

/-- C17 (the commit pass cannot fail after validation): when the validation loop has run
over the `n` pairs of a request without returning, the commit loop started on the same
registry and the same request returns a registry (it dereferences no `NULL`), and for every
pair `j` it reaches that pair after `j` iterations, with some array `b_j` and registry
`data_j`, where: the name lookup returns the index `i` and the object `o` that validation
resolved, with only its stored value possibly changed; the value length is below
`sizeof(buf)`, so the array is refreshed; the refreshed array holds the value text and a
terminator whatever it held before, and passes the tests validation ran on it; and the
iteration stores the conversion of that array through the object `i`. -/
theorem write_commit_after_validation (cfg : Config) (parser : ts_parser_t)
    (resp : ts_buffer_t) (data : ts_data_t) (n tok : Nat) (buf0 buf : List Char)
    (hval : write_validate cfg parser resp data n tok buf0 = .ok buf) :
    (∃ data', write_commit cfg parser n tok buf data = some data') ∧
    ∀ j, j < n → ∃ (data_j : ts_data_t) (b_j : List Char) (i : Nat) (o : data_object_t)
        (c : ts_cell),
      (∀ m, write_commit cfg parser (j + m) tok buf data
        = write_commit cfg parser m (tok + 2 * j) b_j data_j) ∧
      thingset_data_object_by_name data (parser.tok_ptr (tok + 2 * j))
        (parser.tok_len (tok + 2 * j)) = some (i, o) ∧
      thingset_data_object_by_name data_j (parser.tok_ptr (tok + 2 * j))
        (parser.tok_len (tok + 2 * j)) = some (i, { o with data := c }) ∧
      parser.tok_len (tok + 2 * j + 1) < sizeof_buf ∧
      (∀ b,
        cstr (strncpy_term b (parser.tok_ptr (tok + 2 * j + 1))
          (parser.tok_len (tok + 2 * j + 1))) = cstr (parser.tok_text (tok + 2 * j + 1)) ∧
        (strncpy_term b (parser.tok_ptr (tok + 2 * j + 1))
          (parser.tok_len (tok + 2 * j + 1))).headD NUL
            = (parser.tok_text (tok + 2 * j + 1)).headD NUL ∧
        value_accepted cfg o (parser.tok (tok + 2 * j + 1)).type
          (strncpy_term b (parser.tok_ptr (tok + 2 * j + 1))
            (parser.tok_len (tok + 2 * j + 1)))) ∧
      ∀ m, write_commit cfg parser (m + 1) (tok + 2 * j) b_j data_j
        = write_commit cfg parser m (tok + 2 * j + 2)
            (strncpy_term b_j (parser.tok_ptr (tok + 2 * j + 1))
              (parser.tok_len (tok + 2 * j + 1)))
            (data_j.store i (commit_cell cfg { o with data := c }
              (strncpy_term b_j (parser.tok_ptr (tok + 2 * j + 1))
                (parser.tok_len (tok + 2 * j + 1)))
              (parser.tok_ptr (tok + 2 * j + 1)) (parser.tok_len (tok + 2 * j + 1)))) := by
  refine ⟨write_commit_returns cfg parser data n tok buf data (fun _ _ => rfl)
    (write_validate_ok_resolves cfg parser resp data n tok buf0 buf hval), ?_⟩
  intro j hj
  obtain ⟨d_j, b_j, i, o, c, b', hrun, hl, hlj, hp⟩ :=
    write_commit_reaches cfg parser resp data n tok buf0 buf buf data hval
      (same_lookup_refl data) j hj
  obtain ⟨_, _, _, hlen, _, hok⟩ := hp
  refine ⟨d_j, b_j, i, o, c, hrun, hl, hlj, hlen, ?_, ?_⟩
  · intro b
    exact ⟨strncpy_term_cstr _ _ _, strncpy_term_head _ _ _,
      value_accepted_refresh cfg o _ b' b _ _ hok⟩
  · intro m
    exact write_commit_step cfg parser d_j (tok + 2 * j) i _ hlj hlen m b_j

/-- The request `{"a":123}` on the sample registry: one pair, validated from the empty
array. -/
theorem write_commit_after_validation_witness :
    (∃ data', write_commit sample_cfg req_write_a_123 1 1 ("123".toList ++ [NUL]) sample_data
      = some data') ∧
    ∀ j, j < 1 → ∃ (data_j : ts_data_t) (b_j : List Char) (i : Nat) (o : data_object_t)
        (c : ts_cell),
      (∀ m, write_commit sample_cfg req_write_a_123 (j + m) 1 ("123".toList ++ [NUL])
          sample_data
        = write_commit sample_cfg req_write_a_123 m (1 + 2 * j) b_j data_j) ∧
      thingset_data_object_by_name sample_data (req_write_a_123.tok_ptr (1 + 2 * j))
        (req_write_a_123.tok_len (1 + 2 * j)) = some (i, o) ∧
      thingset_data_object_by_name data_j (req_write_a_123.tok_ptr (1 + 2 * j))
        (req_write_a_123.tok_len (1 + 2 * j)) = some (i, { o with data := c }) ∧
      req_write_a_123.tok_len (1 + 2 * j + 1) < sizeof_buf ∧
      (∀ b,
        cstr (strncpy_term b (req_write_a_123.tok_ptr (1 + 2 * j + 1))
          (req_write_a_123.tok_len (1 + 2 * j + 1)))
            = cstr (req_write_a_123.tok_text (1 + 2 * j + 1)) ∧
        (strncpy_term b (req_write_a_123.tok_ptr (1 + 2 * j + 1))
          (req_write_a_123.tok_len (1 + 2 * j + 1))).headD NUL
            = (req_write_a_123.tok_text (1 + 2 * j + 1)).headD NUL ∧
        value_accepted sample_cfg o (req_write_a_123.tok (1 + 2 * j + 1)).type
          (strncpy_term b (req_write_a_123.tok_ptr (1 + 2 * j + 1))
            (req_write_a_123.tok_len (1 + 2 * j + 1)))) ∧
      ∀ m, write_commit sample_cfg req_write_a_123 (m + 1) (1 + 2 * j) b_j data_j
        = write_commit sample_cfg req_write_a_123 m (1 + 2 * j + 2)
            (strncpy_term b_j (req_write_a_123.tok_ptr (1 + 2 * j + 1))
              (req_write_a_123.tok_len (1 + 2 * j + 1)))
            (data_j.store i (commit_cell sample_cfg { o with data := c }
              (strncpy_term b_j (req_write_a_123.tok_ptr (1 + 2 * j + 1))
                (req_write_a_123.tok_len (1 + 2 * j + 1)))
              (req_write_a_123.tok_ptr (1 + 2 * j + 1))
              (req_write_a_123.tok_len (1 + 2 * j + 1)))) :=
  write_commit_after_validation sample_cfg req_write_a_123 empty_resp sample_data 1 1 []
    ("123".toList ++ [NUL]) rfl

/-! ## A successful write -/

/-- The validation loop returns failure statuses only. -/
theorem write_validate_error_status (cfg : Config) (parser : ts_parser_t) (resp : ts_buffer_t)
    (data : ts_data_t) (n : Nat) :
    ∀ (tok : Nat) (b : List Char) (st : ts_status) (r : ts_buffer_t),
      write_validate cfg parser resp data n tok b = .error (st, r) →
      st ≠ .TS_STATUS_SUCCESS := by
  induction n with
  | zero =>
    intro tok b st r h
    simp [write_validate] at h
  | succ n ih =>
    intro tok b st r h
    rw [write_validate] at h
    split at h
    · simp only [Except.error.injEq, Prod.mk.injEq] at h
      rw [← h.1]
      decide
    · split at h
      · simp only [Except.error.injEq, Prod.mk.injEq] at h
        rw [← h.1]
        decide
      · dsimp only at h
        repeat' split at h
        all_goals first
          | exact ih _ _ _ _ h
          | (simp only [Except.error.injEq, Prod.mk.injEq] at h
             rw [← h.1]
             decide)

/-- A success of the write handler: the validation loop ran over all pairs without
returning and the commit loop produced the registry. -/
theorem write_json_success_inv (cfg : Config) (parser : ts_parser_t)
    (resp resp' : ts_buffer_t) (data data' : ts_data_t)
    (h : thingset_write_json cfg parser resp data
      = some (.TS_STATUS_SUCCESS, resp', data')) :
    ∃ buf, write_validate cfg parser resp data (write_pairs parser) (write_first parser) []
        = .ok buf ∧
      write_commit cfg parser (write_pairs parser) (write_first parser) buf data
        = some data' := by
  unfold thingset_write_json at h
  by_cases hlt : parser.tok_count < 2
  · rw [if_pos hlt] at h
    split at h <;> simp at h
  · rw [if_neg hlt] at h
    dsimp only at h
    unfold write_pairs write_first
    cases hv : write_validate cfg parser resp data
        ((parser.tok_count.toNat - if (parser.tok 0).type = jsmntype_t.JSMN_OBJECT then 1 else 0)
          / 2)
        (if (parser.tok 0).type = jsmntype_t.JSMN_OBJECT then 1 else 0) [] with
    | error e =>
      obtain ⟨st, r⟩ := e
      rw [hv] at h
      simp only [Option.some.injEq, Prod.mk.injEq] at h
      exact absurd h.1 (write_validate_error_status cfg parser resp data _ _ _ _ _ hv)
    | ok buf =>
      rw [hv] at h
      dsimp only at h
      cases hc : write_commit cfg parser
          ((parser.tok_count.toNat -
            if (parser.tok 0).type = jsmntype_t.JSMN_OBJECT then 1 else 0) / 2)
          (if (parser.tok 0).type = jsmntype_t.JSMN_OBJECT then 1 else 0) buf data with
      | none => rw [hc] at h; simp at h
      | some d =>
        rw [hc] at h
        simp only [Option.some.injEq, Prod.mk.injEq, true_and] at h
        exact ⟨buf, rfl, by rw [← h.2]; exact hc⟩

/-! ## String capacity -/

/-- C18 (frame of a successful write), every object having its own storage cell: when
`thingset_write_json` returns success, (i) every object whose name passes the name test of
the lookup for no name token of the request holds the stored value it held before, and
(ii) the object that the name of pair `j` resolves to and that no later pair resolves to is
the same object as before except for its stored value, which is the conversion of the value
of pair `j` (up to the bytes behind the terminator of a string). -/
theorem write_json_frame (cfg : Config) (parser : ts_parser_t) (resp resp' : ts_buffer_t)
    (data data' : ts_data_t)
    (hcall : thingset_write_json cfg parser resp data
      = some (.TS_STATUS_SUCCESS, resp', data')) :
    (∀ (k : Nat) (o : data_object_t), data.objects[k]? = some o →
      (∀ j, j < write_pairs parser → ¬ key_names parser (write_first parser + 2 * j) o) →
      data'.objects[k]? = some o) ∧
    (∀ j, j < write_pairs parser → ∀ (k : Nat) (o : data_object_t),
      thingset_data_object_by_name data (parser.tok_ptr (write_first parser + 2 * j))
        (parser.tok_len (write_first parser + 2 * j)) = some (k, o) →
      (∀ j', j < j' → j' < write_pairs parser →
        key_index data parser (write_first parser + 2 * j') ≠ some k) →
      ∃ o', data'.objects[k]? = some o' ∧ { o' with data := o.data } = o ∧
        o'.data.content
          = (commit_cell cfg o
              (strncpy_term [] (parser.tok_ptr (write_first parser + 2 * j + 1))
                (parser.tok_len (write_first parser + 2 * j + 1)))
              (parser.tok_ptr (write_first parser + 2 * j + 1))
              (parser.tok_len (write_first parser + 2 * j + 1))).content) := by
  obtain ⟨buf, hval, hcommit⟩ := write_json_success_inv cfg parser resp resp' data data' hcall
  have hpairs := write_commit_reaches cfg parser resp data (write_pairs parser)
    (write_first parser) [] buf buf data hval (same_lookup_refl data)
  constructor
  · intro k o hobj hnone
    rw [write_commit_frame cfg parser _ _ _ _ _ hcommit k ?_]
    · exact hobj
    · intro j hj hidx
      unfold key_index at hidx
      cases hlook : thingset_data_object_by_name data
          (parser.tok_ptr (write_first parser + 2 * j))
          (parser.tok_len (write_first parser + 2 * j)) with
      | none => rw [hlook] at hidx; simp at hidx
      | some p =>
        obtain ⟨i, o''⟩ := p
        rw [hlook] at hidx
        simp only [Option.map_some', Option.some.injEq] at hidx
        subst hidx
        obtain ⟨hobj', htest⟩ := by_name_some_test data _ _ i o'' hlook
        rw [hobj] at hobj'
        simp only [Option.some.injEq] at hobj'
        subst hobj'
        exact hnone j hj htest
  · intro j hj k o hlook hlater
    obtain ⟨_, _, i, ov, _, b0, _, hl, _, hp⟩ := hpairs j hj
    rw [hlook] at hl
    simp only [Option.some.injEq, Prod.mk.injEq] at hl
    obtain ⟨hi, ho⟩ := hl
    subst hi
    subst ho
    obtain ⟨b', c, hfinal⟩ := write_commit_last cfg parser _ _ _ _ _ hcommit
      (fun j' hj' => by
        obtain ⟨_, _, _, _, _, _, _, _, _, hp'⟩ := hpairs j' hj'
        exact hp'.2.2.2.1)
      j hj k o hlook hlater
    refine ⟨_, hfinal, ?_, ?_⟩
    · cases o
      rfl
    · exact commit_cell_content cfg o _ c b0 b' _ _ hp.2.2.2.2.2

/-- The request `{"a":1,"a":2}` on the sample registry leaves `b` as it was and `a` with the
conversion of the second value. -/
theorem write_json_frame_witness :
    (∀ (k : Nat) (o : data_object_t), sample_data.objects[k]? = some o →
      (∀ j, j < write_pairs req_write_a_1_a_2 →
        ¬ key_names req_write_a_1_a_2 (write_first req_write_a_1_a_2 + 2 * j) o) →
      (⟨[⟨0x1001, 3, .TS_T_UINT16, 0, .word16 2, "a".toList⟩,
          ⟨0x3001, 3, .TS_T_INT16, 0, .word16 65535, "b".toList⟩]⟩ : ts_data_t).objects[k]?
        = some o) ∧
    (∀ j, j < write_pairs req_write_a_1_a_2 → ∀ (k : Nat) (o : data_object_t),
      thingset_data_object_by_name sample_data
        (req_write_a_1_a_2.tok_ptr (write_first req_write_a_1_a_2 + 2 * j))
        (req_write_a_1_a_2.tok_len (write_first req_write_a_1_a_2 + 2 * j)) = some (k, o) →
      (∀ j', j < j' → j' < write_pairs req_write_a_1_a_2 →
        key_index sample_data req_write_a_1_a_2 (write_first req_write_a_1_a_2 + 2 * j')
          ≠ some k) →
      ∃ o', (⟨[⟨0x1001, 3, .TS_T_UINT16, 0, .word16 2, "a".toList⟩,
          ⟨0x3001, 3, .TS_T_INT16, 0, .word16 65535, "b".toList⟩]⟩ : ts_data_t).objects[k]?
          = some o' ∧ { o' with data := o.data } = o ∧
        o'.data.content
          = (commit_cell sample_cfg o
              (strncpy_term []
                (req_write_a_1_a_2.tok_ptr (write_first req_write_a_1_a_2 + 2 * j + 1))
                (req_write_a_1_a_2.tok_len (write_first req_write_a_1_a_2 + 2 * j + 1)))
              (req_write_a_1_a_2.tok_ptr (write_first req_write_a_1_a_2 + 2 * j + 1))
              (req_write_a_1_a_2.tok_len (write_first req_write_a_1_a_2 + 2 * j + 1))).content) :=
  write_json_frame sample_cfg req_write_a_1_a_2 empty_resp
    (thingset_status_message_json sample_cfg empty_resp .TS_STATUS_SUCCESS) sample_data
    ⟨[⟨0x1001, 3, .TS_T_UINT16, 0, .word16 2, "a".toList⟩,
      ⟨0x3001, 3, .TS_T_INT16, 0, .word16 65535, "b".toList⟩]⟩ (by decide)

/-! ## Type and token kind -/

/-- The write handler on a request of one pair, bare or inside an object: one iteration of
each loop. -/
theorem write_json_single (cfg : Config) (parser : ts_parser_t) (resp : ts_buffer_t)
    (data : ts_data_t) (k : Nat)
    (hshape : (parser.tok_count = 2 ∧ k = 0 ∧ (parser.tok 0).type ≠ .JSMN_OBJECT) ∨
      (parser.tok_count = 3 ∧ k = 1 ∧ (parser.tok 0).type = .JSMN_OBJECT)) :
    thingset_write_json cfg parser resp data
      = match write_validate cfg parser resp data 1 k [] with
        | .error (status, resp) => some (status, resp, data)
        | .ok buf =>
          match write_commit cfg parser 1 k buf data with
          | none => none
          | some data =>
            some (.TS_STATUS_SUCCESS,
              thingset_status_message_json cfg resp .TS_STATUS_SUCCESS, data) := by
  unfold thingset_write_json
  rcases hshape with ⟨hc, hk, h0⟩ | ⟨hc, hk, h0⟩
  · subst hk
    have hlt : ¬ parser.tok_count < 2 := by omega
    rw [if_neg hlt]
    simp only [h0, if_false, hc]
    have : (Int.toNat 2 - 0) / 2 = 1 := by decide
    rw [this]
    try rfl
  · subst hk
    have hlt : ¬ parser.tok_count < 2 := by omega
    rw [if_neg hlt]
    simp only [h0, if_true, hc]
    have : (Int.toNat 3 - 1) / 2 = 1 := by decide
    rw [this]
    try rfl

/-- C14 as stated fails: in the write `{"a":[]}` to the writable `uint16` object `a` the
value token is an ARRAY token, not a PRIMITIVE token, and its text has 2 characters; the
handler returns wrong-format, not wrong-type: the kinds of the two tokens are tested before
the object is looked up. -/
theorem write_json_type_check_counterexample :
    thingset_data_object_by_name sample_data (req_write_a_array.tok_ptr 1)
        (req_write_a_array.tok_len 1) = some (0, obj_a) ∧
      obj_a.access &&& sample_cfg.TS_ACCESS_WRITE ≠ 0 ∧ obj_a.type = .TS_T_UINT16 ∧
      (req_write_a_array.tok 2).type ≠ .JSMN_PRIMITIVE ∧ req_write_a_array.tok_len 2 < 21 ∧
      thingset_write_json sample_cfg req_write_a_array empty_resp sample_data
        = some (.TS_STATUS_WRONG_FORMAT,
            thingset_status_message_json sample_cfg empty_resp .TS_STATUS_WRONG_FORMAT,
            sample_data) := by
  refine ⟨?_, ?_, ?_, ?_, ?_, ?_⟩ <;> decide

/-- C14 (type and token kind), amended: for a write of one pair to a writable object, with a
value text shorter than 21 characters (and shorter than `detail` for a string object):
if the value token is neither a PRIMITIVE nor a STRING token, `thingset_write_json` returns
wrong-format and leaves the registry as it was; if it is a PRIMITIVE or a STRING token,
`thingset_write_json` returns wrong-type and leaves the registry as it was when (a) the
object is a string and the value token is not a STRING token, (b) the object is a bool and
the value text does not begin with `t`, `1`, `f` or `0` (an empty value included), or (c) the
object has another type and the value token is not a PRIMITIVE token, and for a bool object
a value beginning with `t` or `1` returns success and stores true, one beginning with `f` or
`0` returns success and stores false. -/
theorem write_json_type_check (cfg : Config) (parser : ts_parser_t) (resp : ts_buffer_t)
    (data : ts_data_t) (k i : Nat) (o : data_object_t)
    (hshape : (parser.tok_count = 2 ∧ k = 0 ∧ (parser.tok 0).type ≠ .JSMN_OBJECT) ∨
      (parser.tok_count = 3 ∧ k = 1 ∧ (parser.tok 0).type = .JSMN_OBJECT))
    (hname : (parser.tok k).type = .JSMN_STRING)
    (hres : thingset_data_object_by_name data (parser.tok_ptr k) (parser.tok_len k)
      = some (i, o))
    (hacc : o.access &&& cfg.TS_ACCESS_WRITE ≠ 0)
    (hlen : parser.tok_len (k + 1) < 21)
    (hdetail : o.type = .TS_T_STRING → (parser.tok_len (k + 1) : Int) < o.detail) :
    (((parser.tok (k + 1)).type ≠ .JSMN_PRIMITIVE ∧
        (parser.tok (k + 1)).type ≠ .JSMN_STRING) →
      thingset_write_json cfg parser resp data
        = some (.TS_STATUS_WRONG_FORMAT,
            thingset_status_message_json cfg resp .TS_STATUS_WRONG_FORMAT, data)) ∧
    (((parser.tok (k + 1)).type = .JSMN_PRIMITIVE ∨
        (parser.tok (k + 1)).type = .JSMN_STRING) →
      (((o.type = .TS_T_STRING ∧ (parser.tok (k + 1)).type ≠ .JSMN_STRING) ∨
        (o.type = .TS_T_BOOL ∧
          ¬ ((parser.tok_text (k + 1)).headD NUL = 't' ∨
            (parser.tok_text (k + 1)).headD NUL = '1' ∨
            (parser.tok_text (k + 1)).headD NUL = 'f' ∨
            (parser.tok_text (k + 1)).headD NUL = '0')) ∨
        (o.type ≠ .TS_T_STRING ∧ o.type ≠ .TS_T_BOOL ∧
          (parser.tok (k + 1)).type ≠ .JSMN_PRIMITIVE)) →
        thingset_write_json cfg parser resp data
          = some (.TS_STATUS_WRONG_TYPE,
              thingset_status_message_json cfg resp .TS_STATUS_WRONG_TYPE, data)) ∧
      (o.type = .TS_T_BOOL →
        ((parser.tok_text (k + 1)).headD NUL = 't' ∨
          (parser.tok_text (k + 1)).headD NUL = '1') →
        thingset_write_json cfg parser resp data
          = some (.TS_STATUS_SUCCESS,
              thingset_status_message_json cfg resp .TS_STATUS_SUCCESS,
              data.store i (.boolean true))) ∧
      (o.type = .TS_T_BOOL →
        ((parser.tok_text (k + 1)).headD NUL = 'f' ∨
          (parser.tok_text (k + 1)).headD NUL = '0') →
        thingset_write_json cfg parser resp data
          = some (.TS_STATUS_SUCCESS,
              thingset_status_message_json cfg resp .TS_STATUS_SUCCESS,
              data.store i (.boolean false)))) := by
  constructor
  · intro hk
    have hloop : write_validate cfg parser resp data 1 k []
        = .error (.TS_STATUS_WRONG_FORMAT,
            thingset_status_message_json cfg resp .TS_STATUS_WRONG_FORMAT) := by
      rw [write_validate, if_pos (Or.inr hk)]
    rw [write_json_single cfg parser resp data k hshape, hloop]
  intro hvalue
  have hfmt : ¬ ((parser.tok k).type ≠ .JSMN_STRING ∨
      ((parser.tok (k + 1)).type ≠ .JSMN_PRIMITIVE ∧
        (parser.tok (k + 1)).type ≠ .JSMN_STRING)) := by
    rcases hvalue with h | h <;> simp [hname, h]
  have hl : parser.tok_len (k + 1) < sizeof_buf := hlen
  have hsize : ¬ (parser.tok_len (k + 1) ≥ sizeof_buf ∨
      (o.type = .TS_T_STRING ∧ 0 ≤ o.detail ∧ o.detail ≤ (parser.tok_len (k + 1) : Int))) := by
    intro h
    rcases h with h | ⟨h1, _, h3⟩
    · omega
    · have := hdetail h1
      omega
  have hhead : ∀ b, (strncpy_term b (parser.tok_ptr (k + 1)) (parser.tok_len (k + 1))).headD NUL
      = (parser.tok_text (k + 1)).headD NUL := fun b => strncpy_term_head b _ _
  have hbool : ∀ cell : ts_cell, o.type = .TS_T_BOOL →
      ((parser.tok_text (k + 1)).headD NUL = 't' ∨
        (parser.tok_text (k + 1)).headD NUL = '1' ∨
        (parser.tok_text (k + 1)).headD NUL = 'f' ∨
        (parser.tok_text (k + 1)).headD NUL = '0') →
      (∀ b, commit_cell cfg o
        (strncpy_term b (parser.tok_ptr (k + 1)) (parser.tok_len (k + 1)))
        (parser.tok_ptr (k + 1)) (parser.tok_len (k + 1)) = cell) →
      thingset_write_json cfg parser resp data
        = some (.TS_STATUS_SUCCESS,
            thingset_status_message_json cfg resp .TS_STATUS_SUCCESS,
            data.store i cell) := by
    intro cell ht hh hcell
    have hns : ¬ o.type = .TS_T_STRING := by rw [ht]; decide
    have hloop : write_validate cfg parser resp data 1 k []
        = .ok (strncpy_term [] (parser.tok_ptr (k + 1)) (parser.tok_len (k + 1))) := by
      rw [write_validate, if_neg hfmt, hres]
      simp only [if_neg hacc, if_neg hsize, if_neg hns, if_pos ht, hhead, hh,
        not_true_eq_false, if_false, write_validate]
    rw [write_json_single cfg parser resp data k hshape, hloop]
    dsimp only
    rw [write_commit_step cfg parser data k i o hres hl 0, hcell]
    rfl
  refine ⟨?_, ?_, ?_⟩
  · intro hbad
    have hloop : write_validate cfg parser resp data 1 k []
        = .error (.TS_STATUS_WRONG_TYPE,
            thingset_status_message_json cfg resp .TS_STATUS_WRONG_TYPE) := by
      rw [write_validate, if_neg hfmt, hres]
      simp only [if_neg hacc, if_neg hsize]
      rcases hbad with ⟨ht, hk⟩ | ⟨ht, hk⟩ | ⟨hs, hb, hk⟩
      · simp only [if_pos ht, if_pos hk]
      · have hns : ¬ o.type = .TS_T_STRING := by rw [ht]; decide
        simp only [if_neg hns, if_pos ht, hhead, if_pos hk]
      · simp only [if_neg hs, if_neg hb, if_pos hk]
    rw [write_json_single cfg parser resp data k hshape, hloop]
  · intro ht hh
    apply hbool (.boolean true) ht (hh.elim Or.inl (fun h => Or.inr (Or.inl h)))
    intro b
    simp only [commit_cell, ht, hhead]
    rw [if_pos hh]
  · intro ht hh
    apply hbool (.boolean false) ht
      (hh.elim (fun h => Or.inr (Or.inr (Or.inl h))) (fun h => Or.inr (Or.inr (Or.inr h))))
    intro b
    simp only [commit_cell, ht, hhead]
    have hnot : ¬ ((parser.tok_text (k + 1)).headD NUL = 't' ∨
        (parser.tok_text (k + 1)).headD NUL = '1') := by
      rcases hh with h | h <;> rw [h] <;> decide
    rw [if_neg hnot, if_pos hh]

/-- The ARRAY token `[]` for `a` is a wrong format; the STRING token `x` for the `int16`
object `b` is a wrong type; `true` for the bool object `on` stores true. -/
theorem write_json_type_check_witness :
    thingset_write_json sample_cfg req_write_a_array empty_resp sample_data
      = some (.TS_STATUS_WRONG_FORMAT,
          thingset_status_message_json sample_cfg empty_resp .TS_STATUS_WRONG_FORMAT,
          sample_data) ∧
    thingset_write_json sample_cfg req_write_b_x empty_resp sample_data
      = some (.TS_STATUS_WRONG_TYPE,
          thingset_status_message_json sample_cfg empty_resp .TS_STATUS_WRONG_TYPE,
          sample_data) ∧
    thingset_write_json sample_cfg req_write_on_true empty_resp ⟨[obj_a, obj_on]⟩
      = some (.TS_STATUS_SUCCESS,
          thingset_status_message_json sample_cfg empty_resp .TS_STATUS_SUCCESS,
          (⟨[obj_a, obj_on]⟩ : ts_data_t).store 1 (.boolean true)) :=
  ⟨(write_json_type_check sample_cfg req_write_a_array empty_resp sample_data 1 0 obj_a
      (Or.inr ⟨by decide, rfl, by decide⟩) (by decide) (by decide) (by decide) (by decide)
      (by decide)).1 ⟨by decide, by decide⟩,
    ((write_json_type_check sample_cfg req_write_b_x empty_resp sample_data 1 1 obj_b
      (Or.inr ⟨by decide, rfl, by decide⟩) (by decide) (by decide) (by decide) (by decide)
      (by decide)).2 (Or.inr (by decide))).1
      (Or.inr (Or.inr ⟨by decide, by decide, by decide⟩)),
    ((write_json_type_check sample_cfg req_write_on_true empty_resp ⟨[obj_a, obj_on]⟩ 1 1
      obj_on (Or.inr ⟨by decide, rfl, by decide⟩) (by decide) (by decide) (by decide)
      (by decide) (by decide)).2 (Or.inl (by decide))).2.1 (by decide)
      (Or.inl (by decide))⟩

end ThingSet
